import Mathlib

/-!
# Presence and delivery engine of the chat backend

A shallow embedding of `backend/src/lib/socket.js` (the socket handlers and the
`userSocketMap` registry), of `backend/src/controllers/group.controller.js` (group
membership and group fan-out), of `sendMessage` in
`backend/src/controllers/message.controller.js`, and of the client's offline queue
(`frontend/src/lib/offline.js`) and message encryption
(`frontend/src/lib/encryption.js`), followed by the properties proved of them.

Conventions of the embedding

* Identifiers (`ObjectId`s, socket ids) are strings; `toString()` on them is the
  identity, and a request names a document by the canonical string of its id.  A
  socket id is the non-empty string socket.io generates, so a looked-up socket id is
  truthy exactly when it is defined; the handshake `userId` and the `receiverId` of a
  typing event are strings the client chooses, and the truthiness of the handshake
  `userId` is tested as the code does.  The id of a stored user is the string of an
  `ObjectId`, 24 hexadecimal digits, which is no property name of `Object.prototype`
  (`lookup_objectId`).
* `userSocketMap` is a plain JavaScript object used as a dictionary.  It is
  embedded as the list of its own entries in the order `Object.entries` /
  `Object.keys` enumerate them: the keys that are array indices in ascending order,
  then the other keys in the order of their creation.  A read `userSocketMap[key]`
  of a key the object does not own falls through to `Object.prototype`.
* A MongoDB collection is the list of its documents in insertion order;
  `findById` returns the first document with the given `_id`.
* `new Date()` and the `_id` Mongoose gives a new document are inputs of the
  handler that needs them.
* `io.emit` / `io.to(id).emit` append to the log `ServerState.emitted`.
* Each handler runs to completion before the next one starts.
* A text is a Lean `String`, a sequence of Unicode scalar values; the primitives of the
  Web platform that the client code calls are parameters of its embedding.
-/

namespace ChatApp

abbrev UserId := String
abbrev SocketId := String
abbrev MessageId := String
abbrev GroupId := String
abbrev Timestamp := Nat

/-- The `status` enum of the message schemas: `['sent', 'delivered', 'read']`. -/
inductive Status
  | sent
  | delivered
  | read
  deriving DecidableEq, Repr

/-- Position of a status in the lifecycle `sent < delivered < read`. -/
def Status.rank : Status → Nat
  | .sent => 0
  | .delivered => 1
  | .read => 2

/-- The `file` sub-document `{url, name, type, size}`. -/
structure FileData where
  url : String
  name : String
  type : String
  size : Nat
  deriving DecidableEq, Repr

/-- Modelled from the spec: `models/message.model.js` is not in the tree.  The fields
are those the spec's data model lists for a direct message and the handlers read or
write: identifier, sender, receiver, text, image, file, status and the two
timestamps. -/
structure Message where
  _id : MessageId
  senderId : UserId
  receiverId : UserId
  text : Option String
  image : Option String
  file : Option FileData
  status : Status
  deliveredAt : Option Timestamp
  readAt : Option Timestamp
  deriving DecidableEq, Repr

/-- An element of `readBy`: `{userId, readAt}`. -/
structure ReadEntry where
  userId : UserId
  readAt : Timestamp
  deriving DecidableEq, Repr

/-- An element of `deliveredTo`: `{userId, deliveredAt}`. -/
structure DeliveredEntry where
  userId : UserId
  deliveredAt : Timestamp
  deriving DecidableEq, Repr

/-- The `file` of a stored group message.  `groupMessageSchema` declares
`file: {type: {url: String, name: String, type: String, size: Number}}`; the inner object
has a key `type`, so Mongoose reads it as the declaration of one string path,
`file.type`, and a document keeps the `type` of the file it is given and nothing else. -/
structure StoredFile where
  type : String
  deriving DecidableEq, Repr

/-- The document of `groupMessageSchema` (`models/groupMessage.model.js`). -/
structure GroupMessage where
  _id : MessageId
  senderId : UserId
  groupId : GroupId
  text : Option String
  image : Option String
  file : Option StoredFile
  status : Status
  readBy : List ReadEntry
  deliveredTo : List DeliveredEntry
  deriving DecidableEq, Repr

/-- Modelled from the spec: `models/group.model.js` is not in the tree.  The fields are
those the spec's data model lists for a group and the controller reads or writes:
id, name, description, members, admin (exactly one user id) and the private flag. -/
structure Group where
  _id : GroupId
  name : String
  description : String
  members : List UserId
  admin : UserId
  isPrivate : Bool
  deriving DecidableEq, Repr

/-- Modelled from the spec: `models/user.model.js` is not in the tree.  The fields are
those the controllers read: `_id`, `blockedUsers` and
`privacySettings.allowMessaging`. -/
structure User where
  _id : UserId
  blockedUsers : List UserId
  allowMessaging : Bool
  deriving DecidableEq, Repr

/-- The payload of an outbound socket event, one constructor per event name. -/
inductive Payload
  | getOnlineUsers (userIds : List UserId)
  | messageStatusUpdate (messageId : MessageId) (status : Status)
      (deliveredAt : Option Timestamp) (readAt : Option Timestamp)
  | groupMessageStatusUpdate (messageId : MessageId) (status : Status) (userId : UserId)
  | userTyping (senderId : UserId)
  | userStoppedTyping (senderId : UserId)
  | newMessage (message : Message)
  | newGroupMessage (message : GroupMessage)
  | newGroupMember (groupId : GroupId) (member : User) (addedBy : UserId)
  deriving DecidableEq, Repr

/-- A defined value of `userSocketMap[key]`, which is what `io.to(...)` is called with:
the socket id stored under an own key, or the value that a key of `Object.prototype`
names on every plain object (a function, or the prototype itself for `__proto__`).  An
inherited value is truthy and is the id of no socket. -/
inductive Room
  | socket (socketId : SocketId)
  | inherited (name : String)
  deriving DecidableEq, Repr

/-- Where an event is sent: `io.emit` (every connection) or `io.to(room).emit`. -/
inductive Target
  | all
  | room (room : Room)
  deriving DecidableEq, Repr

/-- One call of `emit`. -/
structure Emit where
  target : Target
  payload : Payload
  deriving DecidableEq, Repr

/-- The object `userSocketMap`, `{userId: socketId}`, as its own entries in the order
`Object.keys` and `Object.entries` enumerate them. -/
abbrev UserSocketMap := List (UserId × SocketId)

/-- The server: the registry, the four collections and the log of emitted events. -/
structure ServerState where
  userSocketMap : UserSocketMap
  messages : List Message
  groupMessages : List GroupMessage
  groups : List Group
  users : List User
  emitted : List Emit
  deriving DecidableEq, Repr

/-! ## The registry (`socket.js`, lines 17-31 and 153-163) -/

/-- The property names of `Object.prototype`, which `userSocketMap = {}` inherits. -/
def objectPrototypeKeys : List String :=
  ["constructor", "__defineGetter__", "__defineSetter__", "hasOwnProperty",
    "__lookupGetter__", "__lookupSetter__", "isPrototypeOf", "propertyIsEnumerable",
    "toString", "valueOf", "__proto__", "toLocaleString"]

/-- The array index that a property key is, if it is one: the canonical decimal numeral
of a number below `2^32 - 1`. -/
def arrayIndex (key : String) : Option Nat :=
  match key.data with
  | [] => none
  | first :: more =>
    if (first :: more).all Char.isDigit ∧ (first ≠ '0' ∨ more = []) then
      let index := (first :: more).foldl (fun acc digit => 10 * acc + (digit.toNat - 48)) 0
      if index < 4294967295 then some index else none
    else none

/-- Whether a new own key `key` is enumerated before the own key `other`: array indices
come first, in ascending order, and the other keys follow in the order of their
creation. -/
def enumeratedBefore (key other : String) : Bool :=
  match arrayIndex key, arrayIndex other with
  | some i, some j => i < j
  | some _, none => true
  | none, _ => false

/-- The own property `key` of the object, `none` when it has none. -/
def ownSocketId (userSocketMap : UserSocketMap) (key : UserId) : Option SocketId :=
  userSocketMap.lookup key

/-- The function `getReceiverSocketId(userId)`, that is `userSocketMap[userId]`: the own
property when there is one, else the property inherited from `Object.prototype`, else
`undefined` (`none`). -/
def getReceiverSocketId (userSocketMap : UserSocketMap) (userId : UserId) : Option Room :=
  match ownSocketId userSocketMap userId with
  | some socketId => some (Room.socket socketId)
  | none => if userId ∈ objectPrototypeKeys then some (Room.inherited userId) else none

/-- An assignment to an existing own key: the key keeps its place and takes the new
value. -/
def replaceOwn : UserSocketMap → UserId → SocketId → UserSocketMap
  | [], _, _ => []
  | (key, value) :: rest, userId, socketId =>
    if key = userId then (key, socketId) :: rest
    else (key, value) :: replaceOwn rest userId socketId

/-- The creation of a new own key, at its place in the enumeration order. -/
def insertOwn : UserSocketMap → UserId → SocketId → UserSocketMap
  | [], userId, socketId => [(userId, socketId)]
  | (key, value) :: rest, userId, socketId =>
    if enumeratedBefore userId key then (userId, socketId) :: (key, value) :: rest
    else (key, value) :: insertOwn rest userId socketId

/-- The assignment `userSocketMap[userId] = socketId`.  For the key `__proto__` it calls
the setter inherited from `Object.prototype`, which ignores a string: no own property is
created and the object stays as it was. -/
def assign (userSocketMap : UserSocketMap) (userId : UserId) (socketId : SocketId) :
    UserSocketMap :=
  if userId = "__proto__" then userSocketMap
  else if (ownSocketId userSocketMap userId).isSome then replaceOwn userSocketMap userId socketId
  else insertOwn userSocketMap userId socketId

/-- The statement `delete userSocketMap[key]`. -/
def deleteKey (userSocketMap : UserSocketMap) (key : UserId) : UserSocketMap :=
  userSocketMap.filter (fun entry => entry.1 ≠ key)

/-- The list `Object.keys(userSocketMap)`. -/
def onlineUsers (userSocketMap : UserSocketMap) : List UserId :=
  userSocketMap.map Prod.fst

/-- The loop of the `disconnect` handler over `Object.entries(userSocketMap)`: delete
the key of the first entry whose value is the socket's id, then `break`. -/
def disconnectLoop (socketId : SocketId) (userSocketMap : UserSocketMap) :
    List (UserId × SocketId) → UserSocketMap
  | [] => userSocketMap
  | (key, value) :: rest =>
    if value = socketId then deleteKey userSocketMap key
    else disconnectLoop socketId userSocketMap rest

/-- The registry after the `disconnect` handler of socket `socketId`. -/
def unregister (userSocketMap : UserSocketMap) (socketId : SocketId) : UserSocketMap :=
  disconnectLoop socketId userSocketMap userSocketMap

/-- The registry after `if (userId) userSocketMap[userId] = socket.id`; the empty
string is the falsy handshake value. -/
def register (userSocketMap : UserSocketMap) (socketId : SocketId) (userId : UserId) :
    UserSocketMap :=
  if userId ≠ "" then assign userSocketMap userId socketId else userSocketMap

/-- Append one `io.to(room).emit(...)` to the log. -/
def emitTo (s : ServerState) (room : Room) (payload : Payload) : ServerState :=
  { s with emitted := s.emitted ++ [⟨Target.room room, payload⟩] }

/-- Append one `io.emit(...)` to the log. -/
def emitAll (s : ServerState) (payload : Payload) : ServerState :=
  { s with emitted := s.emitted ++ [⟨Target.all, payload⟩] }

/-- The body of `io.on("connection", ...)` up to the registration of the handlers. -/
def onConnection (s : ServerState) (socketId : SocketId) (userId : UserId) : ServerState :=
  let s1 := { s with userSocketMap := register s.userSocketMap socketId userId }
  emitAll s1 (Payload.getOnlineUsers (onlineUsers s1.userSocketMap))

/-- The handler `socket.on("disconnect", ...)`. -/
def onDisconnect (s : ServerState) (socketId : SocketId) : ServerState :=
  let s1 := { s with userSocketMap := unregister s.userSocketMap socketId }
  emitAll s1 (Payload.getOnlineUsers (onlineUsers s1.userSocketMap))

/-! ## Collections -/

/-- Replace the first element that satisfies `p` by its image under `f`: the effect of
`findByIdAndUpdate`, `updateOne` and `save` on a collection. -/
def updateFirst {α : Type} (p : α → Bool) (f : α → α) : List α → List α
  | [] => []
  | x :: xs => if p x then f x :: xs else x :: updateFirst p f xs

/-- The query `Message.findById(id)`. -/
def findMessage (messages : List Message) (id : MessageId) : Option Message :=
  messages.find? (fun m => m._id = id)

/-- The query `GroupMessage.findById(id)`. -/
def findGroupMessage (groupMessages : List GroupMessage) (id : MessageId) :
    Option GroupMessage :=
  groupMessages.find? (fun m => m._id = id)

/-- The query `Group.findById(id)`. -/
def findGroup (groups : List Group) (id : GroupId) : Option Group :=
  groups.find? (fun g => g._id = id)

/-- The query `User.findById(id)`. -/
def findUser (users : List User) (id : UserId) : Option User :=
  users.find? (fun u => u._id = id)

/-! ## Message lifecycle handlers (`socket.js`, lines 34-151) -/

/-- The handler `socket.on("messageDelivered", ...)`: an unconditional
`findByIdAndUpdate(messageId, {status: 'delivered', deliveredAt: new Date()})`, then a
`messageStatusUpdate` to the sender's socket when the message and the socket exist. -/
def onMessageDelivered (s : ServerState) (messageId : MessageId) (now : Timestamp) :
    ServerState :=
  let s1 := { s with
    messages := updateFirst (fun m => m._id = messageId)
      (fun m => { m with status := Status.delivered, deliveredAt := some now })
      s.messages }
  match findMessage s1.messages messageId with
  | none => s1
  | some message =>
    match getReceiverSocketId s1.userSocketMap message.senderId with
    | none => s1
    | some senderSocketId =>
      emitTo s1 senderSocketId
        (Payload.messageStatusUpdate message._id Status.delivered message.deliveredAt none)

/-- The handler `socket.on("messageRead", ...)`. -/
def onMessageRead (s : ServerState) (messageId : MessageId) (now : Timestamp) :
    ServerState :=
  let s1 := { s with
    messages := updateFirst (fun m => m._id = messageId)
      (fun m => { m with status := Status.read, readAt := some now })
      s.messages }
  match findMessage s1.messages messageId with
  | none => s1
  | some message =>
    match getReceiverSocketId s1.userSocketMap message.senderId with
    | none => s1
    | some senderSocketId =>
      emitTo s1 senderSocketId
        (Payload.messageStatusUpdate message._id Status.read none message.readAt)

/-- The handler `socket.on("typingStart", ...)`. -/
def onTypingStart (s : ServerState) (receiverId senderId : UserId) : ServerState :=
  match getReceiverSocketId s.userSocketMap receiverId with
  | none => s
  | some receiverSocketId => emitTo s receiverSocketId (Payload.userTyping senderId)

/-- The handler `socket.on("typingStop", ...)`. -/
def onTypingStop (s : ServerState) (receiverId senderId : UserId) : ServerState :=
  match getReceiverSocketId s.userSocketMap receiverId with
  | none => s
  | some receiverSocketId => emitTo s receiverSocketId (Payload.userStoppedTyping senderId)

/-- The events the loop `for (const memberId of group.members)` of `groupMessageRead`
emits: one per member that has a socket and is not `userId`, in member order. -/
def readNotifications (userSocketMap : UserSocketMap) (messageId : MessageId)
    (userId : UserId) (members : List UserId) : List Emit :=
  members.filterMap (fun memberId =>
    match getReceiverSocketId userSocketMap memberId with
    | none => none
    | some memberSocketId =>
      if memberId ≠ userId then
        some ⟨Target.room memberSocketId,
          Payload.groupMessageStatusUpdate messageId Status.read userId⟩
      else none)

/-- The handler `socket.on("groupMessageRead", ...)`: `updateOne` with the filter
`{_id: messageId, 'readBy.userId': {$ne: userId}}` pushes `{userId, readAt}` and sets
`status: 'read'`; then the other members of the message's group are notified. -/
def onGroupMessageRead (s : ServerState) (messageId : MessageId) (userId : UserId)
    (now : Timestamp) : ServerState :=
  let s1 := { s with
    groupMessages := updateFirst
      (fun m => m._id = messageId ∧ userId ∉ m.readBy.map ReadEntry.userId)
      (fun m => { m with readBy := m.readBy ++ [⟨userId, now⟩], status := Status.read })
      s.groupMessages }
  match findGroupMessage s1.groupMessages messageId with
  | none => s1
  | some groupMessage =>
    match findGroup s1.groups groupMessage.groupId with
    | none => s1
    | some group =>
      let notifications := readNotifications s1.userSocketMap groupMessage._id userId
        group.members
      { s1 with emitted := s1.emitted ++ notifications }

/-- The handler `socket.on("groupMessageDelivered", ...)`: `updateOne` with the filter
`{_id: messageId, 'deliveredTo.userId': {$ne: userId}}` pushes `{userId, deliveredAt}`
and sets `status: 'delivered'`.  It emits nothing. -/
def onGroupMessageDelivered (s : ServerState) (messageId : MessageId) (userId : UserId)
    (now : Timestamp) : ServerState :=
  { s with
    groupMessages := updateFirst
      (fun m => m._id = messageId ∧ userId ∉ m.deliveredTo.map DeliveredEntry.userId)
      (fun m => { m with deliveredTo := m.deliveredTo ++ [⟨userId, now⟩],
                         status := Status.delivered })
      s.groupMessages }

/-- An inbound socket event together with the inputs its handler reads. -/
inductive SocketEvent
  | connection (socketId : SocketId) (userId : UserId)
  | disconnect (socketId : SocketId)
  | messageDelivered (messageId : MessageId) (now : Timestamp)
  | messageRead (messageId : MessageId) (now : Timestamp)
  | typingStart (receiverId senderId : UserId)
  | typingStop (receiverId senderId : UserId)
  | groupMessageRead (messageId : MessageId) (userId : UserId) (now : Timestamp)
  | groupMessageDelivered (messageId : MessageId) (userId : UserId) (now : Timestamp)
  deriving DecidableEq, Repr

/-- Run the handler of one inbound event. -/
def handle (s : ServerState) : SocketEvent → ServerState
  | .connection socketId userId => onConnection s socketId userId
  | .disconnect socketId => onDisconnect s socketId
  | .messageDelivered messageId now => onMessageDelivered s messageId now
  | .messageRead messageId now => onMessageRead s messageId now
  | .typingStart receiverId senderId => onTypingStart s receiverId senderId
  | .typingStop receiverId senderId => onTypingStop s receiverId senderId
  | .groupMessageRead messageId userId now => onGroupMessageRead s messageId userId now
  | .groupMessageDelivered messageId userId now =>
    onGroupMessageDelivered s messageId userId now

/-- Run the handlers of a sequence of inbound events, first event first. -/
def handleAll (s : ServerState) (events : List SocketEvent) : ServerState :=
  events.foldl handle s

/-! ## Group controller (`group.controller.js`) -/

/-- What `res.json(...)` carries. -/
inductive Body
  | error (error : String)
  | message (message : String)
  | group (group : Group)
  | groupMessage (message : GroupMessage)
  | directMessage (message : Message)
  deriving DecidableEq, Repr

/-- The answer `res.status(status).json(body)`. -/
structure Response where
  status : Nat
  body : Body
  deriving DecidableEq, Repr

/-- The effect of `group.save()` on a stored group: the document with the same `_id` is
replaced. -/
def saveGroup (groups : List Group) (group : Group) : List Group :=
  updateFirst (fun g => g._id = group._id) (fun _ => group) groups

/-- The controller `createGroup` (lines 7-41).  `user` is `req.user._id`, `newId` the
`_id` of the new document; `save()` of a document whose `_id` is already stored throws
and the `catch` answers 500. -/
def createGroup (s : ServerState) (user : UserId) (name description : String)
    (members : List UserId) (isPrivate : Bool) (newId : GroupId) : Response × ServerState :=
  if user ∉ members then
    (⟨400, Body.error "Admin must be part of the group members"⟩, s)
  else
    let users := s.users.filter (fun u => u._id ∈ members)
    if users.length ≠ members.length then
      (⟨400, Body.error "One or more members don't exist"⟩, s)
    else
      let group : Group :=
        { _id := newId, name := name, description := description, members := members,
          admin := user, isPrivate := isPrivate }
      if (findGroup s.groups newId).isSome then
        (⟨500, Body.error "Internal server error"⟩, s)
      else
        (⟨201, Body.group group⟩, { s with groups := s.groups ++ [group] })

/-- The events the loop over `populatedGroup.members` of `addMember` emits: `populate`
keeps the members whose user document exists, and each of them that has a socket gets
one `newGroupMember`. -/
def newMemberNotifications (userSocketMap : UserSocketMap) (users : List User)
    (groupId : GroupId) (member : User) (addedBy : UserId) (members : List UserId) :
    List Emit :=
  (members.filterMap (findUser users)).filterMap (fun m =>
    match getReceiverSocketId userSocketMap m._id with
    | none => none
    | some memberSocketId =>
      some ⟨Target.room memberSocketId, Payload.newGroupMember groupId member addedBy⟩)

/-- The controller `addMember` (lines 60-108). -/
def addMember (s : ServerState) (user : UserId) (groupId : GroupId) (memberId : UserId) :
    Response × ServerState :=
  match findGroup s.groups groupId with
  | none => (⟨404, Body.error "Group not found"⟩, s)
  | some group =>
    if group.admin ≠ user then
      (⟨403, Body.error "Only admin can add members"⟩, s)
    else if memberId ∈ group.members then
      (⟨400, Body.error "Member already exists in group"⟩, s)
    else
      match findUser s.users memberId with
      | none => (⟨404, Body.error "User not found"⟩, s)
      | some newUser =>
        let group1 := { group with members := group.members ++ [memberId] }
        let s1 := { s with groups := saveGroup s.groups group1 }
        match findGroup s1.groups groupId with
        | none => (⟨500, Body.error "Internal server error"⟩, s1)
        | some populatedGroup =>
          let notifications := newMemberNotifications s1.userSocketMap s1.users groupId
            newUser user populatedGroup.members
          (⟨200, Body.message "Member added successfully"⟩,
            { s1 with emitted := s1.emitted ++ notifications })

/-- The controller `removeMember` (lines 111-145). -/
def removeMember (s : ServerState) (user : UserId) (groupId : GroupId) (memberId : UserId) :
    Response × ServerState :=
  match findGroup s.groups groupId with
  | none => (⟨404, Body.error "Group not found"⟩, s)
  | some group =>
    if group.admin ≠ user then
      (⟨403, Body.error "Only admin can remove members"⟩, s)
    else if memberId ∉ group.members then
      (⟨400, Body.error "Member not found in group"⟩, s)
    else if memberId = user then
      (⟨400, Body.error "Admin cannot remove themselves"⟩, s)
    else
      let group1 := { group with members := group.members.filter (fun id => id ≠ memberId) }
      (⟨200, Body.message "Member removed successfully"⟩,
        { s with groups := saveGroup s.groups group1 })

/-- The effect of `Group.findByIdAndDelete(groupId)`: the first document with that
`_id` is removed. -/
def deleteGroup (groups : List Group) (groupId : GroupId) : List Group :=
  groups.eraseP (fun g => g._id = groupId)

/-- The controller `leaveGroup` (lines 251-290).  When the filtered member list is empty
`newMembers[0]` is `undefined`; the group schema makes `admin` a required reference
(the spec's data model: exactly one user id), so `save()` throws and the `catch`
answers 500. -/
def leaveGroup (s : ServerState) (user : UserId) (groupId : GroupId) :
    Response × ServerState :=
  match findGroup s.groups groupId with
  | none => (⟨404, Body.error "Group not found"⟩, s)
  | some group =>
    if user ∉ group.members then
      (⟨400, Body.error "You are not a member of this group"⟩, s)
    else if group.admin = user then
      if group.members.length = 1 then
        (⟨200, Body.message "Group deleted as you were the only member"⟩,
          { s with groups := deleteGroup s.groups groupId })
      else
        let newMembers := group.members.filter (fun id => id ≠ user)
        match newMembers with
        | [] => (⟨500, Body.error "Internal server error"⟩, s)
        | first :: _ =>
          let group1 := { group with admin := first, members := newMembers }
          (⟨200, Body.message "You left the group and admin was transferred"⟩,
            { s with groups := saveGroup s.groups group1 })
    else
      let group1 := { group with members := group.members.filter (fun id => id ≠ user) }
      (⟨200, Body.message "You left the group successfully"⟩,
        { s with groups := saveGroup s.groups group1 })

/-- The loop of `sendGroupMessage` over `group.members` that looks for a member who
blocked the sender (lines 166-171).  `some r` is the answer that ends the request:
403 at the first member who blocked the sender, 500 when a member has no user
document (`member.blockedUsers` of `null` throws); `none` means the loop ran through. -/
def blockedBy (users : List User) (senderId : UserId) : List UserId → Option Response
  | [] => none
  | memberId :: rest =>
    match findUser users memberId with
    | none => some ⟨500, Body.error "Internal server error"⟩
    | some member =>
      if senderId ∈ member.blockedUsers then
        some ⟨403, Body.error "You are blocked by a group member and cannot send messages"⟩
      else blockedBy users senderId rest

/-- The events the loop over `groupMembers` of `sendGroupMessage` emits (lines
201-212): `groupMembers` are the user documents whose `_id` is in `group.members`, and
each of them other than the sender that has a socket gets one `newGroupMessage`. -/
def newGroupMessageEmits (userSocketMap : UserSocketMap) (users : List User)
    (senderId : UserId) (members : List UserId) (newMessage : GroupMessage) : List Emit :=
  (users.filter (fun u => u._id ∈ members)).filterMap (fun member =>
    if member._id ≠ senderId then
      match getReceiverSocketId userSocketMap member._id with
      | none => none
      | some memberSocketId =>
        some ⟨Target.room memberSocketId, Payload.newGroupMessage newMessage⟩
    else none)

/-- The document `new GroupMessage({senderId, groupId, text, image, file})` of
`sendGroupMessage` (lines 173-197): a truthy `image` is stored and the file dropped,
otherwise the file is stored, as far as the schema has paths for it (`StoredFile`);
`status`, `readBy` and `deliveredTo` take the schema defaults. -/
def buildGroupMessage (newId : MessageId) (senderId : UserId) (groupId : GroupId)
    (text image : Option String) (file : Option FileData) : GroupMessage :=
  let hasImage : Bool := match image with
    | some url => decide (url ≠ "")
    | none => false
  { _id := newId, senderId := senderId, groupId := groupId, text := text,
    image := if hasImage then image else none,
    file := if hasImage then none else file.map (fun fileData => ⟨fileData.type⟩),
    status := Status.sent, readBy := [], deliveredTo := [] }

/-- The controller `sendGroupMessage` (lines 148-219).  `senderId` is `req.user._id`,
`newId` the `_id` of the new document. -/
def sendGroupMessage (s : ServerState) (senderId : UserId) (groupId : GroupId)
    (text image : Option String) (file : Option FileData) (newId : MessageId) :
    Response × ServerState :=
  match findGroup s.groups groupId with
  | none => (⟨404, Body.error "Group not found"⟩, s)
  | some group =>
    if senderId ∉ group.members then
      (⟨403, Body.error "You are not a member of this group"⟩, s)
    else
      match blockedBy s.users senderId group.members with
      | some response => (response, s)
      | none =>
        let newMessage := buildGroupMessage newId senderId groupId text image file
        if (findGroupMessage s.groupMessages newId).isSome then
          (⟨500, Body.error "Internal server error"⟩, s)
        else
          let s1 := { s with groupMessages := s.groupMessages ++ [newMessage] }
          let emits := newGroupMessageEmits s1.userSocketMap s1.users senderId
            group.members newMessage
          (⟨201, Body.groupMessage newMessage⟩, { s1 with emitted := s1.emitted ++ emits })

/-- A request to one of the membership routes, with the authenticated user first. -/
inductive GroupRequest
  | createGroup (user : UserId) (name description : String) (members : List UserId)
      (isPrivate : Bool) (newId : GroupId)
  | addMember (user : UserId) (groupId : GroupId) (memberId : UserId)
  | removeMember (user : UserId) (groupId : GroupId) (memberId : UserId)
  | leaveGroup (user : UserId) (groupId : GroupId)
  deriving DecidableEq, Repr

/-- Run the controller of one membership request. -/
def serve (s : ServerState) : GroupRequest → Response × ServerState
  | .createGroup user name description members isPrivate newId =>
    createGroup s user name description members isPrivate newId
  | .addMember user groupId memberId => addMember s user groupId memberId
  | .removeMember user groupId memberId => removeMember s user groupId memberId
  | .leaveGroup user groupId => leaveGroup s user groupId

/-- The state after a sequence of membership requests, first request first. -/
def serveAll (s : ServerState) (requests : List GroupRequest) : ServerState :=
  requests.foldl (fun st r => (serve st r).2) s

/-- The states the membership routes can reach: start with no group stored and with
user documents of distinct `_id` (the unique index of the collection), then serve any
sequence of `createGroup`, `addMember`, `removeMember` and `leaveGroup` requests,
accepted or rejected, by any requester. -/
def Reachable (s : ServerState) : Prop :=
  ∃ (s0 : ServerState) (requests : List GroupRequest),
    s0.groups = [] ∧ (s0.users.map User._id).Nodup ∧ serveAll s0 requests = s

/-! ## Message controller (`message.controller.js`, lines 117-187) -/

/-- Whether `if (image)` holds: the body carries a non-empty `image`. -/
def hasImage (image : Option String) : Bool :=
  match image with
  | some data => decide (data ≠ "")
  | none => false

/-- The code points that `String.prototype.trim` strips: the white space and the line
terminators of ECMAScript. -/
def isTrimmed (c : Char) : Bool :=
  c.toNat ∈ [0x09, 0x0A, 0x0B, 0x0C, 0x0D, 0x20, 0xA0, 0x1680, 0x2028, 0x2029, 0x202F,
      0x205F, 0x3000, 0xFEFF] ∨
    (0x2000 ≤ c.toNat ∧ c.toNat ≤ 0x200A)

/-- The method `String.prototype.trim`: the text without its leading and trailing white
space and line terminators. -/
def trim (text : String) : String :=
  String.mk ((text.data.dropWhile isTrimmed).reverse.dropWhile isTrimmed).reverse

/-- The document `new Message({senderId, receiverId, text, image, file})` of
`sendMessage` (lines 145-173): with a truthy `image` the uploaded `secure_url` is stored
and the file dropped, otherwise the file is stored; the text is trimmed, an empty or
absent text becomes `null`; `status` and the timestamps take the schema defaults. -/
def buildMessage (newId : MessageId) (senderId receiverId : UserId)
    (text image : Option String) (file : Option FileData) (uploaded : Option String) :
    Message :=
  let sanitizedText : Option String := match text with
    | some t => if t ≠ "" then some (trim t) else none
    | none => none
  { _id := newId, senderId := senderId, receiverId := receiverId,
    text := sanitizedText,
    image := if hasImage image then uploaded else none,
    file := if hasImage image then none else file,
    status := Status.sent, deliveredAt := none, readAt := none }

/-- The controller `sendMessage`.  `senderId` is `req.user._id`, `receiverId` the route
parameter, `uploaded` the `secure_url` that `cloudinary.uploader.upload(image)` answers
(`none` when the upload throws) and `newId` the `_id` of the new document.  A thrown
exception (`sender` is `null`, failed upload, `save()` of a stored `_id`) is answered 500
by the `catch`. -/
def sendMessage (s : ServerState) (senderId receiverId : UserId) (text image : Option String)
    (file : Option FileData) (uploaded : Option String) (newId : MessageId) :
    Response × ServerState :=
  match findUser s.users receiverId with
  | none => (⟨404, Body.error "Receiver not found"⟩, s)
  | some receiver =>
    if senderId = receiverId then
      (⟨400, Body.error "You cannot send a message to yourself"⟩, s)
    else
      match findUser s.users senderId with
      | none => (⟨500, Body.error "Internal server error"⟩, s)
      | some sender =>
        if receiverId ∈ sender.blockedUsers ∨ senderId ∈ receiver.blockedUsers then
          (⟨403, Body.error "Messaging is not allowed between these users"⟩, s)
        else if receiver.allowMessaging = false then
          (⟨403, Body.error "This user does not allow messages"⟩, s)
        else if hasImage image = true ∧ uploaded = none then
          (⟨500, Body.error "Internal server error"⟩, s)
        else
          let newMessage := buildMessage newId senderId receiverId text image file uploaded
          if (findMessage s.messages newId).isSome then
            (⟨500, Body.error "Internal server error"⟩, s)
          else
            let s1 := { s with messages := s.messages ++ [newMessage] }
            match getReceiverSocketId s1.userSocketMap receiverId with
            | none => (⟨201, Body.directMessage newMessage⟩, s1)
            | some receiverSocketId =>
              (⟨201, Body.directMessage newMessage⟩,
                emitTo s1 receiverSocketId (Payload.newMessage newMessage))

/-! ## Offline queue of the client (`frontend/src/lib/offline.js`) -/

/-- An entry of the `pendingMessages` array kept in `localStorage`:
`{id, receiverId, data, timestamp}`; `data` is the request body, kept as text. -/
structure PendingMessage where
  id : String
  receiverId : UserId
  data : String
  timestamp : Timestamp
  deriving DecidableEq, Repr

/-- The browser as `offline.js` sees it: the item `pendingMessages` of `localStorage`
(`none` when the key is not set; the JSON text is kept as the array it encodes) and the
log of the requests `axiosInstance.post` was called with. -/
structure Browser where
  pendingMessages : Option (List PendingMessage)
  posted : List PendingMessage
  deriving DecidableEq, Repr

/-- The function `getPendingMessages`: the stored array, or `[]` when the item is not
set. -/
def getPendingMessages (b : Browser) : List PendingMessage :=
  match b.pendingMessages with
  | some queue => queue
  | none => []

/-- The function `removePendingMessage(messageId)`: read the array, keep the entries
whose `id` differs, write the array back. -/
def removePendingMessage (b : Browser) (messageId : String) : Browser :=
  { b with
    pendingMessages := some ((getPendingMessages b).filter (fun msg => msg.id ≠ messageId)) }

/-- The loop of `attemptToSendPendingMessages` over the array read at the start.
`post message` is the outcome of the request for `message`: `some status` when
`axiosInstance.post` resolves with that status, `none` when it throws.  Only a 201
removes the message from the stored array. -/
def sendPendingLoop (post : PendingMessage → Option Nat) :
    List PendingMessage → Browser → Browser
  | [], b => b
  | message :: rest, b =>
    let b1 := { b with posted := b.posted ++ [message] }
    match post message with
    | some status =>
      if status = 201 then sendPendingLoop post rest (removePendingMessage b1 message.id)
      else sendPendingLoop post rest b1
    | none => sendPendingLoop post rest b1

/-- The function `attemptToSendPendingMessages`: nothing happens for an empty array,
otherwise every entry of the array read at the start is posted in turn. -/
def attemptToSendPendingMessages (post : PendingMessage → Option Nat) (b : Browser) :
    Browser :=
  let pendingMessages := getPendingMessages b
  if pendingMessages.length = 0 then b
  else sendPendingLoop post pendingMessages b

/-! ## Message encryption of the client (`frontend/src/lib/encryption.js`) -/

/-- The primitives of the Web platform that `encryption.js` calls, taken as parameters:
they are not code of the repository.  Bytes are natural numbers; `Key` is a
`CryptoKey` and `Meta` a file-metadata object.  `encode`/`decode` are
`TextEncoder`/`TextDecoder`; `encrypt key iv data` and `decrypt key iv data` are
`crypto.subtle.encrypt`/`decrypt` with `{name: "AES-GCM", iv}` (`none` when the promise
rejects); `maxArguments` is the largest number of arguments the engine accepts in one
call, beyond which a spread call `f(...bytes)` throws a `RangeError`; `btoa bytes` is
`btoa` of the string whose character codes are `bytes`, and `atob text` is
`atob(text).split("").map(c => c.charCodeAt(0))` (`none` when `atob` throws);
`stringify`/`parse` are `JSON.stringify`/`JSON.parse` (`none` when it throws). -/
structure WebCrypto (Key Meta : Type) where
  encode : String → List Nat
  decode : List Nat → String
  encrypt : Key → List Nat → List Nat → List Nat
  decrypt : Key → List Nat → List Nat → Option (List Nat)
  maxArguments : Nat
  btoa : List Nat → String
  atob : String → Option (List Nat)
  stringify : Meta → String
  parse : String → Option Meta

/-- The function `encryptMessage(message, key)`; `iv` is the value of
`crypto.getRandomValues(new Uint8Array(12))`.  The result is the base64 text of the IV
followed by the ciphertext.  The call `String.fromCharCode(...result)` passes every byte
of `result` as an argument of its own and throws a `RangeError` when there are more of
them than the engine accepts. -/
def encryptMessage {Key Meta : Type} (w : WebCrypto Key Meta) (message : String) (key : Key)
    (iv : List Nat) : Except String String :=
  let data := w.encode message
  let encryptedData := w.encrypt key iv data
  let result := iv ++ encryptedData
  if result.length ≤ w.maxArguments then Except.ok (w.btoa result)
  else Except.error "RangeError"

/-- The function `decryptMessage(encryptedMessage, key)`: the first 12 bytes of the
decoded text are the IV, the rest is the ciphertext.  A rejected decryption is rethrown
as `Failed to decrypt message`; `atob` is called outside the `try`. -/
def decryptMessage {Key Meta : Type} (w : WebCrypto Key Meta) (encryptedMessage : String)
    (key : Key) : Except String String :=
  match w.atob encryptedMessage with
  | none => Except.error "InvalidCharacterError"
  | some data =>
    let iv := data.take 12
    let encryptedContent := data.drop 12
    match w.decrypt key iv encryptedContent with
    | some decryptedData => Except.ok (w.decode decryptedData)
    | none => Except.error "Failed to decrypt message"

/-- The function `encryptFileMetadata(fileMetadata, key)`. -/
def encryptFileMetadata {Key Meta : Type} (w : WebCrypto Key Meta) (fileMetadata : Meta)
    (key : Key) (iv : List Nat) : Except String String :=
  encryptMessage w (w.stringify fileMetadata) key iv

/-- The function `decryptFileMetadata(encryptedFileMetadata, key)`. -/
def decryptFileMetadata {Key Meta : Type} (w : WebCrypto Key Meta)
    (encryptedFileMetadata : String) (key : Key) : Except String Meta :=
  match decryptMessage w encryptedFileMetadata key with
  | Except.error e => Except.error e
  | Except.ok decryptedJson =>
    match w.parse decryptedJson with
    | some fileMetadata => Except.ok fileMetadata
    | none => Except.error "SyntaxError"

/-! ## Notions used to state the properties -/

/-- The events that end the registration of user `u` on socket `c`: the disconnect of
`c`, and a connection whose handshake names `u`. -/
def endsRegistration (u : UserId) (c : SocketId) : SocketEvent → Bool
  | .connection _ userId => decide (userId = u)
  | .disconnect socketId => decide (socketId = c)
  | _ => false

/-- The keys of a registry are pairwise distinct, as the own keys of an object are. -/
def DistinctKeys (userSocketMap : UserSocketMap) : Prop :=
  (userSocketMap.map Prod.fst).Nodup

instance (userSocketMap : UserSocketMap) : Decidable (DistinctKeys userSocketMap) := by
  unfold DistinctKeys; infer_instance


/-- The router call `emitToGroup(group, "newGroupMessage", message, excludeUserId)` in
the spec's words: one event for each member present in the registry, except the
excluded sender, addressed to that member's connection. -/
def emitToGroup (userSocketMap : UserSocketMap) (excludeUserId : UserId)
    (members : List UserId) (message : GroupMessage) : List Emit :=
  members.filterMap (fun memberId =>
    if memberId ≠ excludeUserId then
      (getReceiverSocketId userSocketMap memberId).map
        (fun c => ⟨Target.room c, Payload.newGroupMessage message⟩)
    else none)

/-- The members other than `senderId` that are present in the registry. -/
def registeredOthers (userSocketMap : UserSocketMap) (senderId : UserId)
    (members : List UserId) : List UserId :=
  members.filter (fun memberId =>
    memberId ≠ senderId ∧ (getReceiverSocketId userSocketMap memberId).isSome)

/-- A state with no group to start from: users `u1`, `u2`, `u3`, `u4` and a registry in
which only `u2` is connected. -/
def sampleStart : ServerState :=
  { userSocketMap := [("u2", "c2")],
    messages := [],
    groupMessages := [],
    groups := [],
    users := [⟨"u1", [], true⟩, ⟨"u2", [], true⟩, ⟨"u3", [], true⟩, ⟨"u4", [], true⟩],
    emitted := [] }

/-- The group `G` of `u1` (admin), `u2` and `u3`. -/
def sampleGroup : Group :=
  { _id := "G", name := "team", description := "", members := ["u1", "u2", "u3"],
    admin := "u1", isPrivate := false }

/-- The group `H` whose only member is its admin `u4`. -/
def soloGroup : Group :=
  { _id := "H", name := "solo", description := "", members := ["u4"], admin := "u4",
    isPrivate := false }

/-- The state `sampleStart` after `u1` created the group `G` with `u2` and `u3` and `u4`
created the group `H` alone. -/
def sampleState : ServerState :=
  { sampleStart with groups := [sampleGroup, soloGroup] }

/-- The two `createGroup` requests that lead from `sampleStart` to `sampleState`. -/
def sampleRequests : List GroupRequest :=
  [GroupRequest.createGroup "u1" "team" "" ["u1", "u2", "u3"] false "G",
    GroupRequest.createGroup "u4" "solo" "" ["u4"] false "H"]

/-- The two membership invariants of a stored group: the admin is a member and no
member is listed twice. -/
def GroupOk (g : Group) : Prop :=
  g.admin ∈ g.members ∧ g.members.Nodup

/-- The invariant of the stored groups and users: every group satisfies `GroupOk`, and
group ids and user ids are distinct within their collection. -/
def StoreOk (s : ServerState) : Prop :=
  (∀ g ∈ s.groups, GroupOk g) ∧ (s.groups.map Group._id).Nodup ∧
    (s.users.map User._id).Nodup

/-- What the connection `socketId` receives of a log of emitted events: the broadcasts
and the events addressed to its own room. -/
def receivedBy (socketId : SocketId) (emitted : List Emit) : List Payload :=
  emitted.filterMap (fun e =>
    if e.target = Target.all ∨ e.target = Target.room (Room.socket socketId) then
      some e.payload
    else none)

/-- The router call `emitToUser(userId, payload)` in the spec's words: one event to the
connection registered for the user, nothing when the user is not registered.  The
registry is looked up as the code looks it up, with `getReceiverSocketId`. -/
def emitToUser (userSocketMap : UserSocketMap) (userId : UserId) (payload : Payload) :
    List Emit :=
  match getReceiverSocketId userSocketMap userId with
  | some c => [⟨Target.room c, payload⟩]
  | none => []

/-- The router call `emitToGroup(group, payload, excludeUserId)` in the spec's words, for
any payload: one event for each listed member present in the registry, except the
excluded one, addressed to that member's connection. -/
def emitToMembers (userSocketMap : UserSocketMap) (excludeUserId : UserId)
    (members : List UserId) (payload : Payload) : List Emit :=
  members.filterMap (fun memberId =>
    if memberId ≠ excludeUserId then
      (getReceiverSocketId userSocketMap memberId).map (fun c => ⟨Target.room c, payload⟩)
    else none)

/-- The direct message `m1` from `u1` to `u2`, as stored by `sendMessage`. -/
def sampleMessage : Message :=
  { _id := "m1", senderId := "u1", receiverId := "u2", text := some "hi", image := none,
    file := none, status := Status.sent, deliveredAt := none, readAt := none }

/-- The group message `g1` of `u1` in the group `G`, as stored by `sendGroupMessage`. -/
def sampleGroupMessage : GroupMessage :=
  { _id := "g1", senderId := "u1", groupId := "G", text := some "hi", image := none,
    file := none, status := Status.sent, readBy := [], deliveredTo := [] }

/-- The state `sampleState` with `m1` and `g1` stored and `u1` connected on `c1` besides
`u2` on `c2`. -/
def sampleChat : ServerState :=
  { sampleState with
    userSocketMap := [("u2", "c2"), ("u1", "c1")],
    messages := [sampleMessage],
    groupMessages := [sampleGroupMessage] }

/-- The state `sampleState` in which the member `u2` of `G` has blocked `u1`. -/
def sampleBlocked : ServerState :=
  { sampleState with
    users := [⟨"u1", [], true⟩, ⟨"u2", ["u1"], true⟩, ⟨"u3", [], true⟩, ⟨"u4", [], true⟩] }

/-- The socket ids of the `connection` events of a sequence, in order. -/
def connectionIds : List SocketEvent → List SocketId
  | [] => []
  | .connection socketId _ :: rest => socketId :: connectionIds rest
  | _ :: rest => connectionIds rest

/-- The registries the server can reach: start from the empty registry and handle any
sequence of socket events in which every `connection` is on a fresh socket id, as
socket.io gives each socket an id of its own. -/
def RegistryReachable (r : UserSocketMap) : Prop :=
  ∃ (s0 : ServerState) (events : List SocketEvent),
    s0.userSocketMap = [] ∧ (connectionIds events).Nodup ∧
      (handleAll s0 events).userSocketMap = r

/-- The four acknowledgement events. -/
def isAcknowledgement : SocketEvent → Bool
  | .messageDelivered _ _ => true
  | .messageRead _ _ => true
  | .groupMessageRead _ _ _ => true
  | .groupMessageDelivered _ _ _ => true
  | _ => false

/-- The pending queue of the examples: three messages for `u2`. -/
def sampleQueue : List PendingMessage :=
  [⟨"offline-1", "u2", "a", 1⟩, ⟨"offline-2", "u2", "b", 2⟩, ⟨"offline-3", "u2", "c", 3⟩]

/-- The outcomes of the examples: the first request is answered 201, the second throws,
the third is answered 200. -/
def samplePost (message : PendingMessage) : Option Nat :=
  if message.id = "offline-1" then some 201
  else if message.id = "offline-2" then none
  else some 200

/-- A stand-in for the platform primitives to evaluate the functions on: bytes are code
points, the cipher adds the first byte of the IV to every byte, a call takes at most
65536 arguments, base64 text is the string of the bytes as code points and JSON text is
the metadata itself. -/
def sampleCrypto : WebCrypto Unit String :=
  { encode := fun text => text.toList.map Char.toNat,
    decode := fun bytes => String.mk (bytes.map Char.ofNat),
    encrypt := fun _ iv data => data.map (fun b => b + iv.headD 0),
    decrypt := fun _ iv data => some (data.map (fun b => b - iv.headD 0)),
    maxArguments := 65536,
    btoa := fun bytes => String.mk (bytes.map Char.ofNat),
    atob := fun text => some (text.toList.map Char.toNat),
    stringify := fun x => x,
    parse := fun text => some text }

/-- The IV of the examples: twelve bytes. -/
def sampleIv : List Nat := [1, 2, 3, 4, 5, 6, 7, 8, 9, 10, 11, 12]

/-- The canonical string of an `ObjectId`: 24 hexadecimal digits, in lower case. -/
def isObjectId (id : String) : Bool :=
  id.data.length = 24 ∧ id.data.all (fun c => c.isDigit || (decide ('a' ≤ c) && decide (c ≤ 'f')))

/-! ## Properties of the registry -/

theorem lookup_cons (key : UserId) (value : SocketId) (rest : UserSocketMap) (u : UserId) :
    ownSocketId ((key, value) :: rest) u =
      if u = key then some value else ownSocketId rest u := by
  unfold ownSocketId
  by_cases h : u = key
  · subst h; simp [List.lookup]
  · have hb : (u == key) = false := by simpa using h
    simp [List.lookup, hb, h]

/-- A lookup returns a socket id exactly when the object owns the key with that value. -/
theorem getReceiverSocketId_socket (m : UserSocketMap) (u : UserId) (c : SocketId) :
    getReceiverSocketId m u = some (Room.socket c) ↔ ownSocketId m u = some c := by
  unfold getReceiverSocketId
  cases h : ownSocketId m u with
  | none => by_cases hk : u ∈ objectPrototypeKeys <;> simp [hk]
  | some v => simp

/-- A lookup depends on the object only through the own property of the key. -/
theorem getReceiverSocketId_congr (m n : UserSocketMap) (u : UserId)
    (h : ownSocketId m u = ownSocketId n u) :
    getReceiverSocketId m u = getReceiverSocketId n u := by
  unfold getReceiverSocketId
  rw [h]

/-- A lookup is undefined exactly when the key is neither an own key of the object nor a
property name of `Object.prototype`. -/
theorem getReceiverSocketId_eq_none_iff (m : UserSocketMap) (u : UserId) :
    getReceiverSocketId m u = none ↔
      ownSocketId m u = none ∧ u ∉ objectPrototypeKeys := by
  unfold getReceiverSocketId
  cases h : ownSocketId m u with
  | none => by_cases hk : u ∈ objectPrototypeKeys <;> simp [hk]
  | some v => simp

/-- The string of an `ObjectId` is no property name of `Object.prototype`. -/
theorem objectId_not_inherited (u : UserId) (hu : isObjectId u = true) :
    u ∉ objectPrototypeKeys := by
  intro hmem
  simp only [objectPrototypeKeys, List.mem_cons, List.mem_singleton, List.not_mem_nil,
    or_false] at hmem
  rcases hmem with h | h | h | h | h | h | h | h | h | h | h | h <;>
    (subst h; revert hu; decide)

/-- For the string of an `ObjectId` a lookup is the own property of that key: a socket id
when the user is registered, undefined otherwise. -/
theorem lookup_objectId (m : UserSocketMap) (u : UserId) (hu : isObjectId u = true) :
    getReceiverSocketId m u = (ownSocketId m u).map Room.socket := by
  unfold getReceiverSocketId
  cases ownSocketId m u with
  | none => simp [objectId_not_inherited u hu]
  | some v => rfl

theorem not_mem_keys_of_lookup_none (m : UserSocketMap) (u : UserId)
    (h : ownSocketId m u = none) : u ∉ m.map Prod.fst := by
  induction m with
  | nil => simp
  | cons e rest ih =>
    obtain ⟨key, value⟩ := e
    rw [lookup_cons] at h
    by_cases hk : u = key
    · simp [hk] at h
    · simp only [hk, if_false] at h
      simp only [List.map_cons, List.mem_cons, not_or]
      exact ⟨hk, ih h⟩

theorem lookup_replaceOwn_self (m : UserSocketMap) (u : UserId) (c : SocketId)
    (h : (ownSocketId m u).isSome = true) : ownSocketId (replaceOwn m u c) u = some c := by
  induction m with
  | nil => simp [ownSocketId] at h
  | cons e rest ih =>
    obtain ⟨key, value⟩ := e
    rw [lookup_cons] at h
    by_cases hk : key = u
    · simp [replaceOwn, hk, lookup_cons]
    · have h2 : ¬ u = key := fun h3 => hk h3.symm
      simp only [h2, if_false] at h
      simp [replaceOwn, hk, lookup_cons, h2, ih h]

theorem lookup_replaceOwn_ne (m : UserSocketMap) (u k : UserId) (c : SocketId)
    (hne : u ≠ k) : ownSocketId (replaceOwn m k c) u = ownSocketId m u := by
  induction m with
  | nil => simp [replaceOwn]
  | cons e rest ih =>
    obtain ⟨key, value⟩ := e
    by_cases h : key = k
    · subst h; simp [replaceOwn, lookup_cons, hne]
    · simp [replaceOwn, h, lookup_cons, ih]

theorem lookup_insertOwn_self (m : UserSocketMap) (u : UserId) (c : SocketId)
    (h : ownSocketId m u = none) : ownSocketId (insertOwn m u c) u = some c := by
  induction m with
  | nil => simp [insertOwn, lookup_cons]
  | cons e rest ih =>
    obtain ⟨key, value⟩ := e
    rw [lookup_cons] at h
    by_cases hk : u = key
    · simp [hk] at h
    · simp only [hk, if_false] at h
      by_cases hb : enumeratedBefore u key = true
      · simp [insertOwn, hb, lookup_cons]
      · simp [insertOwn, hb, lookup_cons, hk, ih h]

theorem lookup_insertOwn_ne (m : UserSocketMap) (u k : UserId) (c : SocketId)
    (hne : u ≠ k) : ownSocketId (insertOwn m k c) u = ownSocketId m u := by
  induction m with
  | nil => simp [insertOwn, lookup_cons, hne]
  | cons e rest ih =>
    obtain ⟨key, value⟩ := e
    by_cases hb : enumeratedBefore k key = true
    · simp [insertOwn, hb, lookup_cons, hne]
    · simp [insertOwn, hb, lookup_cons, ih]

theorem lookup_assign_self (m : UserSocketMap) (u : UserId) (c : SocketId)
    (hp : u ≠ "__proto__") : ownSocketId (assign m u c) u = some c := by
  unfold assign
  rw [if_neg hp]
  by_cases h : (ownSocketId m u).isSome = true
  · rw [if_pos h]; exact lookup_replaceOwn_self m u c h
  · rw [if_neg h]; exact lookup_insertOwn_self m u c (by simpa using h)

theorem lookup_assign_ne (m : UserSocketMap) (u k : UserId) (c : SocketId) (hne : u ≠ k) :
    ownSocketId (assign m k c) u = ownSocketId m u := by
  unfold assign
  by_cases hp : k = "__proto__"
  · rw [if_pos hp]
  · rw [if_neg hp]
    by_cases h : (ownSocketId m k).isSome = true
    · rw [if_pos h]; exact lookup_replaceOwn_ne m u k c hne
    · rw [if_neg h]; exact lookup_insertOwn_ne m u k c hne

theorem lookup_deleteKey_ne (m : UserSocketMap) (u k : UserId) (hne : u ≠ k) :
    ownSocketId (deleteKey m k) u = ownSocketId m u := by
  induction m with
  | nil => rfl
  | cons e rest ih =>
    obtain ⟨key, value⟩ := e
    unfold deleteKey at ih ⊢
    simp only [ne_eq, decide_not] at ih ⊢
    by_cases h : key = k
    · subst h; simp [List.filter, lookup_cons, hne, ih]
    · simp [List.filter, h, lookup_cons, ih]

theorem mem_of_lookup (m : UserSocketMap) (u : UserId) (c : SocketId)
    (h : ownSocketId m u = some c) : (u, c) ∈ m := by
  induction m with
  | nil => simp [ownSocketId] at h
  | cons e rest ih =>
    obtain ⟨key, value⟩ := e
    rw [lookup_cons] at h
    by_cases hk : u = key
    · simp [hk] at h; simp [hk, h]
    · simp [hk] at h; exact List.mem_cons_of_mem _ (ih h)

theorem lookup_of_mem (m : UserSocketMap) (u : UserId) (c : SocketId)
    (hd : DistinctKeys m) (h : (u, c) ∈ m) : ownSocketId m u = some c := by
  induction m with
  | nil => simp at h
  | cons e rest ih =>
    obtain ⟨key, value⟩ := e
    unfold DistinctKeys at hd ih
    simp only [List.map_cons, List.nodup_cons] at hd
    rw [lookup_cons]
    rcases List.mem_cons.mp h with h1 | h1
    · simp only [Prod.mk.injEq] at h1; simp [h1.1, h1.2]
    · have hk : u ≠ key := by
        intro hk; subst hk
        exact hd.1 (List.mem_map.mpr ⟨(u, c), h1, rfl⟩)
      simp [hk, ih hd.2 h1]

theorem keys_replaceOwn (m : UserSocketMap) (k : UserId) (c : SocketId) :
    (replaceOwn m k c).map Prod.fst = m.map Prod.fst := by
  induction m with
  | nil => rfl
  | cons e rest ih =>
    obtain ⟨key, value⟩ := e
    by_cases h : key = k
    · simp [replaceOwn, h]
    · simp [replaceOwn, h, ih]

/-- A new key is placed somewhere among the entries there were. -/
theorem perm_insertOwn (m : UserSocketMap) (k : UserId) (c : SocketId) :
    (insertOwn m k c).Perm ((k, c) :: m) := by
  induction m with
  | nil => exact List.Perm.refl _
  | cons e rest ih =>
    obtain ⟨key, value⟩ := e
    by_cases hb : enumeratedBefore k key = true
    · simp only [insertOwn, hb, if_true]
      exact List.Perm.refl _
    · simp only [insertOwn, hb, if_false]
      exact ((List.Perm.cons _ ih).trans (List.Perm.swap _ _ _))

theorem mem_replaceOwn (r : UserSocketMap) (u : UserId) (c : SocketId)
    (e : UserId × SocketId) (he : e ∈ replaceOwn r u c) : e ∈ r ∨ e = (u, c) := by
  induction r with
  | nil => simp [replaceOwn] at he
  | cons x rest ih =>
    obtain ⟨key, value⟩ := x
    by_cases h : key = u
    · simp only [replaceOwn, h, if_true, List.mem_cons] at he
      rcases he with he | he
      · exact Or.inr he
      · exact Or.inl (List.mem_cons_of_mem _ he)
    · simp only [replaceOwn, h, if_false, List.mem_cons] at he
      rcases he with he | he
      · exact Or.inl (he ▸ List.mem_cons_self _ _)
      · rcases ih he with h1 | h1
        · exact Or.inl (List.mem_cons_of_mem _ h1)
        · exact Or.inr h1

theorem mem_assign (r : UserSocketMap) (u : UserId) (c : SocketId) (e : UserId × SocketId)
    (he : e ∈ assign r u c) : e ∈ r ∨ e = (u, c) := by
  unfold assign at he
  by_cases hp : u = "__proto__"
  · rw [if_pos hp] at he; exact Or.inl he
  · rw [if_neg hp] at he
    by_cases h : (ownSocketId r u).isSome = true
    · rw [if_pos h] at he; exact mem_replaceOwn r u c e he
    · rw [if_neg h] at he
      rcases List.mem_cons.mp ((perm_insertOwn r u c).mem_iff.mp he) with h1 | h1
      · exact Or.inr h1
      · exact Or.inl h1

theorem distinctKeys_assign (m : UserSocketMap) (k : UserId) (c : SocketId)
    (hd : DistinctKeys m) : DistinctKeys (assign m k c) := by
  unfold assign
  by_cases hp : k = "__proto__"
  · rw [if_pos hp]; exact hd
  · rw [if_neg hp]
    by_cases h : (ownSocketId m k).isSome = true
    · rw [if_pos h]
      unfold DistinctKeys at hd ⊢
      rw [keys_replaceOwn]; exact hd
    · rw [if_neg h]
      unfold DistinctKeys at hd ⊢
      have hperm := (perm_insertOwn m k c).map Prod.fst
      refine hperm.nodup_iff.mpr ?_
      simp only [List.map_cons, List.nodup_cons]
      exact ⟨not_mem_keys_of_lookup_none m k (by simpa using h), hd⟩

theorem distinctKeys_deleteKey (m : UserSocketMap) (k : UserId) (hd : DistinctKeys m) :
    DistinctKeys (deleteKey m k) := by
  unfold DistinctKeys deleteKey at *
  exact List.Nodup.sublist (List.Sublist.map _ (List.filter_sublist _)) hd

theorem disconnectLoop_cases (c : SocketId) (m : UserSocketMap)
    (entries : List (UserId × SocketId)) :
    disconnectLoop c m entries = m ∨
      ∃ k, (k, c) ∈ entries ∧ disconnectLoop c m entries = deleteKey m k := by
  induction entries with
  | nil => exact Or.inl rfl
  | cons e rest ih =>
    obtain ⟨key, value⟩ := e
    by_cases h : value = c
    · subst h
      exact Or.inr ⟨key, by simp, by simp [disconnectLoop]⟩
    · rcases ih with h1 | ⟨k, hk, h1⟩
      · exact Or.inl (by simp [disconnectLoop, h, h1])
      · exact Or.inr ⟨k, List.mem_cons_of_mem _ hk, by simp [disconnectLoop, h, h1]⟩

theorem unregister_cases (m : UserSocketMap) (c : SocketId) :
    unregister m c = m ∨ ∃ k, (k, c) ∈ m ∧ unregister m c = deleteKey m k :=
  disconnectLoop_cases c m m

theorem distinctKeys_unregister (m : UserSocketMap) (c : SocketId) (hd : DistinctKeys m) :
    DistinctKeys (unregister m c) := by
  rcases unregister_cases m c with h | ⟨k, _, h⟩
  · rw [h]; exact hd
  · rw [h]; exact distinctKeys_deleteKey m k hd

theorem distinctKeys_register (m : UserSocketMap) (c : SocketId) (u : UserId)
    (hd : DistinctKeys m) : DistinctKeys (register m c u) := by
  unfold register
  split
  · exact distinctKeys_assign m u c hd
  · exact hd

theorem ownSocketId_unregister_of_ne (m : UserSocketMap) (u : UserId) (v c : SocketId)
    (hd : DistinctKeys m) (hv : ownSocketId m u = some v) (hne : v ≠ c) :
    ownSocketId (unregister m c) u = some v := by
  rcases unregister_cases m c with h | ⟨k, hk, h⟩
  · rw [h]; exact hv
  · rw [h]
    have hku : u ≠ k := by
      intro hku; subst hku
      have := lookup_of_mem m u c hd hk
      rw [hv] at this
      exact hne (Option.some.inj this)
    rw [lookup_deleteKey_ne m u k hku]; exact hv

/-- A disconnect keeps every key that is mapped to a socket id other than the
disconnecting one. -/
theorem lookup_unregister_of_ne (m : UserSocketMap) (u : UserId) (v c : SocketId)
    (hd : DistinctKeys m) (hv : getReceiverSocketId m u = some (Room.socket v)) (hne : v ≠ c) :
    getReceiverSocketId (unregister m c) u = some (Room.socket v) :=
  (getReceiverSocketId_socket _ _ _).mpr
    (ownSocketId_unregister_of_ne m u v c hd ((getReceiverSocketId_socket _ _ _).mp hv) hne)

theorem onMessageDelivered_userSocketMap (s : ServerState) (id : MessageId) (now : Timestamp) :
    (onMessageDelivered s id now).userSocketMap = s.userSocketMap := by
  unfold onMessageDelivered
  simp only
  split
  · rfl
  · split <;> rfl

theorem onMessageRead_userSocketMap (s : ServerState) (id : MessageId) (now : Timestamp) :
    (onMessageRead s id now).userSocketMap = s.userSocketMap := by
  unfold onMessageRead
  simp only
  split
  · rfl
  · split <;> rfl

theorem onGroupMessageRead_userSocketMap (s : ServerState) (id : MessageId) (u : UserId)
    (now : Timestamp) : (onGroupMessageRead s id u now).userSocketMap = s.userSocketMap := by
  unfold onGroupMessageRead
  simp only
  split
  · rfl
  · split <;> rfl

/-- Only `connection` and `disconnect` change the registry. -/
theorem handle_userSocketMap (s : ServerState) (e : SocketEvent) :
    (handle s e).userSocketMap =
      match e with
      | .connection socketId userId => register s.userSocketMap socketId userId
      | .disconnect socketId => unregister s.userSocketMap socketId
      | _ => s.userSocketMap := by
  cases e with
  | connection socketId userId => rfl
  | disconnect socketId => rfl
  | messageDelivered id now => exact onMessageDelivered_userSocketMap s id now
  | messageRead id now => exact onMessageRead_userSocketMap s id now
  | typingStart r t => simp only [handle, onTypingStart]; split <;> rfl
  | typingStop r t => simp only [handle, onTypingStop]; split <;> rfl
  | groupMessageRead id u now => exact onGroupMessageRead_userSocketMap s id u now
  | groupMessageDelivered id u now => rfl

theorem distinctKeys_handle (s : ServerState) (e : SocketEvent)
    (hd : DistinctKeys s.userSocketMap) : DistinctKeys (handle s e).userSocketMap := by
  rw [handle_userSocketMap]
  cases e with
  | connection socketId userId => exact distinctKeys_register _ _ _ hd
  | disconnect socketId => exact distinctKeys_unregister _ _ hd
  | _ => exact hd

theorem distinctKeys_handleAll (events : List SocketEvent) (s : ServerState)
    (hd : DistinctKeys s.userSocketMap) : DistinctKeys (handleAll s events).userSocketMap := by
  induction events generalizing s with
  | nil => exact hd
  | cons e rest ih => exact ih (handle s e) (distinctKeys_handle s e hd)

/-- The order of `Object.keys` after five connections: the array indices `2` and `10`
come first, in ascending order, then `b` and `a` in the order of their creation; the
second connection of `b` keeps the place of the key, and `01` is no array index. -/
theorem onlineUsers_enumeration_order :
    onlineUsers (handleAll ⟨[], [], [], [], [], []⟩
        [SocketEvent.connection "c1" "b", SocketEvent.connection "c2" "10",
          SocketEvent.connection "c3" "2", SocketEvent.connection "c4" "a",
          SocketEvent.connection "c5" "b", SocketEvent.connection "c6" "01"]).userSocketMap =
      ["2", "10", "b", "a", "01"] := by
  decide

/-- An event that does not end the registration of `u` on `c` keeps `u` mapped to `c`. -/
theorem lookup_handle_keeps (s : ServerState) (e : SocketEvent) (u : UserId) (c : SocketId)
    (hd : DistinctKeys s.userSocketMap)
    (hv : getReceiverSocketId s.userSocketMap u = some (Room.socket c))
    (he : endsRegistration u c e = false) :
    getReceiverSocketId (handle s e).userSocketMap u = some (Room.socket c) := by
  rw [handle_userSocketMap]
  cases e with
  | connection socketId userId =>
    have hne : u ≠ userId := by
      intro h; subst h; simp [endsRegistration] at he
    simp only [register]
    split
    · rw [getReceiverSocketId_congr _ _ _ (lookup_assign_ne _ _ _ _ hne)]; exact hv
    · exact hv
  | disconnect socketId =>
    have hne : c ≠ socketId := by
      intro h; subst h; simp [endsRegistration] at he
    exact lookup_unregister_of_ne _ _ _ _ hd hv hne
  | _ => exact hv

theorem lookup_handleAll_keeps (events : List SocketEvent) (s : ServerState) (u : UserId)
    (c : SocketId) (hd : DistinctKeys s.userSocketMap)
    (hv : getReceiverSocketId s.userSocketMap u = some (Room.socket c))
    (he : ∀ e ∈ events, endsRegistration u c e = false) :
    getReceiverSocketId (handleAll s events).userSocketMap u = some (Room.socket c) := by
  induction events generalizing s with
  | nil => exact hv
  | cons e rest ih =>
    exact ih (handle s e) (distinctKeys_handle s e hd)
      (lookup_handle_keeps s e u c hd hv (he e (List.mem_cons_self _ _)))
      (fun e1 h1 => he e1 (List.mem_cons_of_mem _ h1))

theorem lookup_onConnection (s : ServerState) (u : UserId) (c : SocketId) (hu : u ≠ "")
    (hp : u ≠ "__proto__") :
    getReceiverSocketId (onConnection s c u).userSocketMap u = some (Room.socket c) := by
  simp only [onConnection, emitAll, register, hu, ne_eq, not_false_eq_true, if_true]
  exact (getReceiverSocketId_socket _ _ _).mpr (lookup_assign_self _ _ _ hp)

theorem distinctKeys_onConnection (s : ServerState) (u : UserId) (c : SocketId)
    (hd : DistinctKeys s.userSocketMap) : DistinctKeys (onConnection s c u).userSocketMap :=
  distinctKeys_register _ _ _ hd

/-- Last write wins, for every handshake user id that `userSocketMap` can own.  For every
registry (entries with distinct keys), every user id `u` other than the empty string and
`__proto__`, and every socket id `c`: right after the connection event of socket `c` with
handshake `userId = u`, `getReceiverSocketId(u)` is `c`, whatever `u` was mapped to
before; and it is still `c` after any later sequence of events none of which is the
disconnect of `c` or a connection whose handshake names `u`. -/
theorem connection_registers_own_key (s : ServerState) (u : UserId) (c : SocketId)
    (events : List SocketEvent) (hd : DistinctKeys s.userSocketMap) (hu : u ≠ "")
    (hp : u ≠ "__proto__") (hev : ∀ e ∈ events, endsRegistration u c e = false) :
    getReceiverSocketId (onConnection s c u).userSocketMap u = some (Room.socket c) ∧
      getReceiverSocketId (handleAll (onConnection s c u) events).userSocketMap u =
        some (Room.socket c) :=
  ⟨lookup_onConnection s u c hu hp,
    lookup_handleAll_keeps events _ u c (distinctKeys_onConnection s u c hd)
      (lookup_onConnection s u c hu hp) hev⟩

/-- The last-write-wins property at a registry that maps `u1` to `c1`: `u1` connects on
`c2`, then `c1` disconnects, `u2` connects on `c3` and a typing event arrives. -/
theorem connection_registers_own_key_witness :
    getReceiverSocketId
        (onConnection ⟨[("u1", "c1")], [], [], [], [], []⟩ "c2" "u1").userSocketMap "u1" =
        some (Room.socket "c2") ∧
      getReceiverSocketId
        (handleAll (onConnection ⟨[("u1", "c1")], [], [], [], [], []⟩ "c2" "u1")
          [SocketEvent.disconnect "c1", SocketEvent.connection "c3" "u2",
            SocketEvent.typingStart "u1" "u2"]).userSocketMap "u1" =
        some (Room.socket "c2") :=
  connection_registers_own_key ⟨[("u1", "c1")], [], [], [], [], []⟩ "u1" "c2"
    [SocketEvent.disconnect "c1", SocketEvent.connection "c3" "u2",
      SocketEvent.typingStart "u1" "u2"]
    (by decide) (by decide) (by decide) (by decide)

/-- C1.  The connection of socket `c1` with the non-empty handshake `userId`
`__proto__`, at the empty registry: the assignment `userSocketMap[userId] = socket.id`
creates no entry, the registry stays empty and the snapshot that is broadcast is empty;
`getReceiverSocketId("__proto__")` is then the object inherited under that name, not
`c1`.  The same holds at every registry and for every socket id. -/
theorem connection_proto_not_registered :
    (onConnection ⟨[], [], [], [], [], []⟩ "c1" "__proto__").userSocketMap = [] ∧
      (onConnection ⟨[], [], [], [], [], []⟩ "c1" "__proto__").emitted =
        [⟨Target.all, Payload.getOnlineUsers []⟩] ∧
      getReceiverSocketId
          (onConnection ⟨[], [], [], [], [], []⟩ "c1" "__proto__").userSocketMap "__proto__" =
        some (Room.inherited "__proto__") ∧
      getReceiverSocketId
          (onConnection ⟨[], [], [], [], [], []⟩ "c1" "__proto__").userSocketMap "__proto__" ≠
        some (Room.socket "c1") ∧
      ∀ (s : ServerState) (c : SocketId),
        (onConnection s c "__proto__").userSocketMap = s.userSocketMap := by
  refine ⟨by decide, by decide, by decide, by decide, fun s c => ?_⟩
  simp [onConnection, emitAll, register, assign]

/-- The stale-disconnect guard, for every handshake user id that `userSocketMap` can
own.  If `u`, other than the empty string and `__proto__`, connects on `c1` and, after
any events, on `c2 ≠ c1`, then after the disconnect of `c1` `getReceiverSocketId(u)` is
still `c2`.  In general, in every registry a key mapped to a socket id other than the
disconnecting one keeps its value: a disconnect removes only a mapping whose stored
socket id is the disconnecting socket's id. -/
theorem disconnect_keeps_newer_own_key (s : ServerState) (u : UserId) (c1 c2 : SocketId)
    (events : List SocketEvent) (hd : DistinctKeys s.userSocketMap) (hu : u ≠ "")
    (hp : u ≠ "__proto__") (hc : c1 ≠ c2) :
    getReceiverSocketId
        (onDisconnect (onConnection (handleAll (onConnection s c1 u) events) c2 u)
          c1).userSocketMap u = some (Room.socket c2) ∧
      ∀ (r : UserSocketMap) (k : UserId) (v c : SocketId), DistinctKeys r →
        getReceiverSocketId r k = some (Room.socket v) → v ≠ c →
        getReceiverSocketId (unregister r c) k = some (Room.socket v) := by
  refine ⟨?_, fun r k v c hr hv hne => lookup_unregister_of_ne r k v c hr hv hne⟩
  have hd1 := distinctKeys_handleAll events _ (distinctKeys_onConnection s u c1 hd)
  have hd2 := distinctKeys_onConnection _ u c2 hd1
  have hv := lookup_onConnection (handleAll (onConnection s c1 u) events) u c2 hu hp
  exact lookup_unregister_of_ne _ u c2 c1 hd2 hv (fun h => hc h.symm)

/-- The stale-disconnect guard at the empty registry: `u1` connects on `c1`, `u2` on
`c3`, `u1` again on `c2`, then `c1` disconnects. -/
theorem disconnect_keeps_newer_own_key_witness :
    getReceiverSocketId
        (onDisconnect (onConnection (handleAll (onConnection ⟨[], [], [], [], [], []⟩ "c1" "u1")
          [SocketEvent.connection "c3" "u2"]) "c2" "u1") "c1").userSocketMap "u1" =
        some (Room.socket "c2") :=
  (disconnect_keeps_newer_own_key ⟨[], [], [], [], [], []⟩ "u1" "c1" "c2"
    [SocketEvent.connection "c3" "u2"] (by decide) (by decide) (by decide) (by decide)).1

/-- C2.  At the empty registry the user id `__proto__` connects on `c1` and later on
`c2`, then `c1` disconnects: the registry is empty after each of the three events, and
`getReceiverSocketId("__proto__")` is the object inherited under that name, not `c2`. -/
theorem stale_disconnect_proto_not_kept :
    (handleAll ⟨[], [], [], [], [], []⟩
        [SocketEvent.connection "c1" "__proto__",
          SocketEvent.connection "c2" "__proto__"]).userSocketMap = [] ∧
      getReceiverSocketId
          (onDisconnect (onConnection (onConnection ⟨[], [], [], [], [], []⟩ "c1" "__proto__")
            "c2" "__proto__") "c1").userSocketMap "__proto__" =
        some (Room.inherited "__proto__") ∧
      getReceiverSocketId
          (onDisconnect (onConnection (onConnection ⟨[], [], [], [], [], []⟩ "c1" "__proto__")
            "c2" "__proto__") "c1").userSocketMap "__proto__" ≠
        some (Room.socket "c2") := by
  decide

/-! ## Properties of the message lifecycle -/

/-- Looking up with `p` after `updateFirst q f`, when `q` implies `p` and `f` keeps `p`:
the document found is the one found before, updated if it satisfied `q`. -/
theorem find_updateFirst {α : Type} (p q : α → Bool) (f : α → α)
    (hqp : ∀ x, q x = true → p x = true) (hf : ∀ x, p x = true → p (f x) = true)
    (l : List α) :
    (updateFirst q f l).find? p = (l.find? p).map (fun x => if q x then f x else x) := by
  induction l with
  | nil => rfl
  | cons x xs ih =>
    by_cases hq : q x = true
    · have hp := hqp x hq
      simp [updateFirst, hq, List.find?, hp, hf x hp]
    · by_cases hp : p x = true
      · simp [updateFirst, hq, List.find?, hp]
      · simp [updateFirst, hq, List.find?, hp, ih]

theorem findMessage_onMessageDelivered (s : ServerState) (id : MessageId) (now : Timestamp) :
    findMessage (onMessageDelivered s id now).messages id =
      (findMessage s.messages id).map
        (fun m => { m with status := Status.delivered, deliveredAt := some now }) := by
  have hm : (onMessageDelivered s id now).messages =
      updateFirst (fun m => m._id = id)
        (fun m => { m with status := Status.delivered, deliveredAt := some now })
        s.messages := by
    unfold onMessageDelivered
    simp only
    split
    · rfl
    · split <;> rfl
  rw [hm]
  unfold findMessage
  rw [find_updateFirst (fun m : Message => decide (m._id = id)) (fun m => decide (m._id = id))
    (fun m => { m with status := Status.delivered, deliveredAt := some now })
    (fun _ h => h) (fun _ h => h)]
  cases h : List.find? (fun m : Message => decide (m._id = id)) s.messages with
  | none => rfl
  | some m =>
    have := List.find?_some h
    simp only [Option.map_some', this, if_true]

/-- C3, as the claim states it, fails: the message `m1` is stored with status `read`;
after `messageDelivered("m1")` its status is `delivered`. -/
theorem messageDelivered_regresses_read :
    (findMessage
        ([{ _id := "m1", senderId := "u1", receiverId := "u2", text := some "hi",
            image := none, file := none, status := Status.read, deliveredAt := some 3,
            readAt := some 5 }] : List Message) "m1").map Message.status =
        some Status.read ∧
      (findMessage
        (onMessageDelivered
          ⟨[], [{ _id := "m1", senderId := "u1", receiverId := "u2", text := some "hi",
                  image := none, file := none, status := Status.read,
                  deliveredAt := some 3, readAt := some 5 }], [], [], [], []⟩
          "m1" 9).messages "m1").map Message.status = some Status.delivered := by
  decide

/-- C3, amended.  For every stored direct message, `messageDelivered(messageId)` sets
its status to `delivered` and its `deliveredAt` to the time of the call, whatever the
status was before and leaving the other fields as they were: a `read` message goes
back to `delivered`, and a message already `delivered` keeps the status `delivered`. -/
theorem messageDelivered_sets_delivered (s : ServerState) (id : MessageId) (now : Timestamp)
    (m : Message) (hm : findMessage s.messages id = some m) :
    findMessage (onMessageDelivered s id now).messages id =
        some { m with status := Status.delivered, deliveredAt := some now } ∧
      (m.status = Status.read →
        (findMessage (onMessageDelivered s id now).messages id).map Message.status =
          some Status.delivered) ∧
      (m.status = Status.delivered →
        (findMessage (onMessageDelivered s id now).messages id).map Message.status =
          some Status.delivered) := by
  rw [findMessage_onMessageDelivered, hm]
  simp

/-- C3, amended, at a stored message that is `delivered`. -/
theorem messageDelivered_sets_delivered_witness :
    (findMessage
      (onMessageDelivered
        ⟨[], [{ _id := "m1", senderId := "u1", receiverId := "u2", text := some "hi",
                image := none, file := none, status := Status.delivered,
                deliveredAt := some 3, readAt := none }], [], [], [], []⟩
        "m1" 9).messages "m1").map Message.status = some Status.delivered :=
  (messageDelivered_sets_delivered
    ⟨[], [{ _id := "m1", senderId := "u1", receiverId := "u2", text := some "hi",
            image := none, file := none, status := Status.delivered,
            deliveredAt := some 3, readAt := none }], [], [], [], []⟩
    "m1" 9
    { _id := "m1", senderId := "u1", receiverId := "u2", text := some "hi",
      image := none, file := none, status := Status.delivered,
      deliveredAt := some 3, readAt := none }
    (by decide)).2.2 rfl

/-- Looking up with `p` after `updateFirst q f`, when no document satisfies both and `f`
does not change `p`: the lookup is unchanged. -/
theorem find_updateFirst_disjoint {α : Type} (p q : α → Bool) (f : α → α)
    (hqp : ∀ x, q x = true → p x = false) (hf : ∀ x, p (f x) = p x) (l : List α) :
    (updateFirst q f l).find? p = l.find? p := by
  induction l with
  | nil => rfl
  | cons x xs ih =>
    by_cases hq : q x = true
    · have hp := hqp x hq
      simp [updateFirst, hq, List.find?, hp, hf x]
    · by_cases hp : p x = true
      · simp [updateFirst, hq, List.find?, hp]
      · simp [updateFirst, hq, List.find?, hp, ih]

theorem onGroupMessageRead_groupMessages (s : ServerState) (id : MessageId) (u : UserId)
    (now : Timestamp) :
    (onGroupMessageRead s id u now).groupMessages =
      updateFirst (fun m => m._id = id ∧ u ∉ m.readBy.map ReadEntry.userId)
        (fun m => { m with readBy := m.readBy ++ [⟨u, now⟩], status := Status.read })
        s.groupMessages := by
  unfold onGroupMessageRead
  simp only
  split
  · rfl
  · split <;> rfl

/-- The stored group message `id` after `groupMessageRead({messageId, userId})`. -/
theorem findGroupMessage_onGroupMessageRead (s : ServerState) (id messageId : MessageId)
    (u : UserId) (now : Timestamp) (m : GroupMessage)
    (hm : findGroupMessage s.groupMessages id = some m) :
    findGroupMessage (onGroupMessageRead s messageId u now).groupMessages id =
      some (if messageId = id ∧ u ∉ m.readBy.map ReadEntry.userId then
        { m with readBy := m.readBy ++ [⟨u, now⟩], status := Status.read } else m) := by
  rw [onGroupMessageRead_groupMessages]
  unfold findGroupMessage at hm ⊢
  have hid : m._id = id := by simpa using List.find?_some hm
  by_cases h : messageId = id
  · subst h
    rw [find_updateFirst (fun m : GroupMessage => decide (m._id = messageId))
      (fun m => decide (m._id = messageId ∧ u ∉ m.readBy.map ReadEntry.userId))
      (fun m => { m with readBy := m.readBy ++ [⟨u, now⟩], status := Status.read })
      (fun x hx => by simp only [decide_eq_true_eq] at hx ⊢; exact hx.1)
      (fun _ hx => hx), hm]
    simp [hid]
  · rw [find_updateFirst_disjoint (fun m : GroupMessage => decide (m._id = id))
      (fun m => decide (m._id = messageId ∧ u ∉ m.readBy.map ReadEntry.userId))
      (fun m => { m with readBy := m.readBy ++ [⟨u, now⟩], status := Status.read })
      (fun x hx => by
        simp only [decide_eq_true_eq, decide_eq_false_iff_not] at hx ⊢
        intro h2; exact h (hx.1.symm.trans h2))
      (fun _ => rfl), hm]
    simp [h]

/-- The stored group message `id` after `groupMessageDelivered({messageId, userId})`. -/
theorem findGroupMessage_onGroupMessageDelivered (s : ServerState) (id messageId : MessageId)
    (u : UserId) (now : Timestamp) (m : GroupMessage)
    (hm : findGroupMessage s.groupMessages id = some m) :
    findGroupMessage (onGroupMessageDelivered s messageId u now).groupMessages id =
      some (if messageId = id ∧ u ∉ m.deliveredTo.map DeliveredEntry.userId then
        { m with deliveredTo := m.deliveredTo ++ [⟨u, now⟩], status := Status.delivered }
        else m) := by
  unfold onGroupMessageDelivered
  simp only
  unfold findGroupMessage at hm ⊢
  have hid : m._id = id := by simpa using List.find?_some hm
  by_cases h : messageId = id
  · subst h
    rw [find_updateFirst (fun m : GroupMessage => decide (m._id = messageId))
      (fun m => decide (m._id = messageId ∧ u ∉ m.deliveredTo.map DeliveredEntry.userId))
      (fun m => { m with deliveredTo := m.deliveredTo ++ [⟨u, now⟩],
                         status := Status.delivered })
      (fun x hx => by simp only [decide_eq_true_eq] at hx ⊢; exact hx.1)
      (fun _ hx => hx), hm]
    simp [hid]
  · rw [find_updateFirst_disjoint (fun m : GroupMessage => decide (m._id = id))
      (fun m => decide (m._id = messageId ∧ u ∉ m.deliveredTo.map DeliveredEntry.userId))
      (fun m => { m with deliveredTo := m.deliveredTo ++ [⟨u, now⟩],
                         status := Status.delivered })
      (fun x hx => by
        simp only [decide_eq_true_eq, decide_eq_false_iff_not] at hx ⊢
        intro h2; exact h (hx.1.symm.trans h2))
      (fun _ => rfl), hm]
    simp [h]

theorem onMessageDelivered_groupMessages (s : ServerState) (id : MessageId) (now : Timestamp) :
    (onMessageDelivered s id now).groupMessages = s.groupMessages := by
  unfold onMessageDelivered
  simp only
  split
  · rfl
  · split <;> rfl

theorem onMessageRead_groupMessages (s : ServerState) (id : MessageId) (now : Timestamp) :
    (onMessageRead s id now).groupMessages = s.groupMessages := by
  unfold onMessageRead
  simp only
  split
  · rfl
  · split <;> rfl

/-- A property of a stored group message that the two acknowledgement updates keep is
kept by every sequence of socket events. -/
theorem findGroupMessage_handleAll (P : GroupMessage → Prop)
    (hread : ∀ (m : GroupMessage) (u : UserId) (now : Timestamp), P m →
      u ∉ m.readBy.map ReadEntry.userId →
      P { m with readBy := m.readBy ++ [⟨u, now⟩], status := Status.read })
    (hdelivered : ∀ (m : GroupMessage) (u : UserId) (now : Timestamp), P m →
      u ∉ m.deliveredTo.map DeliveredEntry.userId →
      P { m with deliveredTo := m.deliveredTo ++ [⟨u, now⟩], status := Status.delivered })
    (events : List SocketEvent) (s : ServerState) (id : MessageId) (m : GroupMessage)
    (hm : findGroupMessage s.groupMessages id = some m) (hP : P m) :
    ∃ m1, findGroupMessage (handleAll s events).groupMessages id = some m1 ∧ P m1 := by
  induction events generalizing s m with
  | nil => exact ⟨m, hm, hP⟩
  | cons e rest ih =>
    have hstep : ∃ m1, findGroupMessage (handle s e).groupMessages id = some m1 ∧ P m1 := by
      cases e with
      | connection socketId userId => exact ⟨m, hm, hP⟩
      | disconnect socketId => exact ⟨m, hm, hP⟩
      | messageDelivered mid now =>
        exact ⟨m, by simp only [handle]; rw [onMessageDelivered_groupMessages]; exact hm, hP⟩
      | messageRead mid now =>
        exact ⟨m, by simp only [handle]; rw [onMessageRead_groupMessages]; exact hm, hP⟩
      | typingStart r t =>
        refine ⟨m, ?_, hP⟩
        simp only [handle, onTypingStart]; split <;> exact hm
      | typingStop r t =>
        refine ⟨m, ?_, hP⟩
        simp only [handle, onTypingStop]; split <;> exact hm
      | groupMessageRead mid u now =>
        refine ⟨_, findGroupMessage_onGroupMessageRead s id mid u now m hm, ?_⟩
        split
        · next h => exact hread m u now hP h.2
        · exact hP
      | groupMessageDelivered mid u now =>
        refine ⟨_, findGroupMessage_onGroupMessageDelivered s id mid u now m hm, ?_⟩
        split
        · next h => exact hdelivered m u now hP h.2
        · exact hP
    obtain ⟨m1, hm1, hP1⟩ := hstep
    exact ih (handle s e) m1 hm1 hP1

/-- C4, as the claim states it, fails: the group message `g1` is stored as created
(`sent`, empty sets); `groupMessageRead` from `u2` makes it `read`, and the later
`groupMessageDelivered` from `u3`, who is not in `deliveredTo`, moves it back to
`delivered`. -/
theorem groupMessageDelivered_regresses_read :
    (findGroupMessage
        (handleAll
          ⟨[], [], [{ _id := "g1", senderId := "u1", groupId := "G", text := some "hi",
                      image := none, file := none, status := Status.sent, readBy := [],
                      deliveredTo := [] }], [], [], []⟩
          [SocketEvent.groupMessageRead "g1" "u2" 5]).groupMessages
        "g1").map GroupMessage.status = some Status.read ∧
      (findGroupMessage
        (handleAll
          ⟨[], [], [{ _id := "g1", senderId := "u1", groupId := "G", text := some "hi",
                      image := none, file := none, status := Status.sent, readBy := [],
                      deliveredTo := [] }], [], [], []⟩
          [SocketEvent.groupMessageRead "g1" "u2" 5,
            SocketEvent.groupMessageDelivered "g1" "u3" 6]).groupMessages
        "g1").map GroupMessage.status = some Status.delivered ∧
      Status.rank Status.delivered < Status.rank Status.read := by
  decide

/-- C4, amended.  For every stored group message: after any sequence of socket events
the message is still stored and, if its status had left `sent`, it has not returned to
`sent`; a `groupMessageRead` never lowers the status; a `groupMessageDelivered` from a
user not yet in `deliveredTo` appends the user and sets the status to `delivered`
whatever it was before (from `read` this is a step back), and one from a user already
in `deliveredTo` leaves the message as it was. -/
theorem groupStatus_never_back_to_sent (s : ServerState) (id : MessageId) (m : GroupMessage)
    (hm : findGroupMessage s.groupMessages id = some m) :
    (∀ events : List SocketEvent, ∃ m1,
        findGroupMessage (handleAll s events).groupMessages id = some m1 ∧
        (m.status ≠ Status.sent → m1.status ≠ Status.sent)) ∧
      (∀ (u : UserId) (now : Timestamp), ∃ m1,
        findGroupMessage (onGroupMessageRead s id u now).groupMessages id = some m1 ∧
        m.status.rank ≤ m1.status.rank) ∧
      (∀ (u : UserId) (now : Timestamp), u ∉ m.deliveredTo.map DeliveredEntry.userId →
        findGroupMessage (onGroupMessageDelivered s id u now).groupMessages id =
          some { m with deliveredTo := m.deliveredTo ++ [⟨u, now⟩],
                        status := Status.delivered }) ∧
      (∀ (u : UserId) (now : Timestamp), u ∈ m.deliveredTo.map DeliveredEntry.userId →
        findGroupMessage (onGroupMessageDelivered s id u now).groupMessages id = some m) := by
  refine ⟨?_, ?_, ?_, ?_⟩
  · intro events
    by_cases hs : m.status = Status.sent
    · obtain ⟨m1, h1, _⟩ := findGroupMessage_handleAll (fun _ => True)
        (fun _ _ _ _ _ => trivial) (fun _ _ _ _ _ => trivial) events s id m hm trivial
      exact ⟨m1, h1, fun h => absurd hs h⟩
    · obtain ⟨m1, h1, h2⟩ := findGroupMessage_handleAll (fun x => x.status ≠ Status.sent)
        (fun _ _ _ _ _ => by simp) (fun _ _ _ _ _ => by simp) events s id m hm hs
      exact ⟨m1, h1, fun _ => h2⟩
  · intro u now
    refine ⟨_, findGroupMessage_onGroupMessageRead s id id u now m hm, ?_⟩
    split
    · cases m.status <;> simp [Status.rank]
    · exact le_refl _
  · intro u now hu
    rw [findGroupMessage_onGroupMessageDelivered s id id u now m hm]
    simp [hu]
  · intro u now hu
    rw [findGroupMessage_onGroupMessageDelivered s id id u now m hm]
    simp [hu]

/-- C4, amended, at a stored group message that is `read`: after `groupMessageDelivered`
from `u3` and `groupMessageRead` from `u4` it is still stored and not `sent`. -/
theorem groupStatus_never_back_to_sent_witness :
    ∃ m1,
      findGroupMessage
        (handleAll
          ⟨[], [], [{ _id := "g1", senderId := "u1", groupId := "G", text := some "hi",
                      image := none, file := none, status := Status.read,
                      readBy := [⟨"u2", 5⟩], deliveredTo := [] }], [], [], []⟩
          [SocketEvent.groupMessageDelivered "g1" "u3" 6,
            SocketEvent.groupMessageRead "g1" "u4" 7]).groupMessages "g1" = some m1 ∧
        (Status.read ≠ Status.sent → m1.status ≠ Status.sent) :=
  (groupStatus_never_back_to_sent
    ⟨[], [], [{ _id := "g1", senderId := "u1", groupId := "G", text := some "hi",
                image := none, file := none, status := Status.read,
                readBy := [⟨"u2", 5⟩], deliveredTo := [] }], [], [], []⟩
    "g1"
    { _id := "g1", senderId := "u1", groupId := "G", text := some "hi",
      image := none, file := none, status := Status.read,
      readBy := [⟨"u2", 5⟩], deliveredTo := [] }
    (by decide)).1
    [SocketEvent.groupMessageDelivered "g1" "u3" 6, SocketEvent.groupMessageRead "g1" "u4" 7]

theorem blockedBy_status (users : List User) (senderId : UserId) (members : List UserId)
    (r : Response) (h : blockedBy users senderId members = some r) :
    r.status = 500 ∨ r.status = 403 := by
  induction members with
  | nil => simp [blockedBy] at h
  | cons memberId rest ih =>
    unfold blockedBy at h
    split at h
    · simp only [Option.some.injEq] at h; subst h; exact Or.inl rfl
    · split at h
      · simp only [Option.some.injEq] at h; subst h; exact Or.inr rfl
      · exact ih h

/-- What an accepted `sendGroupMessage` did: the group exists, the sender is a member,
no member blocked the sender, the new `_id` was free, and the new state is the old one
with the message stored last and the fan-out appended to the log. -/
theorem sendGroupMessage_accepted (s : ServerState) (senderId : UserId) (groupId : GroupId)
    (text image : Option String) (file : Option FileData) (newId : MessageId)
    (h : (sendGroupMessage s senderId groupId text image file newId).1.status = 201) :
    ∃ group, findGroup s.groups groupId = some group ∧ senderId ∈ group.members ∧
      blockedBy s.users senderId group.members = none ∧
      findGroupMessage s.groupMessages newId = none ∧
      (sendGroupMessage s senderId groupId text image file newId).2 =
        { s with
          groupMessages := s.groupMessages ++
            [buildGroupMessage newId senderId groupId text image file],
          emitted := s.emitted ++ newGroupMessageEmits s.userSocketMap s.users senderId
            group.members (buildGroupMessage newId senderId groupId text image file) } := by
  unfold sendGroupMessage at h ⊢
  cases hg : findGroup s.groups groupId with
  | none => simp [hg] at h
  | some group =>
    simp only [hg] at h ⊢
    by_cases hmem : senderId ∈ group.members
    · simp only [hmem, not_true_eq_false, if_false] at h ⊢
      cases hb : blockedBy s.users senderId group.members with
      | some r =>
        simp only [hb] at h
        rcases blockedBy_status _ _ _ _ hb with h1 | h1 <;> omega
      | none =>
        simp only [hb] at h ⊢
        cases hf : findGroupMessage s.groupMessages newId with
        | some x => simp [hf] at h
        | none => exact ⟨group, rfl, hmem, hb, rfl, by simp [hf]⟩
    · simp [hmem] at h

theorem find_append_of_none {α : Type} (p : α → Bool) (l : List α) (x : α)
    (hl : l.find? p = none) (hx : p x = true) : (l ++ [x]).find? p = some x := by
  rw [List.find?_append, hl]
  simp [List.find?, hx]

/-- C5.  For every state and every accepted `sendGroupMessage` (status 201), after any
sequence of socket events, the `groupMessageRead` and `groupMessageDelivered` events of
any user repeated at will among them, the created message is stored and no user id
occurs twice in its `readBy` nor twice in its `deliveredTo`. -/
theorem ack_sets_have_no_duplicates (s : ServerState) (senderId : UserId) (groupId : GroupId)
    (text image : Option String) (file : Option FileData) (newId : MessageId)
    (events : List SocketEvent)
    (h : (sendGroupMessage s senderId groupId text image file newId).1.status = 201) :
    ∃ m, findGroupMessage
        (handleAll (sendGroupMessage s senderId groupId text image file newId).2
          events).groupMessages newId = some m ∧
      (m.readBy.map ReadEntry.userId).Nodup ∧
      (m.deliveredTo.map DeliveredEntry.userId).Nodup := by
  obtain ⟨group, _, _, _, hfree, hs⟩ := sendGroupMessage_accepted s senderId groupId text
    image file newId h
  have hfound : findGroupMessage
      (sendGroupMessage s senderId groupId text image file newId).2.groupMessages newId =
      some (buildGroupMessage newId senderId groupId text image file) := by
    rw [hs]
    exact find_append_of_none _ _ _ hfree (by simp [buildGroupMessage])
  refine findGroupMessage_handleAll
    (fun m => (m.readBy.map ReadEntry.userId).Nodup ∧
      (m.deliveredTo.map DeliveredEntry.userId).Nodup)
    ?_ ?_ events _ newId _ hfound (by simp [buildGroupMessage])
  · intro m u now hP hu
    refine ⟨?_, hP.2⟩
    simp only [List.map_append, List.map_cons, List.map_nil]
    exact List.Nodup.append hP.1 (List.nodup_singleton u) (by simpa using hu)
  · intro m u now hP hu
    refine ⟨hP.1, ?_⟩
    simp only [List.map_append, List.map_cons, List.map_nil]
    exact List.Nodup.append hP.2 (List.nodup_singleton u) (by simpa using hu)

/-- C5 at the sample state: `u1` sends `g1` to the group `G`, then `u2` acknowledges it
twice as read and twice as delivered. -/
theorem ack_sets_have_no_duplicates_witness :
    ∃ m, findGroupMessage
        (handleAll (sendGroupMessage sampleState "u1" "G" (some "hi") none none "g1").2
          [SocketEvent.groupMessageRead "g1" "u2" 5, SocketEvent.groupMessageRead "g1" "u2" 6,
            SocketEvent.groupMessageDelivered "g1" "u2" 7,
            SocketEvent.groupMessageDelivered "g1" "u2" 8]).groupMessages "g1" = some m ∧
      (m.readBy.map ReadEntry.userId).Nodup ∧
      (m.deliveredTo.map DeliveredEntry.userId).Nodup :=
  ack_sets_have_no_duplicates sampleState "u1" "G" (some "hi") none none "g1"
    [SocketEvent.groupMessageRead "g1" "u2" 5, SocketEvent.groupMessageRead "g1" "u2" 6,
      SocketEvent.groupMessageDelivered "g1" "u2" 7,
      SocketEvent.groupMessageDelivered "g1" "u2" 8]
    (by decide)

/-! ## Properties of the group fan-out -/

theorem blockedBy_none_members_exist (users : List User) (senderId : UserId)
    (members : List UserId) (h : blockedBy users senderId members = none) :
    ∀ memberId ∈ members, memberId ∈ users.map User._id := by
  induction members with
  | nil => intro x hx; simp at hx
  | cons memberId rest ih =>
    unfold blockedBy at h
    cases hf : findUser users memberId with
    | none => simp [hf] at h
    | some member =>
      simp only [hf] at h
      split at h
      · simp at h
      · intro x hx
        rcases List.mem_cons.mp hx with hx | hx
        · subst hx
          unfold findUser at hf
          have h1 := List.mem_of_find?_eq_some hf
          have h2 : member._id = x := by simpa using List.find?_some hf
          exact List.mem_map.mpr ⟨member, h1, h2⟩
        · exact ih h x hx

/-- The user documents whose `_id` is in `members` are, up to order, the members
themselves, when the members are distinct and each has a user document. -/
theorem groupMembers_perm (users : List User) (members : List UserId)
    (hu : (users.map User._id).Nodup) (hnd : members.Nodup)
    (hex : ∀ memberId ∈ members, memberId ∈ users.map User._id) :
    ((users.filter (fun u => u._id ∈ members)).map User._id).Perm members := by
  have hnd1 : ((users.filter (fun u => u._id ∈ members)).map User._id).Nodup :=
    List.Nodup.sublist (List.Sublist.map _ (List.filter_sublist _)) hu
  rw [List.perm_ext_iff_of_nodup hnd1 hnd]
  intro a
  constructor
  · intro ha
    obtain ⟨u, hu1, hu2⟩ := List.mem_map.mp ha
    have := (List.mem_filter.mp hu1).2
    simp only [decide_eq_true_eq] at this
    exact hu2 ▸ this
  · intro ha
    obtain ⟨u, hu1, hu2⟩ := List.mem_map.mp (hex a ha)
    exact List.mem_map.mpr ⟨u, List.mem_filter.mpr ⟨hu1, by simp [hu2, ha]⟩, hu2⟩

theorem newGroupMessageEmits_eq (userSocketMap : UserSocketMap) (users : List User)
    (senderId : UserId) (members : List UserId) (message : GroupMessage) :
    newGroupMessageEmits userSocketMap users senderId members message =
      emitToGroup userSocketMap senderId
        ((users.filter (fun u => u._id ∈ members)).map User._id) message := by
  unfold newGroupMessageEmits emitToGroup
  rw [List.filterMap_map]
  congr 1
  funext member
  simp only [Function.comp]
  split
  · cases getReceiverSocketId userSocketMap member._id <;> rfl
  · rfl

theorem emitToGroup_length (userSocketMap : UserSocketMap) (senderId : UserId)
    (members : List UserId) (message : GroupMessage) :
    (emitToGroup userSocketMap senderId members message).length =
      (registeredOthers userSocketMap senderId members).length := by
  unfold emitToGroup registeredOthers
  induction members with
  | nil => rfl
  | cons memberId rest ih =>
    by_cases h1 : memberId = senderId
    · simpa [List.filterMap_cons, List.filter_cons, h1] using ih
    · cases h2 : getReceiverSocketId userSocketMap memberId with
      | none => simpa [List.filterMap_cons, List.filter_cons, h1, h2] using ih
      | some c => simpa [List.filterMap_cons, List.filter_cons, h1, h2] using ih

/-- The answer of `sendGroupMessage` does not read the registry. -/
theorem sendGroupMessage_response_registry (s : ServerState) (r : UserSocketMap)
    (senderId : UserId) (groupId : GroupId) (text image : Option String)
    (file : Option FileData) (newId : MessageId) :
    (sendGroupMessage { s with userSocketMap := r } senderId groupId text image file newId).1 =
      (sendGroupMessage s senderId groupId text image file newId).1 := by
  unfold sendGroupMessage
  simp only
  cases findGroup s.groups groupId with
  | none => rfl
  | some group =>
    simp only
    split
    · rfl
    · cases blockedBy s.users senderId group.members with
      | some response => rfl
      | none =>
        simp only
        split <;> rfl

/-- C6.  For every state with user documents of distinct `_id`, every registry, every
group with duplicate-free members and every sender among them: an accepted
`sendGroupMessage` (status 201) appends to the log exactly the events of
`emitToGroup`, up to order: one `newGroupMessage` for each member other than the
sender that is present in the registry, addressed to that member's connection.  So
the number of events is the number `M` of such members, every event goes to the
connection of a registered member other than the sender, nothing is emitted when
`M = 0`, and the answer is 201 whatever the registry holds. -/
theorem sendGroupMessage_fan_out (s : ServerState) (senderId : UserId) (groupId : GroupId)
    (text image : Option String) (file : Option FileData) (newId : MessageId)
    (group : Group) (hg : findGroup s.groups groupId = some group)
    (hnd : group.members.Nodup) (hsender : senderId ∈ group.members)
    (hu : (s.users.map User._id).Nodup)
    (h : (sendGroupMessage s senderId groupId text image file newId).1.status = 201) :
    ∃ emits : List Emit,
      (sendGroupMessage s senderId groupId text image file newId).2.emitted =
        s.emitted ++ emits ∧
      emits.Perm (emitToGroup s.userSocketMap senderId group.members
        (buildGroupMessage newId senderId groupId text image file)) ∧
      emits.length = (registeredOthers s.userSocketMap senderId group.members).length ∧
      (∀ e ∈ emits, ∃ memberId c, memberId ∈ group.members ∧ memberId ≠ senderId ∧
        getReceiverSocketId s.userSocketMap memberId = some c ∧
        e = ⟨Target.room c, Payload.newGroupMessage
          (buildGroupMessage newId senderId groupId text image file)⟩) ∧
      (registeredOthers s.userSocketMap senderId group.members = [] → emits = []) ∧
      (∀ r : UserSocketMap,
        (sendGroupMessage { s with userSocketMap := r } senderId groupId text image file
          newId).1.status = 201) := by
  obtain ⟨group1, hg1, _, hblocked, _, hs⟩ := sendGroupMessage_accepted s senderId groupId
    text image file newId h
  rw [hg] at hg1
  have hgg : group1 = group := (Option.some.inj hg1).symm
  subst hgg
  have hperm := groupMembers_perm s.users group1.members hu hnd
    (blockedBy_none_members_exist _ _ _ hblocked)
  have hP : (newGroupMessageEmits s.userSocketMap s.users senderId group1.members
      (buildGroupMessage newId senderId groupId text image file)).Perm
      (emitToGroup s.userSocketMap senderId group1.members
        (buildGroupMessage newId senderId groupId text image file)) := by
    rw [newGroupMessageEmits_eq]
    exact List.Perm.filterMap _ hperm
  have hlen := hP.length_eq
  rw [emitToGroup_length] at hlen
  refine ⟨_, by rw [hs], hP, hlen, ?_, ?_, ?_⟩
  · intro e he
    have he1 := hP.subset he
    unfold emitToGroup at he1
    obtain ⟨memberId, hm1, hm2⟩ := List.mem_filterMap.mp he1
    by_cases hne : memberId = senderId
    · simp [hne] at hm2
    · cases hc : getReceiverSocketId s.userSocketMap memberId with
      | none => simp [hne, hc] at hm2
      | some c =>
        simp only [hne, ne_eq, not_false_eq_true, if_true, hc, Option.map_some',
          Option.some.injEq] at hm2
        exact ⟨memberId, c, hm1, hne, hc, hm2.symm⟩
  · intro h0
    rw [h0] at hlen
    exact List.length_eq_zero.mp hlen
  · intro r
    rw [sendGroupMessage_response_registry]
    exact h

/-- C6 at the sample state: of the members `u2` and `u3` other than the sender `u1`
only `u2` is connected, so exactly one event is emitted. -/
theorem sendGroupMessage_fan_out_witness :
    ∃ emits : List Emit,
      (sendGroupMessage sampleState "u1" "G" (some "hi") none none "g1").2.emitted =
        sampleState.emitted ++ emits ∧
      emits.Perm (emitToGroup sampleState.userSocketMap "u1" ["u1", "u2", "u3"]
        (buildGroupMessage "g1" "u1" "G" (some "hi") none none)) ∧
      emits.length = (registeredOthers sampleState.userSocketMap "u1" ["u1", "u2", "u3"]).length :=
  let ⟨emits, h1, h2, h3, _⟩ :=
    sendGroupMessage_fan_out sampleState "u1" "G" (some "hi") none none "g1"
      sampleGroup (by decide) (by decide) (by decide) (by decide) (by decide)
  ⟨emits, h1, h2, h3⟩

/-! ## Properties of group membership -/

theorem mem_updateFirst {α : Type} (p : α → Bool) (f : α → α) (l : List α) (x : α)
    (hx : x ∈ updateFirst p f l) : x ∈ l ∨ ∃ y ∈ l, p y = true ∧ x = f y := by
  induction l with
  | nil => simp [updateFirst] at hx
  | cons a rest ih =>
    unfold updateFirst at hx
    split at hx
    · next hp =>
      rcases List.mem_cons.mp hx with h | h
      · exact Or.inr ⟨a, List.mem_cons_self _ _, hp, h⟩
      · exact Or.inl (List.mem_cons_of_mem _ h)
    · rcases List.mem_cons.mp hx with h | h
      · exact Or.inl (h ▸ List.mem_cons_self _ _)
      · rcases ih h with h1 | ⟨y, hy, hp, hxy⟩
        · exact Or.inl (List.mem_cons_of_mem _ h1)
        · exact Or.inr ⟨y, List.mem_cons_of_mem _ hy, hp, hxy⟩

theorem mem_saveGroup (groups : List Group) (group x : Group)
    (hx : x ∈ saveGroup groups group) : x ∈ groups ∨ x = group := by
  rcases mem_updateFirst _ _ _ _ hx with h | ⟨_, _, _, h⟩
  · exact Or.inl h
  · exact Or.inr h

theorem saveGroup_ids (groups : List Group) (group : Group) :
    (saveGroup groups group).map Group._id = groups.map Group._id := by
  unfold saveGroup
  induction groups with
  | nil => rfl
  | cons a rest ih =>
    unfold updateFirst
    split
    · next hp =>
      simp only [decide_eq_true_eq] at hp
      simp [hp]
    · simp only [List.map_cons, ih]

theorem findGroup_saveGroup (groups : List Group) (groupId : GroupId) (g g1 : Group)
    (hg : findGroup groups groupId = some g) (hid : g1._id = g._id) :
    findGroup (saveGroup groups g1) groupId = some g1 := by
  unfold findGroup at hg ⊢
  have hgid : g._id = groupId := by simpa using List.find?_some hg
  unfold saveGroup
  rw [hid, hgid]
  rw [find_updateFirst (fun x : Group => decide (x._id = groupId))
    (fun x => decide (x._id = groupId)) (fun _ => g1) (fun _ hx => hx)
    (fun _ _ => by simp [hid, hgid]), hg]
  simp [hgid]

theorem findGroup_deleteGroup (groups : List Group) (groupId : GroupId)
    (hnd : (groups.map Group._id).Nodup) :
    findGroup (deleteGroup groups groupId) groupId = none := by
  unfold findGroup deleteGroup
  induction groups with
  | nil => rfl
  | cons a rest ih =>
    simp only [List.map_cons, List.nodup_cons] at hnd
    by_cases h : a._id = groupId
    · simp only [List.eraseP_cons, h, decide_True, cond_true]
      rw [List.find?_eq_none]
      intro x hx hxid
      simp only [decide_eq_true_eq] at hxid
      exact hnd.1 (List.mem_map.mpr ⟨x, hx, hxid.trans h.symm⟩)
    · simp only [List.eraseP_cons, h, decide_False, cond_false, List.find?_cons]
      exact ih hnd.2

theorem findGroup_mem (groups : List Group) (groupId : GroupId) (g : Group)
    (hg : findGroup groups groupId = some g) : g ∈ groups ∧ g._id = groupId := by
  unfold findGroup at hg
  exact ⟨List.mem_of_find?_eq_some hg, by simpa using List.find?_some hg⟩

/-- When as many user documents are found as ids were asked for, no id was asked for
twice. -/
theorem members_nodup_of_found (users : List User) (members : List UserId)
    (hu : (users.map User._id).Nodup)
    (hlen : (users.filter (fun u => u._id ∈ members)).length = members.length) :
    members.Nodup := by
  have hnd1 : ((users.filter (fun u => u._id ∈ members)).map User._id).Nodup :=
    List.Nodup.sublist (List.Sublist.map _ (List.filter_sublist _)) hu
  have hsub : (users.filter (fun u => u._id ∈ members)).map User._id ⊆ members := by
    intro a ha
    obtain ⟨u, hu1, hu2⟩ := List.mem_map.mp ha
    have := (List.mem_filter.mp hu1).2
    simp only [decide_eq_true_eq] at this
    exact hu2 ▸ this
  have hperm := (List.subperm_of_subset hnd1 hsub).perm_of_length_le
    (by rw [List.length_map, hlen])
  exact hperm.nodup_iff.mp hnd1

theorem storeOk_saveGroup (s : ServerState) (g1 : Group) (hs : StoreOk s)
    (hok : GroupOk g1) :
    StoreOk { s with groups := saveGroup s.groups g1 } := by
  refine ⟨?_, ?_, hs.2.2⟩
  · intro x hx
    rcases mem_saveGroup _ _ _ hx with h | h
    · exact hs.1 x h
    · exact h ▸ hok
  · show ((saveGroup s.groups g1).map Group._id).Nodup
    rw [saveGroup_ids]; exact hs.2.1

theorem nodup_all_eq_length {α : Type} (l : List α) (a : α) (hnd : l.Nodup)
    (hall : ∀ x ∈ l, x = a) : l.length ≤ 1 := by
  match l, hnd, hall with
  | [], _, _ => simp
  | [_], _, _ => simp
  | x :: y :: rest, hnd, hall =>
    have hx := hall x (by simp)
    have hy := hall y (by simp)
    simp only [List.nodup_cons, List.mem_cons] at hnd
    exact absurd (Or.inl (hx.trans hy.symm)) hnd.1

theorem storeOk_createGroup (s : ServerState) (user : UserId) (name description : String)
    (members : List UserId) (isPrivate : Bool) (newId : GroupId) (hs : StoreOk s) :
    StoreOk (createGroup s user name description members isPrivate newId).2 := by
  unfold createGroup
  split
  · exact hs
  · next hmem =>
    simp only
    split
    · exact hs
    · next hlen =>
      split
      · exact hs
      · next hfree =>
        have hmem1 : user ∈ members := by simpa using hmem
        have hlen1 : (s.users.filter (fun u => u._id ∈ members)).length = members.length := by
          simpa using hlen
        have hnone : findGroup s.groups newId = none := by
          cases h : findGroup s.groups newId with
          | none => rfl
          | some x => simp [h] at hfree
        refine ⟨?_, ?_, hs.2.2⟩
        · intro g hg
          rcases List.mem_append.mp hg with h | h
          · exact hs.1 g h
          · simp only [List.mem_singleton] at h
            subst h
            exact ⟨hmem1, members_nodup_of_found s.users members hs.2.2 hlen1⟩
        · show ((s.groups ++ [_]).map Group._id).Nodup
          simp only [List.map_append, List.map_cons, List.map_nil]
          refine List.Nodup.append hs.2.1 (List.nodup_singleton _) ?_
          intro a ha hb
          simp only [List.mem_singleton] at hb
          subst hb
          obtain ⟨x, hx1, hx2⟩ := List.mem_map.mp ha
          unfold findGroup at hnone
          have := List.find?_eq_none.mp hnone x hx1
          simp only [decide_eq_true_eq] at this
          exact this hx2

theorem storeOk_addMember (s : ServerState) (user : UserId) (groupId : GroupId)
    (memberId : UserId) (hs : StoreOk s) : StoreOk (addMember s user groupId memberId).2 := by
  unfold addMember
  split
  · exact hs
  · next group hg =>
    have hgm := findGroup_mem _ _ _ hg
    split
    · exact hs
    · split
      · exact hs
      · next hnew =>
        split
        · exact hs
        · next newUser hnu =>
          have hok := storeOk_saveGroup s
            ({ group with members := group.members ++ [memberId] }) hs ⟨by
              exact List.mem_append_left _ (hs.1 group hgm.1).1, by
              exact List.Nodup.append (hs.1 group hgm.1).2 (List.nodup_singleton _)
                (by
                  intro a ha hb
                  simp only [List.mem_singleton] at hb
                  exact hnew (hb ▸ ha))⟩
          simp only
          split
          · exact hok
          · exact hok

theorem storeOk_removeMember (s : ServerState) (user : UserId) (groupId : GroupId)
    (memberId : UserId) (hs : StoreOk s) :
    StoreOk (removeMember s user groupId memberId).2 := by
  unfold removeMember
  split
  · exact hs
  · next group hg =>
    have hgm := findGroup_mem _ _ _ hg
    split
    · exact hs
    · next hadmin =>
      split
      · exact hs
      · split
        · exact hs
        · next hself =>
          have hadmin1 : group.admin = user := by simpa using hadmin
          refine storeOk_saveGroup s _ hs ⟨?_, ?_⟩
          · refine List.mem_filter.mpr ⟨(hs.1 group hgm.1).1, ?_⟩
            simp only [ne_eq, decide_not, Bool.not_eq_true', decide_eq_false_iff_not]
            intro h; exact hself (h.symm.trans hadmin1)
          · exact List.Nodup.filter _ (hs.1 group hgm.1).2

theorem storeOk_deleteGroup (s : ServerState) (groupId : GroupId) (hs : StoreOk s) :
    StoreOk { s with groups := deleteGroup s.groups groupId } := by
  refine ⟨?_, ?_, hs.2.2⟩
  · intro g hg
    exact hs.1 g ((List.eraseP_sublist _).subset hg)
  · exact List.Nodup.sublist (List.Sublist.map _ (List.eraseP_sublist _)) hs.2.1

theorem storeOk_leaveGroup (s : ServerState) (user : UserId) (groupId : GroupId)
    (hs : StoreOk s) : StoreOk (leaveGroup s user groupId).2 := by
  unfold leaveGroup
  split
  · exact hs
  · next group hg =>
    have hgm := findGroup_mem _ _ _ hg
    split
    · exact hs
    · split
      · split
        · exact storeOk_deleteGroup s groupId hs
        · simp only
          split
          · exact hs
          · next first rest hfilter =>
            refine storeOk_saveGroup s _ hs ⟨?_, ?_⟩
            · show first ∈ List.filter (fun id => decide (id ≠ user)) group.members
              rw [hfilter]
              exact List.mem_cons_self _ _
            · exact List.Nodup.filter _ (hs.1 group hgm.1).2
      · next hadmin =>
        refine storeOk_saveGroup s _ hs ⟨?_, ?_⟩
        · refine List.mem_filter.mpr ⟨(hs.1 group hgm.1).1, ?_⟩
          simpa using hadmin
        · exact List.Nodup.filter _ (hs.1 group hgm.1).2

theorem storeOk_serve (s : ServerState) (r : GroupRequest) (hs : StoreOk s) :
    StoreOk (serve s r).2 := by
  cases r with
  | createGroup user name description members isPrivate newId =>
    exact storeOk_createGroup s user name description members isPrivate newId hs
  | addMember user groupId memberId => exact storeOk_addMember s user groupId memberId hs
  | removeMember user groupId memberId =>
    exact storeOk_removeMember s user groupId memberId hs
  | leaveGroup user groupId => exact storeOk_leaveGroup s user groupId hs

theorem storeOk_serveAll (requests : List GroupRequest) (s : ServerState) (hs : StoreOk s) :
    StoreOk (serveAll s requests) := by
  induction requests generalizing s with
  | nil => exact hs
  | cons r rest ih => exact ih (serve s r).2 (storeOk_serve s r hs)

/-- Every reachable state satisfies the store invariant. -/
theorem storeOk_of_reachable (s : ServerState) (h : Reachable s) : StoreOk s := by
  obtain ⟨s0, requests, h0, hu, hrun⟩ := h
  rw [← hrun]
  refine storeOk_serveAll requests s0 ⟨?_, ?_, hu⟩
  · intro g hg; rw [h0] at hg; simp at hg
  · rw [h0]; simp

theorem serveAll_append (s : ServerState) (requests : List GroupRequest) (r : GroupRequest) :
    serveAll s (requests ++ [r]) = (serve (serveAll s requests) r).2 := by
  unfold serveAll
  rw [List.foldl_append]
  rfl

/-- The state after one more request is reachable. -/
theorem reachable_serve (s : ServerState) (r : GroupRequest) (h : Reachable s) :
    Reachable (serve s r).2 := by
  obtain ⟨s0, requests, h0, hu, hrun⟩ := h
  exact ⟨s0, requests ++ [r], h0, hu, by rw [serveAll_append, hrun]⟩

theorem sampleState_reachable : Reachable sampleState :=
  ⟨sampleStart, sampleRequests, rfl, by decide, by decide⟩

/-- C7.  Admin invariant: in every state reachable from an empty group collection by
`createGroup`, `addMember`, `removeMember` and `leaveGroup` requests, accepted or
rejected, by any requester, the admin of every stored group is one of its members. -/
theorem admin_is_member (s : ServerState) (h : Reachable s) :
    ∀ g ∈ s.groups, g.admin ∈ g.members :=
  fun g hg => ((storeOk_of_reachable s h).1 g hg).1

/-- C7 on a run in which `u1` creates `G`, adds `u4`, fails to remove themself, removes
`u2` and leaves, and `u4`, who is not the admin, tries to add `u1`. -/
theorem admin_is_member_witness :
    (serveAll sampleStart
      [GroupRequest.createGroup "u1" "team" "" ["u1", "u2", "u3"] false "G",
        GroupRequest.addMember "u1" "G" "u4", GroupRequest.removeMember "u1" "G" "u1",
        GroupRequest.removeMember "u1" "G" "u2", GroupRequest.leaveGroup "u1" "G",
        GroupRequest.addMember "u4" "G" "u1"]).groups.all
      (fun g => decide (g.admin ∈ g.members)) = true :=
  List.all_eq_true.mpr (fun g hg =>
    decide_eq_true (admin_is_member _ ⟨sampleStart, _, rfl, by decide, rfl⟩ g hg))

/-- C8.  In every reachable state, when the admin `a` of a group with at least two
members calls `leaveGroup`: the answer is 200, the group is still stored, its members are
the former members without `a` in their former order, the new admin is the first of
them, `a` is not a member any more, and the new admin is a former member other than
`a`. -/
theorem admin_leave_transfers (s : ServerState) (groupId : GroupId) (g : Group)
    (hr : Reachable s) (hg : findGroup s.groups groupId = some g)
    (hlen : 2 ≤ g.members.length) :
    (leaveGroup s g.admin groupId).1.status = 200 ∧
      ∃ g1, findGroup (leaveGroup s g.admin groupId).2.groups groupId = some g1 ∧
        g1.members = g.members.filter (fun id => id ≠ g.admin) ∧
        g1.members.head? = some g1.admin ∧
        g.admin ∉ g1.members ∧ g1.admin ∈ g.members ∧ g1.admin ≠ g.admin := by
  have hok := (storeOk_of_reachable s hr).1 g (findGroup_mem _ _ _ hg).1
  cases hf : g.members.filter (fun id => id ≠ g.admin) with
  | nil =>
    exfalso
    have hall : ∀ x ∈ g.members, x = g.admin := by
      intro x hx
      by_contra hne
      have : x ∈ g.members.filter (fun id => id ≠ g.admin) :=
        List.mem_filter.mpr ⟨hx, by simpa using hne⟩
      rw [hf] at this
      simp at this
    have := nodup_all_eq_length g.members g.admin hok.2 hall
    omega
  | cons first rest =>
    have hfirst : first ∈ g.members.filter (fun id => id ≠ g.admin) := by
      rw [hf]; exact List.mem_cons_self _ _
    have hfirst1 := List.mem_filter.mp hfirst
    have hne : first ≠ g.admin := by simpa using hfirst1.2
    have hlen1 : ¬ g.members.length = 1 := by omega
    have hrun : leaveGroup s g.admin groupId =
        (⟨200, Body.message "You left the group and admin was transferred"⟩,
          { s with
            groups := saveGroup s.groups
              { g with admin := first, members := first :: rest } }) := by
      unfold leaveGroup
      simp only [hg, hok.1, not_true_eq_false, if_false, if_true, hlen1, hf]
    rw [hrun]
    refine ⟨rfl, { g with admin := first, members := first :: rest },
      findGroup_saveGroup s.groups groupId g _ hg rfl, rfl, rfl, ?_, hfirst1.1, hne⟩
    show g.admin ∉ first :: rest
    rw [← hf]
    intro h
    have := (List.mem_filter.mp h).2
    simp at this

/-- C8 at the sample state: the admin `u1` leaves the group `G` of `u1`, `u2`, `u3`. -/
theorem admin_leave_transfers_witness :
    (leaveGroup sampleState "u1" "G").1.status = 200 ∧
      ∃ g1, findGroup (leaveGroup sampleState "u1" "G").2.groups "G" = some g1 ∧
        g1.members = ["u1", "u2", "u3"].filter (fun id => id ≠ "u1") ∧
        g1.members.head? = some g1.admin ∧
        "u1" ∉ g1.members ∧ g1.admin ∈ ["u1", "u2", "u3"] ∧ g1.admin ≠ "u1" :=
  admin_leave_transfers sampleState "G" sampleGroup sampleState_reachable (by decide)
    (by decide)

/-- C9.  In every reachable state, when the admin of a group whose only member is that
admin calls `leaveGroup`, the answer is 200 and the group is deleted: a later lookup of
its id finds nothing.  And no stored group has an empty member list, in any reachable
state, the state after this call included. -/
theorem sole_admin_leave_deletes (s : ServerState) (groupId : GroupId) (g : Group)
    (hr : Reachable s) (hg : findGroup s.groups groupId = some g)
    (honly : g.members = [g.admin]) :
    (leaveGroup s g.admin groupId).1 =
        ⟨200, Body.message "Group deleted as you were the only member"⟩ ∧
      findGroup (leaveGroup s g.admin groupId).2.groups groupId = none ∧
      (∀ t : ServerState, Reachable t → ∀ x ∈ t.groups, x.members ≠ []) ∧
      ∀ x ∈ (leaveGroup s g.admin groupId).2.groups, x.members ≠ [] := by
  have hne : ∀ t : ServerState, Reachable t → ∀ x ∈ t.groups, x.members ≠ [] := by
    intro t ht x hx hnil
    have := ((storeOk_of_reachable t ht).1 x hx).1
    rw [hnil] at this
    simp at this
  have hrun : leaveGroup s g.admin groupId =
      (⟨200, Body.message "Group deleted as you were the only member"⟩,
        { s with groups := deleteGroup s.groups groupId }) := by
    unfold leaveGroup
    simp [hg, honly]
  refine ⟨by rw [hrun], ?_, hne, ?_⟩
  · rw [hrun]
    exact findGroup_deleteGroup s.groups groupId (storeOk_of_reachable s hr).2.1
  · have := reachable_serve s (GroupRequest.leaveGroup g.admin groupId) hr
    exact hne _ this

/-- C9 at the sample state: `u4`, admin and only member of `H`, leaves. -/
theorem sole_admin_leave_deletes_witness :
    (leaveGroup sampleState "u4" "H").1 =
        ⟨200, Body.message "Group deleted as you were the only member"⟩ ∧
      findGroup (leaveGroup sampleState "u4" "H").2.groups "H" = none :=
  let h := sole_admin_leave_deletes sampleState "H" soloGroup sampleState_reachable
    (by decide) (by decide)
  ⟨h.1, h.2.1⟩

/-- C10.  In every reachable state no stored group lists a user id twice.  And the two
guards hold there: `createGroup` answers 400 and stores nothing for a member list with
a repeated id, by the count check when the requester is in the list (the users found
are fewer than the list is long); `addMember` stores nothing when `memberId` is
already a member, and answers 400 to the admin. -/
theorem members_never_duplicated (s : ServerState) (hr : Reachable s) :
    (∀ g ∈ s.groups, g.members.Nodup) ∧
      (∀ (user : UserId) (name description : String) (members : List UserId)
          (isPrivate : Bool) (newId : GroupId), ¬ members.Nodup →
        (createGroup s user name description members isPrivate newId).1.status = 400 ∧
        (createGroup s user name description members isPrivate newId).2 = s ∧
        (user ∈ members →
          (createGroup s user name description members isPrivate newId).1 =
            ⟨400, Body.error "One or more members don't exist"⟩)) ∧
      (∀ (user : UserId) (groupId : GroupId) (memberId : UserId) (g : Group),
        findGroup s.groups groupId = some g → memberId ∈ g.members →
        (addMember s user groupId memberId).2 = s ∧
        (addMember s user groupId memberId).1.status ≠ 200 ∧
        (user = g.admin → (addMember s user groupId memberId).1 =
          ⟨400, Body.error "Member already exists in group"⟩)) := by
  have hok := storeOk_of_reachable s hr
  refine ⟨fun g hg => (hok.1 g hg).2, ?_, ?_⟩
  · intro user name description members isPrivate newId hdup
    have hlen : (s.users.filter (fun u => u._id ∈ members)).length ≠ members.length :=
      fun h => hdup (members_nodup_of_found s.users members hok.2.2 h)
    unfold createGroup
    by_cases hmem : user ∈ members
    · simp [hmem, hlen]
    · simp [hmem]
  · intro user groupId memberId g hg hmem
    unfold addMember
    by_cases hadmin : g.admin = user
    · simp [hg, hadmin, hmem]
    · have hadmin1 : ¬ user = g.admin := fun h => hadmin h.symm
      simp [hg, hadmin, hadmin1]

/-- C10 at the sample state: the members of `G` and `H` are distinct. -/
theorem members_never_duplicated_witness :
    sampleState.groups.all (fun g => decide g.members.Nodup) = true :=
  List.all_eq_true.mpr (fun g hg =>
    decide_eq_true ((members_never_duplicated sampleState sampleState_reachable).1 g hg))

/-! ## Properties of the acknowledgement handlers -/

theorem updateFirst_of_find_none {α : Type} (p q : α → Bool) (f : α → α) (l : List α)
    (hqp : ∀ x, q x = true → p x = true) (h : l.find? p = none) :
    updateFirst q f l = l := by
  induction l with
  | nil => rfl
  | cons x xs ih =>
    have hx : p x = false := by
      cases hp : p x with
      | false => rfl
      | true => simp [List.find?, hp] at h
    have hq : ¬ q x = true := fun hq => by simp [hqp x hq] at hx
    have hxs : xs.find? p = none := by simpa [List.find?, hx] using h
    simp [updateFirst, hq, ih hxs]

theorem findMessage_updateFirst (messages : List Message) (id : MessageId)
    (f : Message → Message) (hf : ∀ m, (f m)._id = m._id) :
    findMessage (updateFirst (fun m => m._id = id) f messages) id =
      (findMessage messages id).map f := by
  unfold findMessage
  rw [find_updateFirst (fun m : Message => decide (m._id = id)) (fun m => decide (m._id = id))
    f (fun _ h => h) (fun x h => by simpa [hf x] using h)]
  cases h : List.find? (fun m : Message => decide (m._id = id)) messages with
  | none => rfl
  | some m =>
    have := List.find?_some h
    simp only [Option.map_some', this, if_true]

/-- The log after `messageDelivered(id)` on a stored message. -/
theorem onMessageDelivered_emitted (s : ServerState) (id : MessageId) (now : Timestamp)
    (m : Message) (hm : findMessage s.messages id = some m) :
    (onMessageDelivered s id now).emitted = s.emitted ++
      emitToUser s.userSocketMap m.senderId
        (Payload.messageStatusUpdate m._id Status.delivered (some now) none) := by
  unfold onMessageDelivered emitToUser
  simp only
  rw [findMessage_updateFirst s.messages id
    (fun m => { m with status := Status.delivered, deliveredAt := some now })
    (fun _ => rfl), hm]
  simp only [Option.map_some']
  cases getReceiverSocketId s.userSocketMap m.senderId with
  | none => simp
  | some c => rfl

/-- The log after `messageRead(id)` on a stored message. -/
theorem onMessageRead_emitted (s : ServerState) (id : MessageId) (now : Timestamp)
    (m : Message) (hm : findMessage s.messages id = some m) :
    (onMessageRead s id now).emitted = s.emitted ++
      emitToUser s.userSocketMap m.senderId
        (Payload.messageStatusUpdate m._id Status.read none (some now)) := by
  unfold onMessageRead emitToUser
  simp only
  rw [findMessage_updateFirst s.messages id
    (fun m => { m with status := Status.read, readAt := some now })
    (fun _ => rfl), hm]
  simp only [Option.map_some']
  cases getReceiverSocketId s.userSocketMap m.senderId with
  | none => simp
  | some c => rfl

theorem onMessageRead_messages (s : ServerState) (id : MessageId) (now : Timestamp) :
    (onMessageRead s id now).messages =
      updateFirst (fun m => m._id = id)
        (fun m => { m with status := Status.read, readAt := some now }) s.messages := by
  unfold onMessageRead
  simp only
  split
  · rfl
  · split <;> rfl

theorem findMessage_onMessageRead (s : ServerState) (id : MessageId) (now : Timestamp) :
    findMessage (onMessageRead s id now).messages id =
      (findMessage s.messages id).map
        (fun m => { m with status := Status.read, readAt := some now }) := by
  rw [onMessageRead_messages]
  exact findMessage_updateFirst s.messages id
    (fun m => { m with status := Status.read, readAt := some now }) (fun _ => rfl)

theorem emitToUser_length (userSocketMap : UserSocketMap) (userId : UserId)
    (payload : Payload) : (emitToUser userSocketMap userId payload).length ≤ 1 := by
  unfold emitToUser
  cases getReceiverSocketId userSocketMap userId <;> simp

/-- C11.  For every stored direct message `m`, `messageDelivered(m.id)` appends to the log
exactly `emitToUser(m.senderId, messageStatusUpdate)`: at most one event; none when the
sender is not registered; otherwise one, addressed to the connection registered for
`m.senderId` and to no other, carrying `m`'s id, the status `delivered` and the
`deliveredAt` the handler has just stored.  The handler does not read the acknowledging
connection. -/
theorem messageDelivered_notifies_sender (s : ServerState) (id : MessageId)
    (now : Timestamp) (m : Message) (hm : findMessage s.messages id = some m) :
    (onMessageDelivered s id now).emitted = s.emitted ++
        emitToUser s.userSocketMap m.senderId
          (Payload.messageStatusUpdate id Status.delivered (some now) none) ∧
      (emitToUser s.userSocketMap m.senderId
          (Payload.messageStatusUpdate id Status.delivered (some now) none)).length ≤ 1 ∧
      (getReceiverSocketId s.userSocketMap m.senderId = none →
        (onMessageDelivered s id now).emitted = s.emitted) ∧
      (∀ c, getReceiverSocketId s.userSocketMap m.senderId = some c →
        (onMessageDelivered s id now).emitted = s.emitted ++
          [⟨Target.room c, Payload.messageStatusUpdate id Status.delivered (some now) none⟩]) ∧
      (findMessage (onMessageDelivered s id now).messages id).map Message.deliveredAt =
        some (some now) := by
  have hid : m._id = id := by
    unfold findMessage at hm
    simpa using List.find?_some hm
  have hlog := onMessageDelivered_emitted s id now m hm
  rw [hid] at hlog
  refine ⟨hlog, emitToUser_length _ _ _, ?_, ?_, ?_⟩
  · intro hnone
    rw [hlog]; simp [emitToUser, hnone]
  · intro c hc
    rw [hlog]; simp [emitToUser, hc]
  · rw [findMessage_onMessageDelivered, hm]; rfl

/-- C11 at the sample chat: `m1` was sent by `u1`, who is connected on `c1`. -/
theorem messageDelivered_notifies_sender_witness :
    (onMessageDelivered sampleChat "m1" 9).emitted =
      [⟨Target.room (Room.socket "c1"), Payload.messageStatusUpdate "m1" Status.delivered (some 9) none⟩] :=
  (messageDelivered_notifies_sender sampleChat "m1" 9 sampleMessage (by decide)).2.2.2.1
    (Room.socket "c1") (by decide)

/-- C12.  For every stored direct message, whatever its status and in particular when it
is `sent` or `delivered`, `messageRead(messageId)` sets the status to `read` and `readAt`
to the time of the call, and appends to the log exactly
`emitToUser(senderId, messageStatusUpdate)` with the status `read`: one event to the
sender's connection when the sender is registered, none otherwise.  After a second
`messageRead` the status is still `read`. -/
theorem messageRead_sets_read (s : ServerState) (id : MessageId) (now now2 : Timestamp)
    (m : Message) (hm : findMessage s.messages id = some m) :
    findMessage (onMessageRead s id now).messages id =
        some { m with status := Status.read, readAt := some now } ∧
      (onMessageRead s id now).emitted = s.emitted ++
        emitToUser s.userSocketMap m.senderId
          (Payload.messageStatusUpdate id Status.read none (some now)) ∧
      (∀ c, getReceiverSocketId s.userSocketMap m.senderId = some c →
        (onMessageRead s id now).emitted = s.emitted ++
          [⟨Target.room c, Payload.messageStatusUpdate id Status.read none (some now)⟩]) ∧
      (getReceiverSocketId s.userSocketMap m.senderId = none →
        (onMessageRead s id now).emitted = s.emitted) ∧
      (findMessage (onMessageRead (onMessageRead s id now) id now2).messages id).map
        Message.status = some Status.read := by
  have hid : m._id = id := by
    unfold findMessage at hm
    simpa using List.find?_some hm
  have hlog := onMessageRead_emitted s id now m hm
  rw [hid] at hlog
  refine ⟨?_, hlog, ?_, ?_, ?_⟩
  · rw [findMessage_onMessageRead, hm]; rfl
  · intro c hc
    rw [hlog]; simp [emitToUser, hc]
  · intro hnone
    rw [hlog]; simp [emitToUser, hnone]
  · rw [findMessage_onMessageRead, findMessage_onMessageRead, hm]; rfl

/-- C12 at the sample chat: `m1` is `sent`, its sender `u1` is connected on `c1`. -/
theorem messageRead_sets_read_witness :
    (findMessage (onMessageRead sampleChat "m1" 9).messages "m1").map Message.status =
        some Status.read ∧
      (onMessageRead sampleChat "m1" 9).emitted =
        [⟨Target.room (Room.socket "c1"), Payload.messageStatusUpdate "m1" Status.read none (some 9)⟩] :=
  let h := messageRead_sets_read sampleChat "m1" 9 10 sampleMessage (by decide)
  ⟨by rw [h.1]; rfl, h.2.2.1 (Room.socket "c1") (by decide)⟩

/-- C13.  For every message id that matches no stored direct message, `messageDelivered`
and `messageRead` leave the whole state as it was; for every message id that matches no
stored group message, so do `groupMessageRead` and `groupMessageDelivered`: no message
and no group is changed, the registry is unchanged and nothing is emitted. -/
theorem unknown_id_no_side_effects (s : ServerState) (id : MessageId) (u : UserId)
    (now : Timestamp) :
    (findMessage s.messages id = none →
        onMessageDelivered s id now = s ∧ onMessageRead s id now = s) ∧
      (findGroupMessage s.groupMessages id = none →
        onGroupMessageRead s id u now = s ∧ onGroupMessageDelivered s id u now = s) := by
  constructor
  · intro h
    have hd : updateFirst (fun m : Message => decide (m._id = id))
        (fun m => { m with status := Status.delivered, deliveredAt := some now })
        s.messages = s.messages :=
      updateFirst_of_find_none (fun m : Message => decide (m._id = id)) _ _ _
        (fun _ hx => hx) h
    have hr : updateFirst (fun m : Message => decide (m._id = id))
        (fun m => { m with status := Status.read, readAt := some now })
        s.messages = s.messages :=
      updateFirst_of_find_none (fun m : Message => decide (m._id = id)) _ _ _
        (fun _ hx => hx) h
    constructor
    · unfold onMessageDelivered
      simp only [hd, h]
    · unfold onMessageRead
      simp only [hr, h]
  · intro h
    have hr : updateFirst
        (fun m : GroupMessage => decide (m._id = id ∧ u ∉ m.readBy.map ReadEntry.userId))
        (fun m => { m with readBy := m.readBy ++ [⟨u, now⟩], status := Status.read })
        s.groupMessages = s.groupMessages :=
      updateFirst_of_find_none (fun m : GroupMessage => decide (m._id = id)) _ _ _
        (fun x hx => by simp only [decide_eq_true_eq] at hx ⊢; exact hx.1) h
    have hd : updateFirst
        (fun m : GroupMessage =>
          decide (m._id = id ∧ u ∉ m.deliveredTo.map DeliveredEntry.userId))
        (fun m => { m with deliveredTo := m.deliveredTo ++ [⟨u, now⟩],
                           status := Status.delivered })
        s.groupMessages = s.groupMessages :=
      updateFirst_of_find_none (fun m : GroupMessage => decide (m._id = id)) _ _ _
        (fun x hx => by simp only [decide_eq_true_eq] at hx ⊢; exact hx.1) h
    constructor
    · unfold onGroupMessageRead
      simp only [hr, h]
    · unfold onGroupMessageDelivered
      simp only [hd]

/-- C13 at the sample chat, where no message has the id `m9`. -/
theorem unknown_id_no_side_effects_witness :
    (onMessageDelivered sampleChat "m9" 9 = sampleChat ∧
        onMessageRead sampleChat "m9" 9 = sampleChat) ∧
      onGroupMessageRead sampleChat "m9" "u2" 9 = sampleChat ∧
      onGroupMessageDelivered sampleChat "m9" "u2" 9 = sampleChat :=
  ⟨(unknown_id_no_side_effects sampleChat "m9" "u2" 9).1 (by decide),
    (unknown_id_no_side_effects sampleChat "m9" "u2" 9).2 (by decide)⟩

theorem receivedBy_append (c : SocketId) (a b : List Emit) :
    receivedBy c (a ++ b) = receivedBy c a ++ receivedBy c b := by
  unfold receivedBy
  exact List.filterMap_append _ _ _

theorem receivedBy_emitToUser_other (c : SocketId) (userSocketMap : UserSocketMap)
    (userId : UserId) (payload : Payload)
    (h : getReceiverSocketId userSocketMap userId ≠ some (Room.socket c)) :
    receivedBy c (emitToUser userSocketMap userId payload) = [] := by
  unfold emitToUser
  cases hc : getReceiverSocketId userSocketMap userId with
  | none => rfl
  | some c1 =>
    have hne : c1 ≠ Room.socket c := fun h1 => h (by rw [hc, h1])
    simp [receivedBy, hne]

/-- C14, as the claim states it, fails: the connection `c2` acknowledges the id `m1`,
once where no message `m1` is stored and once where it is stored, and receives nothing
in either case; the same with `groupMessageDelivered` of `g1`.  No not-found condition
reaches the caller and the two outcomes look the same to it. -/
theorem unknown_id_looks_like_known :
    receivedBy "c2" (onMessageDelivered sampleStart "m1" 9).emitted = [] ∧
      receivedBy "c2" (onMessageDelivered sampleChat "m1" 9).emitted = [] ∧
      findMessage sampleStart.messages "m1" = none ∧
      findMessage sampleChat.messages "m1" = some sampleMessage ∧
      receivedBy "c2" (onGroupMessageDelivered sampleStart "g1" "u2" 9).emitted = [] ∧
      receivedBy "c2" (onGroupMessageDelivered sampleChat "g1" "u2" 9).emitted = [] := by
  decide

/-- C14, amended.  For every message id that matches no stored message the four
acknowledgement handlers emit nothing, so they add nothing to what the calling connection
receives: the not-found condition is not reported.  The calling connection receives just as little
when it acknowledges a stored direct message whose sender is not registered on that
connection, so the events received do not tell the two cases apart. -/
theorem unknown_id_not_reported (s : ServerState) (id : MessageId) (u : UserId)
    (now : Timestamp) (caller : SocketId) :
    (findMessage s.messages id = none →
        (onMessageDelivered s id now).emitted = s.emitted ∧
        (onMessageRead s id now).emitted = s.emitted ∧
        receivedBy caller (onMessageDelivered s id now).emitted = receivedBy caller s.emitted ∧
        receivedBy caller (onMessageRead s id now).emitted = receivedBy caller s.emitted) ∧
      (findGroupMessage s.groupMessages id = none →
        (onGroupMessageRead s id u now).emitted = s.emitted ∧
        (onGroupMessageDelivered s id u now).emitted = s.emitted ∧
        receivedBy caller (onGroupMessageRead s id u now).emitted =
          receivedBy caller s.emitted ∧
        receivedBy caller (onGroupMessageDelivered s id u now).emitted =
          receivedBy caller s.emitted) ∧
      (∀ m, findMessage s.messages id = some m →
        getReceiverSocketId s.userSocketMap m.senderId ≠ some (Room.socket caller) →
        receivedBy caller (onMessageDelivered s id now).emitted = receivedBy caller s.emitted ∧
        receivedBy caller (onMessageRead s id now).emitted = receivedBy caller s.emitted) := by
  refine ⟨?_, ?_, ?_⟩
  · intro h
    have hd : updateFirst (fun m : Message => decide (m._id = id))
        (fun m => { m with status := Status.delivered, deliveredAt := some now })
        s.messages = s.messages :=
      updateFirst_of_find_none (fun m : Message => decide (m._id = id)) _ _ _
        (fun _ hx => hx) h
    have hr : updateFirst (fun m : Message => decide (m._id = id))
        (fun m => { m with status := Status.read, readAt := some now })
        s.messages = s.messages :=
      updateFirst_of_find_none (fun m : Message => decide (m._id = id)) _ _ _
        (fun _ hx => hx) h
    have h1 : (onMessageDelivered s id now).emitted = s.emitted := by
      unfold onMessageDelivered
      simp only [hd, h]
    have h2 : (onMessageRead s id now).emitted = s.emitted := by
      unfold onMessageRead
      simp only [hr, h]
    exact ⟨h1, h2, by rw [h1], by rw [h2]⟩
  · intro h
    have hr : updateFirst
        (fun m : GroupMessage => decide (m._id = id ∧ u ∉ m.readBy.map ReadEntry.userId))
        (fun m => { m with readBy := m.readBy ++ [⟨u, now⟩], status := Status.read })
        s.groupMessages = s.groupMessages :=
      updateFirst_of_find_none (fun m : GroupMessage => decide (m._id = id)) _ _ _
        (fun x hx => by simp only [decide_eq_true_eq] at hx ⊢; exact hx.1) h
    have h1 : (onGroupMessageRead s id u now).emitted = s.emitted := by
      unfold onGroupMessageRead
      simp only [hr, h]
    exact ⟨h1, rfl, by rw [h1], rfl⟩
  · intro m hm hne
    constructor
    · rw [onMessageDelivered_emitted s id now m hm, receivedBy_append,
        receivedBy_emitToUser_other caller _ _ _ hne, List.append_nil]
    · rw [onMessageRead_emitted s id now m hm, receivedBy_append,
        receivedBy_emitToUser_other caller _ _ _ hne, List.append_nil]

/-- C14, amended, at the sample chat for the caller `c2` and the unknown id `m9`. -/
theorem unknown_id_not_reported_witness :
    (receivedBy "c2" (onMessageDelivered sampleChat "m9" 9).emitted =
          receivedBy "c2" sampleChat.emitted ∧
        receivedBy "c2" (onMessageRead sampleChat "m9" 9).emitted =
          receivedBy "c2" sampleChat.emitted) ∧
      (receivedBy "c2" (onGroupMessageRead sampleChat "m9" "u2" 9).emitted =
          receivedBy "c2" sampleChat.emitted ∧
        receivedBy "c2" (onGroupMessageDelivered sampleChat "m9" "u2" 9).emitted =
          receivedBy "c2" sampleChat.emitted) :=
  ⟨((unknown_id_not_reported sampleChat "m9" "u2" 9 "c2").1 (by decide)).2.2,
    ((unknown_id_not_reported sampleChat "m9" "u2" 9 "c2").2.1 (by decide)).2.2⟩

theorem readNotifications_eq (userSocketMap : UserSocketMap) (messageId : MessageId)
    (userId : UserId) (members : List UserId) :
    readNotifications userSocketMap messageId userId members =
      emitToMembers userSocketMap userId members
        (Payload.groupMessageStatusUpdate messageId Status.read userId) := by
  unfold readNotifications emitToMembers
  congr 1
  funext memberId
  cases getReceiverSocketId userSocketMap memberId with
  | none => by_cases h : memberId = userId <;> simp [h]
  | some c => by_cases h : memberId = userId <;> simp [h]

theorem emitToMembers_length (userSocketMap : UserSocketMap) (excludeUserId : UserId)
    (members : List UserId) (payload : Payload) :
    (emitToMembers userSocketMap excludeUserId members payload).length =
      (registeredOthers userSocketMap excludeUserId members).length := by
  unfold emitToMembers registeredOthers
  induction members with
  | nil => rfl
  | cons memberId rest ih =>
    by_cases h1 : memberId = excludeUserId
    · simpa [List.filterMap_cons, List.filter_cons, h1] using ih
    · cases h2 : getReceiverSocketId userSocketMap memberId with
      | none => simpa [List.filterMap_cons, List.filter_cons, h1, h2] using ih
      | some c => simpa [List.filterMap_cons, List.filter_cons, h1, h2] using ih

theorem mem_emitToMembers (userSocketMap : UserSocketMap) (excludeUserId : UserId)
    (members : List UserId) (payload : Payload) (e : Emit) :
    e ∈ emitToMembers userSocketMap excludeUserId members payload ↔
      ∃ memberId c, memberId ∈ members ∧ memberId ≠ excludeUserId ∧
        getReceiverSocketId userSocketMap memberId = some c ∧
        e = ⟨Target.room c, payload⟩ := by
  unfold emitToMembers
  rw [List.mem_filterMap]
  constructor
  · rintro ⟨memberId, hmem, hsome⟩
    by_cases hne : memberId = excludeUserId
    · simp [hne] at hsome
    · cases hc : getReceiverSocketId userSocketMap memberId with
      | none => simp [hne, hc] at hsome
      | some c =>
        simp only [hne, ne_eq, not_false_eq_true, if_true, hc, Option.map_some',
          Option.some.injEq] at hsome
        exact ⟨memberId, c, hmem, hne, hc, hsome.symm⟩
  · rintro ⟨memberId, c, hmem, hne, hc, he⟩
    exact ⟨memberId, hmem, by simp [hne, hc, he]⟩

/-- The log after `groupMessageRead` on a stored group message of an existing group. -/
theorem onGroupMessageRead_emitted (s : ServerState) (id : MessageId) (u : UserId)
    (now : Timestamp) (m : GroupMessage) (g : Group)
    (hm : findGroupMessage s.groupMessages id = some m)
    (hg : findGroup s.groups m.groupId = some g) :
    (onGroupMessageRead s id u now).emitted = s.emitted ++
      emitToMembers s.userSocketMap u g.members
        (Payload.groupMessageStatusUpdate id Status.read u) := by
  have hid : m._id = id := by
    unfold findGroupMessage at hm
    simpa using List.find?_some hm
  have hfind := findGroupMessage_onGroupMessageRead s id id u now m hm
  rw [onGroupMessageRead_groupMessages] at hfind
  unfold onGroupMessageRead
  simp only
  rw [hfind]
  by_cases hu : u ∈ m.readBy.map ReadEntry.userId
  · simp only [hu, not_true_eq_false, and_false, if_false, hg]
    rw [readNotifications_eq, hid]
  · simp only [hu, not_false_eq_true, and_self, if_true, hg]
    rw [readNotifications_eq, hid]

/-- C15.  For every stored group message of an existing group and every `userId`,
`groupMessageRead({messageId, userId})` appends to the log exactly
`emitToGroup(members, groupMessageStatusUpdate {messageId, read, userId}, userId)`: one
event for each listed member other than `userId` that is present in the registry,
addressed to that member's connection and carrying the message id, the status `read`
and `userId`.  So the number of events is the number of such members, each of them is
served, and every event goes to the connection of a registered member other than
`userId`: none is emitted for `userId` or for a non-member. -/
theorem groupMessageRead_notifies_others (s : ServerState) (id : MessageId) (u : UserId)
    (now : Timestamp) (m : GroupMessage) (g : Group)
    (hm : findGroupMessage s.groupMessages id = some m)
    (hg : findGroup s.groups m.groupId = some g) :
    ∃ emits : List Emit,
      (onGroupMessageRead s id u now).emitted = s.emitted ++ emits ∧
      emits = emitToMembers s.userSocketMap u g.members
        (Payload.groupMessageStatusUpdate id Status.read u) ∧
      emits.length = (registeredOthers s.userSocketMap u g.members).length ∧
      (∀ memberId ∈ g.members, memberId ≠ u →
        ∀ c, getReceiverSocketId s.userSocketMap memberId = some c →
        ⟨Target.room c, Payload.groupMessageStatusUpdate id Status.read u⟩ ∈ emits) ∧
      (∀ e ∈ emits, ∃ memberId c, memberId ∈ g.members ∧ memberId ≠ u ∧
        getReceiverSocketId s.userSocketMap memberId = some c ∧
        e = ⟨Target.room c, Payload.groupMessageStatusUpdate id Status.read u⟩) := by
  refine ⟨_, onGroupMessageRead_emitted s id u now m g hm hg, rfl,
    emitToMembers_length _ _ _ _, ?_, ?_⟩
  · intro memberId hmem hne c hc
    exact (mem_emitToMembers _ _ _ _ _).mpr ⟨memberId, c, hmem, hne, hc, rfl⟩
  · intro e he
    exact (mem_emitToMembers _ _ _ _ _).mp he

/-- C15 at the sample chat: `u2` reads `g1`; of the other members `u1` and `u3` of `G`
only `u1` is connected, on `c1`. -/
theorem groupMessageRead_notifies_others_witness :
    ∃ emits : List Emit,
      (onGroupMessageRead sampleChat "g1" "u2" 9).emitted = sampleChat.emitted ++ emits ∧
      emits = [⟨Target.room (Room.socket "c1"), Payload.groupMessageStatusUpdate "g1" Status.read "u2"⟩] :=
  let ⟨emits, h1, h2, _⟩ :=
    groupMessageRead_notifies_others sampleChat "g1" "u2" 9 sampleGroupMessage sampleGroup
      (by decide) (by decide)
  ⟨emits, h1, by rw [h2]; decide⟩

/-- C16.  The code at the failing input: in the sample chat the member `u3` acknowledges
the delivery of `g1`; `groupMessageDelivered` stores the acknowledgement and emits
nothing, although the other members `u1` and `u2` are connected and
`emitToGroup(members, groupMessageStatusUpdate {g1, delivered, u3}, u3)` names one event
for each of them; `groupMessageRead` at the same input does notify both. -/
theorem groupMessageDelivered_emits_nothing :
    (onGroupMessageDelivered sampleChat "g1" "u3" 9).emitted = [] ∧
      (findGroupMessage (onGroupMessageDelivered sampleChat "g1" "u3" 9).groupMessages
        "g1").map GroupMessage.deliveredTo = some [⟨"u3", 9⟩] ∧
      emitToMembers sampleChat.userSocketMap "u3" sampleGroup.members
          (Payload.groupMessageStatusUpdate "g1" Status.delivered "u3") =
        [⟨Target.room (Room.socket "c1"), Payload.groupMessageStatusUpdate "g1" Status.delivered "u3"⟩,
          ⟨Target.room (Room.socket "c2"), Payload.groupMessageStatusUpdate "g1" Status.delivered "u3"⟩] ∧
      (onGroupMessageRead sampleChat "g1" "u3" 9).emitted =
        [⟨Target.room (Room.socket "c1"), Payload.groupMessageStatusUpdate "g1" Status.read "u3"⟩,
          ⟨Target.room (Room.socket "c2"), Payload.groupMessageStatusUpdate "g1" Status.read "u3"⟩] := by
  decide

/-- C17.  For every stored group message and `userId`: when `userId` is not in
`deliveredTo`, `groupMessageDelivered({messageId, userId})` stores the message with one
entry `{userId, deliveredAt}` appended to `deliveredTo`, the status `delivered`, and
every other field, the former entries and `readBy` among them, as before; when `userId`
is already in `deliveredTo` the stored message is unchanged.  A second call for the same
`userId` changes nothing more, the messages with other ids are untouched, and the
handler changes no other part of the state. -/
theorem groupMessageDelivered_appends_once (s : ServerState) (id : MessageId) (u : UserId)
    (now now2 : Timestamp) (m : GroupMessage)
    (hm : findGroupMessage s.groupMessages id = some m) :
    (u ∉ m.deliveredTo.map DeliveredEntry.userId →
        findGroupMessage (onGroupMessageDelivered s id u now).groupMessages id =
          some { m with deliveredTo := m.deliveredTo ++ [⟨u, now⟩],
                        status := Status.delivered }) ∧
      (u ∈ m.deliveredTo.map DeliveredEntry.userId →
        findGroupMessage (onGroupMessageDelivered s id u now).groupMessages id = some m) ∧
      findGroupMessage
          (onGroupMessageDelivered (onGroupMessageDelivered s id u now) id u
            now2).groupMessages id =
        findGroupMessage (onGroupMessageDelivered s id u now).groupMessages id ∧
      (∀ (other : MessageId) (m1 : GroupMessage), other ≠ id →
        findGroupMessage s.groupMessages other = some m1 →
        findGroupMessage (onGroupMessageDelivered s id u now).groupMessages other =
          some m1) ∧
      (onGroupMessageDelivered s id u now).messages = s.messages ∧
      (onGroupMessageDelivered s id u now).groups = s.groups ∧
      (onGroupMessageDelivered s id u now).userSocketMap = s.userSocketMap ∧
      (onGroupMessageDelivered s id u now).emitted = s.emitted := by
  have h1 := findGroupMessage_onGroupMessageDelivered s id id u now m hm
  refine ⟨?_, ?_, ?_, ?_, rfl, rfl, rfl, rfl⟩
  · intro hu
    rw [h1]; simp [hu]
  · intro hu
    rw [h1]; simp [hu]
  · by_cases hu : u ∈ m.deliveredTo.map DeliveredEntry.userId
    · have h2 : findGroupMessage (onGroupMessageDelivered s id u now).groupMessages id =
          some m := by rw [h1]; simp [hu]
      rw [findGroupMessage_onGroupMessageDelivered _ id id u now2 m h2, h2]
      simp [hu]
    · have h2 : findGroupMessage (onGroupMessageDelivered s id u now).groupMessages id =
          some { m with deliveredTo := m.deliveredTo ++ [⟨u, now⟩],
                        status := Status.delivered } := by rw [h1]; simp [hu]
      rw [findGroupMessage_onGroupMessageDelivered _ id id u now2 _ h2, h2]
      simp
  · intro other m1 hne hm1
    rw [findGroupMessage_onGroupMessageDelivered s other id u now m1 hm1]
    have hne1 : ¬ id = other := fun h => hne h.symm
    simp [hne1]

/-- C17 at the sample chat: `u2` acknowledges the delivery of `g1` twice. -/
theorem groupMessageDelivered_appends_once_witness :
    (findGroupMessage (onGroupMessageDelivered sampleChat "g1" "u2" 9).groupMessages
        "g1").map GroupMessage.deliveredTo = some [⟨"u2", 9⟩] ∧
      findGroupMessage
          (onGroupMessageDelivered (onGroupMessageDelivered sampleChat "g1" "u2" 9) "g1" "u2"
            10).groupMessages "g1" =
        findGroupMessage (onGroupMessageDelivered sampleChat "g1" "u2" 9).groupMessages "g1" :=
  let h := groupMessageDelivered_appends_once sampleChat "g1" "u2" 9 10 sampleGroupMessage
    (by decide)
  ⟨by rw [h.1 (by decide)]; rfl, h.2.2.1⟩

/-! ## Properties of the guards of the group controller -/

theorem blockedBy_none_not_blocked (users : List User) (senderId : UserId)
    (members : List UserId) (h : blockedBy users senderId members = none) :
    ∀ memberId ∈ members, ∃ member, findUser users memberId = some member ∧
      senderId ∉ member.blockedUsers := by
  induction members with
  | nil => intro x hx; simp at hx
  | cons memberId rest ih =>
    unfold blockedBy at h
    cases hf : findUser users memberId with
    | none => simp [hf] at h
    | some member =>
      simp only [hf] at h
      by_cases hb : senderId ∈ member.blockedUsers
      · simp [hb] at h
      · simp only [hb, if_false] at h
        intro x hx
        rcases List.mem_cons.mp hx with hx | hx
        · subst hx; exact ⟨member, hf, hb⟩
        · exact ih h x hx

theorem blockedBy_of_blocked (users : List User) (senderId : UserId) (members : List UserId)
    (hex : ∀ memberId ∈ members, (findUser users memberId).isSome)
    (hb : ∃ memberId ∈ members, ∃ member, findUser users memberId = some member ∧
      senderId ∈ member.blockedUsers) :
    blockedBy users senderId members =
      some ⟨403, Body.error "You are blocked by a group member and cannot send messages"⟩ := by
  induction members with
  | nil => obtain ⟨x, hx, _⟩ := hb; simp at hx
  | cons memberId rest ih =>
    unfold blockedBy
    cases hf : findUser users memberId with
    | none =>
      have := hex memberId (List.mem_cons_self _ _)
      simp [hf] at this
    | some member =>
      simp only
      by_cases hblk : senderId ∈ member.blockedUsers
      · simp [hblk]
      · simp only [hblk, if_false]
        refine ih (fun x hx => hex x (List.mem_cons_of_mem _ hx)) ?_
        obtain ⟨x, hx, member1, hf1, hb1⟩ := hb
        rcases List.mem_cons.mp hx with hx | hx
        · subst hx
          rw [hf] at hf1
          exact absurd ((Option.some.inj hf1) ▸ hb1) hblk
        · exact ⟨x, hx, member1, hf1, hb1⟩

/-- A rejected `sendGroupMessage` leaves the state as it was. -/
theorem sendGroupMessage_rejected (s : ServerState) (senderId : UserId) (groupId : GroupId)
    (text image : Option String) (file : Option FileData) (newId : MessageId)
    (h : (sendGroupMessage s senderId groupId text image file newId).1.status ≠ 201) :
    (sendGroupMessage s senderId groupId text image file newId).2 = s := by
  unfold sendGroupMessage at h ⊢
  cases hg : findGroup s.groups groupId with
  | none => rfl
  | some group =>
    simp only [hg] at h ⊢
    by_cases hmem : senderId ∈ group.members
    · simp only [hmem, not_true_eq_false, if_false] at h ⊢
      cases hb : blockedBy s.users senderId group.members with
      | some r => rfl
      | none =>
        simp only [hb] at h ⊢
        cases hf : findGroupMessage s.groupMessages newId with
        | some x => simp
        | none => simp [hf] at h
    · simp [hmem]

/-- C18.  The controller `sendGroupMessage` answers 201 only if the group exists, the
sender is one of its members and no member has the sender in `blockedUsers`; whenever the
answer is not 201 the state is as before: no message stored, no event emitted.  With no
such group the answer is 404; for a sender who is not a member it is 403; and when every
member has a user document and one of them has blocked the sender it is 403. -/
theorem sendGroupMessage_guards (s : ServerState) (senderId : UserId) (groupId : GroupId)
    (text image : Option String) (file : Option FileData) (newId : MessageId) :
    ((sendGroupMessage s senderId groupId text image file newId).1.status = 201 →
        ∃ g, findGroup s.groups groupId = some g ∧ senderId ∈ g.members ∧
          ∀ memberId ∈ g.members, ∃ member, findUser s.users memberId = some member ∧
            senderId ∉ member.blockedUsers) ∧
      ((sendGroupMessage s senderId groupId text image file newId).1.status ≠ 201 →
        (sendGroupMessage s senderId groupId text image file newId).2 = s) ∧
      (findGroup s.groups groupId = none →
        sendGroupMessage s senderId groupId text image file newId =
          (⟨404, Body.error "Group not found"⟩, s)) ∧
      (∀ g, findGroup s.groups groupId = some g → senderId ∉ g.members →
        sendGroupMessage s senderId groupId text image file newId =
          (⟨403, Body.error "You are not a member of this group"⟩, s)) ∧
      (∀ g, findGroup s.groups groupId = some g → senderId ∈ g.members →
        (∀ memberId ∈ g.members, (findUser s.users memberId).isSome) →
        (∃ memberId ∈ g.members, ∃ member, findUser s.users memberId = some member ∧
          senderId ∈ member.blockedUsers) →
        sendGroupMessage s senderId groupId text image file newId =
          (⟨403, Body.error "You are blocked by a group member and cannot send messages"⟩,
            s)) := by
  refine ⟨?_, sendGroupMessage_rejected s senderId groupId text image file newId, ?_, ?_, ?_⟩
  · intro h
    obtain ⟨g, hg, hmem, hb, _, _⟩ := sendGroupMessage_accepted s senderId groupId text image
      file newId h
    exact ⟨g, hg, hmem, blockedBy_none_not_blocked _ _ _ hb⟩
  · intro hg
    unfold sendGroupMessage
    simp only [hg]
  · intro g hg hmem
    unfold sendGroupMessage
    simp only [hg, hmem, not_false_eq_true, if_true]
  · intro g hg hmem hex hb
    unfold sendGroupMessage
    simp only [hg, hmem, not_true_eq_false, if_false, blockedBy_of_blocked _ _ _ hex hb]

/-- C18 at the sample state: `u4` is not a member of `G`, and there is no group `X`. -/
theorem sendGroupMessage_guards_witness :
    sendGroupMessage sampleState "u4" "G" (some "hi") none none "g1" =
        (⟨403, Body.error "You are not a member of this group"⟩, sampleState) ∧
      sendGroupMessage sampleState "u1" "X" (some "hi") none none "g1" =
        (⟨404, Body.error "Group not found"⟩, sampleState) ∧
      sendGroupMessage sampleBlocked "u1" "G" (some "hi") none none "g1" =
        (⟨403, Body.error "You are blocked by a group member and cannot send messages"⟩,
          sampleBlocked) :=
  ⟨(sendGroupMessage_guards sampleState "u4" "G" (some "hi") none none "g1").2.2.2.1
      sampleGroup (by decide) (by decide),
    (sendGroupMessage_guards sampleState "u1" "X" (some "hi") none none "g1").2.2.1
      (by decide),
    (sendGroupMessage_guards sampleBlocked "u1" "G" (some "hi") none none "g1").2.2.2.2
      sampleGroup (by decide) (by decide) (by decide)
      ⟨"u2", by decide, ⟨"u2", ["u1"], true⟩, by decide, by decide⟩⟩

/-- Saving a group does not change what a lookup of another id finds. -/
theorem findGroup_saveGroup_other (groups : List Group) (g1 : Group) (other : GroupId)
    (hne : other ≠ g1._id) :
    findGroup (saveGroup groups g1) other = findGroup groups other := by
  unfold findGroup saveGroup
  induction groups with
  | nil => rfl
  | cons x xs ih =>
    by_cases hq : x._id = g1._id
    · have hx : ¬ x._id = other := fun h => hne (h.symm.trans hq)
      have hg : ¬ g1._id = other := fun h => hne h.symm
      simp [updateFirst, hq, List.find?, hx, hg]
    · by_cases hp : x._id = other
      · subst hp
        simp [updateFirst, hq, List.find?]
      · simp only [updateFirst, hq, decide_False, Bool.false_eq_true, if_false,
          List.find?, hp]
        exact ih

/-- C19.  The controller `addMember` by cases, in the order of its checks: no such group,
404; requester not the admin, 403; `memberId` already a member, 400; no user `memberId`,
404; in each of these the state is as before, so no group is changed and no
`newGroupMember` is emitted.  Otherwise the answer is 200, the stored group is the former
one with `memberId` appended to `members` and the admin and the other fields unchanged,
the other groups are untouched, and the log gains the `newGroupMember` events for the
new member list.  Whenever the answer is not 200 the state is as before. -/
theorem addMember_guards (s : ServerState) (user : UserId) (groupId : GroupId)
    (memberId : UserId) :
    (findGroup s.groups groupId = none →
        addMember s user groupId memberId = (⟨404, Body.error "Group not found"⟩, s)) ∧
      (∀ g, findGroup s.groups groupId = some g → g.admin ≠ user →
        addMember s user groupId memberId =
          (⟨403, Body.error "Only admin can add members"⟩, s)) ∧
      (∀ g, findGroup s.groups groupId = some g → g.admin = user → memberId ∈ g.members →
        addMember s user groupId memberId =
          (⟨400, Body.error "Member already exists in group"⟩, s)) ∧
      (∀ g, findGroup s.groups groupId = some g → g.admin = user → memberId ∉ g.members →
        findUser s.users memberId = none →
        addMember s user groupId memberId = (⟨404, Body.error "User not found"⟩, s)) ∧
      (∀ g newUser, findGroup s.groups groupId = some g → g.admin = user →
        memberId ∉ g.members → findUser s.users memberId = some newUser →
        (addMember s user groupId memberId).1 =
          ⟨200, Body.message "Member added successfully"⟩ ∧
        findGroup (addMember s user groupId memberId).2.groups groupId =
          some { g with members := g.members ++ [memberId] } ∧
        (∀ other, other ≠ groupId →
          findGroup (addMember s user groupId memberId).2.groups other =
            findGroup s.groups other) ∧
        (addMember s user groupId memberId).2.emitted = s.emitted ++
          newMemberNotifications s.userSocketMap s.users groupId newUser user
            (g.members ++ [memberId])) ∧
      ((addMember s user groupId memberId).1.status ≠ 200 →
        (addMember s user groupId memberId).2 = s) := by
  have haccept : ∀ g newUser, findGroup s.groups groupId = some g → g.admin = user →
      memberId ∉ g.members → findUser s.users memberId = some newUser →
      addMember s user groupId memberId =
        (⟨200, Body.message "Member added successfully"⟩,
          { s with
            groups := saveGroup s.groups { g with members := g.members ++ [memberId] },
            emitted := s.emitted ++
              newMemberNotifications s.userSocketMap s.users groupId newUser user
                (g.members ++ [memberId]) }) := by
    intro g newUser hg hadmin hmem hu
    subst hadmin
    have hsaved := findGroup_saveGroup s.groups groupId g
      { g with members := g.members ++ [memberId] } hg rfl
    unfold addMember
    simp only [hg, ne_eq, not_true_eq_false, if_false, hmem, hu, hsaved]
  refine ⟨?_, ?_, ?_, ?_, ?_, ?_⟩
  · intro hg
    unfold addMember
    simp only [hg]
  · intro g hg hadmin
    unfold addMember
    simp only [hg, hadmin, ne_eq, not_false_eq_true, if_true]
  · intro g hg hadmin hmem
    subst hadmin
    unfold addMember
    simp only [hg, ne_eq, not_true_eq_false, if_false, hmem, if_true]
  · intro g hg hadmin hmem hu
    subst hadmin
    unfold addMember
    simp only [hg, ne_eq, not_true_eq_false, if_false, hmem, hu]
  · intro g newUser hg hadmin hmem hu
    have hgid := (findGroup_mem _ _ _ hg).2
    rw [haccept g newUser hg hadmin hmem hu]
    refine ⟨rfl, findGroup_saveGroup s.groups groupId g _ hg rfl, ?_, rfl⟩
    intro other hne
    exact findGroup_saveGroup_other s.groups _ other (by simpa [hgid] using hne)
  · intro hstatus
    cases hg : findGroup s.groups groupId with
    | none => unfold addMember; simp only [hg]
    | some g =>
      by_cases hadmin : g.admin = user
      · by_cases hmem : memberId ∈ g.members
        · subst hadmin
          unfold addMember
          simp only [hg, ne_eq, not_true_eq_false, if_false, hmem, if_true]
        · cases hu : findUser s.users memberId with
          | none =>
            subst hadmin
            unfold addMember
            simp only [hg, ne_eq, not_true_eq_false, if_false, hmem, hu]
          | some newUser =>
            rw [haccept g newUser hg hadmin hmem hu] at hstatus
            exact absurd rfl hstatus
      · unfold addMember
        simp only [hg, hadmin, ne_eq, not_false_eq_true, if_true]

/-- C19 at the sample state: the admin `u1` adds `u4` to `G`; `u2`, not the admin, is
refused. -/
theorem addMember_guards_witness :
    findGroup (addMember sampleState "u1" "G" "u4").2.groups "G" =
        some { sampleGroup with members := ["u1", "u2", "u3", "u4"] } ∧
      addMember sampleState "u2" "G" "u4" =
        (⟨403, Body.error "Only admin can add members"⟩, sampleState) :=
  ⟨((addMember_guards sampleState "u1" "G" "u4").2.2.2.2.1 sampleGroup ⟨"u4", [], true⟩
      (by decide) (by decide) (by decide) (by decide)).2.1,
    (addMember_guards sampleState "u2" "G" "u4").2.1 sampleGroup (by decide) (by decide)⟩

/-- C20.  The controller `removeMember` by cases, in the order of its checks: no such
group, 404; requester not the admin, 403; `memberId` not in `members`, 400; the admin
naming themself, 400; in each of these the state is as before.  Otherwise the answer is
200 and the stored group is the former one with `members` filtered: `memberId` is gone,
every other member is kept in its place, the admin and the other fields are unchanged,
the other groups are untouched and nothing is emitted.  Whenever the answer is not 200
the state is as before. -/
theorem removeMember_guards (s : ServerState) (user : UserId) (groupId : GroupId)
    (memberId : UserId) :
    (findGroup s.groups groupId = none →
        removeMember s user groupId memberId = (⟨404, Body.error "Group not found"⟩, s)) ∧
      (∀ g, findGroup s.groups groupId = some g → g.admin ≠ user →
        removeMember s user groupId memberId =
          (⟨403, Body.error "Only admin can remove members"⟩, s)) ∧
      (∀ g, findGroup s.groups groupId = some g → g.admin = user → memberId ∉ g.members →
        removeMember s user groupId memberId =
          (⟨400, Body.error "Member not found in group"⟩, s)) ∧
      (∀ g, findGroup s.groups groupId = some g → g.admin = user → memberId ∈ g.members →
        memberId = user →
        removeMember s user groupId memberId =
          (⟨400, Body.error "Admin cannot remove themselves"⟩, s)) ∧
      (∀ g, findGroup s.groups groupId = some g → g.admin = user → memberId ∈ g.members →
        memberId ≠ user →
        (removeMember s user groupId memberId).1 =
          ⟨200, Body.message "Member removed successfully"⟩ ∧
        findGroup (removeMember s user groupId memberId).2.groups groupId =
          some { g with members := g.members.filter (fun id => id ≠ memberId) } ∧
        memberId ∉ g.members.filter (fun id => id ≠ memberId) ∧
        (∀ x ∈ g.members, x ≠ memberId → x ∈ g.members.filter (fun id => id ≠ memberId)) ∧
        (∀ other, other ≠ groupId →
          findGroup (removeMember s user groupId memberId).2.groups other =
            findGroup s.groups other) ∧
        (removeMember s user groupId memberId).2.emitted = s.emitted) ∧
      ((removeMember s user groupId memberId).1.status ≠ 200 →
        (removeMember s user groupId memberId).2 = s) := by
  have haccept : ∀ g, findGroup s.groups groupId = some g → g.admin = user →
      memberId ∈ g.members → memberId ≠ user →
      removeMember s user groupId memberId =
        (⟨200, Body.message "Member removed successfully"⟩,
          { s with
            groups := saveGroup s.groups
              { g with members := g.members.filter (fun id => id ≠ memberId) } }) := by
    intro g hg hadmin hmem hself
    subst hadmin
    unfold removeMember
    simp only [hg, ne_eq, not_true_eq_false, if_false, hmem, hself]
  refine ⟨?_, ?_, ?_, ?_, ?_, ?_⟩
  · intro hg
    unfold removeMember
    simp only [hg]
  · intro g hg hadmin
    unfold removeMember
    simp only [hg, hadmin, ne_eq, not_false_eq_true, if_true]
  · intro g hg hadmin hmem
    subst hadmin
    unfold removeMember
    simp only [hg, ne_eq, not_true_eq_false, if_false, hmem, not_false_eq_true,
      if_true]
  · intro g hg hadmin hmem hself
    subst hadmin
    subst hself
    unfold removeMember
    simp only [hg, ne_eq, not_true_eq_false, if_false, hmem, if_true]
  · intro g hg hadmin hmem hself
    have hgid := (findGroup_mem _ _ _ hg).2
    rw [haccept g hg hadmin hmem hself]
    refine ⟨rfl, findGroup_saveGroup s.groups groupId g _ hg rfl, ?_, ?_, ?_, rfl⟩
    · intro h
      have := (List.mem_filter.mp h).2
      simp at this
    · intro x hx hne
      exact List.mem_filter.mpr ⟨hx, by simpa using hne⟩
    · intro other hne
      exact findGroup_saveGroup_other s.groups _ other (by simpa [hgid] using hne)
  · intro hstatus
    cases hg : findGroup s.groups groupId with
    | none => unfold removeMember; simp only [hg]
    | some g =>
      by_cases hadmin : g.admin = user
      · by_cases hmem : memberId ∈ g.members
        · by_cases hself : memberId = user
          · subst hadmin
            subst hself
            unfold removeMember
            simp only [hg, ne_eq, not_true_eq_false, if_false, hmem, if_true]
          · rw [haccept g hg hadmin hmem hself] at hstatus
            exact absurd rfl hstatus
        · subst hadmin
          unfold removeMember
          simp only [hg, ne_eq, not_true_eq_false, if_false, hmem,
            not_false_eq_true, if_true]
      · unfold removeMember
        simp only [hg, hadmin, ne_eq, not_false_eq_true, if_true]

/-- C20 at the sample state: the admin `u1` removes `u2` from `G`, cannot remove
themself, and `u2` may remove nobody. -/
theorem removeMember_guards_witness :
    findGroup (removeMember sampleState "u1" "G" "u2").2.groups "G" =
        some { sampleGroup with members := ["u1", "u3"] } ∧
      removeMember sampleState "u1" "G" "u1" =
        (⟨400, Body.error "Admin cannot remove themselves"⟩, sampleState) ∧
      removeMember sampleState "u2" "G" "u3" =
        (⟨403, Body.error "Only admin can remove members"⟩, sampleState) :=
  ⟨((removeMember_guards sampleState "u1" "G" "u2").2.2.2.2.1 sampleGroup
      (by decide) (by decide) (by decide) (by decide)).2.1,
    (removeMember_guards sampleState "u1" "G" "u1").2.2.2.1 sampleGroup
      (by decide) (by decide) (by decide) rfl,
    (removeMember_guards sampleState "u2" "G" "u3").2.1 sampleGroup (by decide) (by decide)⟩

/-! ## Properties of the typing relay and of presence -/

/-- The typing relay in terms of the lookup.  For every state and every
`{receiverId, senderId}`: `typingStart` appends to the log exactly
`emitToUser(receiverId, userTyping {senderId})`, one event addressed to what
`userSocketMap[receiverId]` is when it is defined and nothing when it is undefined, and
`typingStop` does the same with `userStoppedTyping`; neither changes the registry, a
stored message, a group message, a group or a user. -/
theorem typing_relay_lookup (s : ServerState) (receiverId senderId : UserId) :
    onTypingStart s receiverId senderId =
        { s with emitted := s.emitted ++
            emitToUser s.userSocketMap receiverId (Payload.userTyping senderId) } ∧
      onTypingStop s receiverId senderId =
        { s with emitted := s.emitted ++
            emitToUser s.userSocketMap receiverId (Payload.userStoppedTyping senderId) } ∧
      (∀ c, getReceiverSocketId s.userSocketMap receiverId = some c →
        (onTypingStart s receiverId senderId).emitted =
          s.emitted ++ [⟨Target.room c, Payload.userTyping senderId⟩] ∧
        (onTypingStop s receiverId senderId).emitted =
          s.emitted ++ [⟨Target.room c, Payload.userStoppedTyping senderId⟩]) ∧
      (getReceiverSocketId s.userSocketMap receiverId = none →
        onTypingStart s receiverId senderId = s ∧ onTypingStop s receiverId senderId = s) := by
  refine ⟨?_, ?_, ?_, ?_⟩
  · unfold onTypingStart emitToUser
    cases getReceiverSocketId s.userSocketMap receiverId with
    | none => simp
    | some c => rfl
  · unfold onTypingStop emitToUser
    cases getReceiverSocketId s.userSocketMap receiverId with
    | none => simp
    | some c => rfl
  · intro c hc
    simp [onTypingStart, onTypingStop, hc, emitTo]
  · intro hc
    simp [onTypingStart, onTypingStop, hc]

/-- The typing relay at the sample chat: `u2` is connected on `c2`, `u3` is not
connected. -/
theorem typing_relay_lookup_witness :
    ((onTypingStart sampleChat "u2" "u1").emitted =
          sampleChat.emitted ++ [⟨Target.room (Room.socket "c2"), Payload.userTyping "u1"⟩] ∧
        (onTypingStop sampleChat "u2" "u1").emitted =
          sampleChat.emitted ++
            [⟨Target.room (Room.socket "c2"), Payload.userStoppedTyping "u1"⟩]) ∧
      (onTypingStart sampleChat "u3" "u1" = sampleChat ∧
        onTypingStop sampleChat "u3" "u1" = sampleChat) :=
  ⟨(typing_relay_lookup sampleChat "u2" "u1").2.2.1 (Room.socket "c2") (by decide),
    (typing_relay_lookup sampleChat "u3" "u1").2.2.2 (by decide)⟩

/-- What the typing handlers do for a receiver that is not registered.  When `receiverId`
is no key of the registry and no property name of `Object.prototype`, both handlers
leave the whole state as it was. -/
theorem typing_relay_unregistered (s : ServerState) (receiverId senderId : UserId)
    (hown : receiverId ∉ onlineUsers s.userSocketMap)
    (hproto : receiverId ∉ objectPrototypeKeys) :
    onTypingStart s receiverId senderId = s ∧ onTypingStop s receiverId senderId = s := by
  have hnone : ownSocketId s.userSocketMap receiverId = none := by
    cases h : ownSocketId s.userSocketMap receiverId with
    | none => rfl
    | some c =>
      exact absurd (List.mem_map.mpr ⟨(receiverId, c), mem_of_lookup _ _ _ h, rfl⟩) hown
  have hlookup : getReceiverSocketId s.userSocketMap receiverId = none := by
    simp [getReceiverSocketId, hnone, hproto]
  exact (typing_relay_lookup s receiverId senderId).2.2.2 hlookup

/-- The unregistered receiver `u3` at the sample chat. -/
theorem typing_relay_unregistered_witness :
    onTypingStart sampleChat "u3" "u1" = sampleChat ∧
      onTypingStop sampleChat "u3" "u1" = sampleChat :=
  typing_relay_unregistered sampleChat "u3" "u1" (by decide) (by decide)

/-- C21.  At the empty registry, where no user is registered, `typingStart` and
`typingStop` with `receiverId` = `constructor` each call `io.to(...).emit` once: the
lookup `userSocketMap["constructor"]` is the function every object inherits under that
name, which is truthy, so the guard `if (receiverSocketId)` passes and one event is
added to the log where none should be. -/
theorem typing_emits_for_inherited_key :
    onlineUsers (⟨[], [], [], [], [], []⟩ : ServerState).userSocketMap = [] ∧
      getReceiverSocketId [] "constructor" = some (Room.inherited "constructor") ∧
      (onTypingStart ⟨[], [], [], [], [], []⟩ "constructor" "u1").emitted =
        [⟨Target.room (Room.inherited "constructor"), Payload.userTyping "u1"⟩] ∧
      (onTypingStop ⟨[], [], [], [], [], []⟩ "constructor" "u1").emitted =
        [⟨Target.room (Room.inherited "constructor"), Payload.userStoppedTyping "u1"⟩] := by
  decide

theorem mem_onlineUsers_iff (r : UserSocketMap) (u : UserId) :
    u ∈ onlineUsers r ↔ ∃ c : SocketId, getReceiverSocketId r u = some (Room.socket c) := by
  simp only [getReceiverSocketId_socket]
  induction r with
  | nil => simp [onlineUsers, ownSocketId]
  | cons e rest ih =>
    obtain ⟨key, value⟩ := e
    rw [lookup_cons]
    unfold onlineUsers at ih ⊢
    by_cases h : u = key
    · simp [h]
    · simp only [List.map_cons, List.mem_cons, h, false_or, if_false]
      exact ih

/-- C24.  After every `connection` event and every `disconnect` event the log gains
exactly one broadcast (`io.emit`), `getOnlineUsers`, whose payload is
`Object.keys(userSocketMap)` of the registry after the handler's mutation.  For every
registry with distinct keys that list holds each registered user id once and no other
id, so the broadcast is the full set and not a change to it. -/
theorem presence_snapshot (s : ServerState) (socketId : SocketId) (userId : UserId) :
    (onConnection s socketId userId).emitted = s.emitted ++
        [⟨Target.all, Payload.getOnlineUsers
          (onlineUsers (onConnection s socketId userId).userSocketMap)⟩] ∧
      (onConnection s socketId userId).userSocketMap =
        register s.userSocketMap socketId userId ∧
      (onDisconnect s socketId).emitted = s.emitted ++
        [⟨Target.all, Payload.getOnlineUsers
          (onlineUsers (onDisconnect s socketId).userSocketMap)⟩] ∧
      (onDisconnect s socketId).userSocketMap = unregister s.userSocketMap socketId ∧
      (∀ r : UserSocketMap, DistinctKeys r →
        (onlineUsers r).Nodup ∧
        ∀ u, u ∈ onlineUsers r ↔
          ∃ c : SocketId, getReceiverSocketId r u = some (Room.socket c)) ∧
      (DistinctKeys s.userSocketMap →
        DistinctKeys (onConnection s socketId userId).userSocketMap ∧
        DistinctKeys (onDisconnect s socketId).userSocketMap) :=
  ⟨rfl, rfl, rfl, rfl, fun r hr => ⟨hr, mem_onlineUsers_iff r⟩,
    fun hd => ⟨distinctKeys_register _ _ _ hd, distinctKeys_unregister _ _ hd⟩⟩

/-- C24 at the sample chat: `u3` connects on `c3`, and `c2` disconnects. -/
theorem presence_snapshot_witness :
    (onConnection sampleChat "c3" "u3").emitted =
        [⟨Target.all, Payload.getOnlineUsers ["u2", "u1", "u3"]⟩] ∧
      (onDisconnect sampleChat "c2").emitted =
        [⟨Target.all, Payload.getOnlineUsers ["u1"]⟩] ∧
      (onlineUsers (onConnection sampleChat "c3" "u3").userSocketMap).Nodup :=
  ⟨(presence_snapshot sampleChat "c3" "u3").1, (presence_snapshot sampleChat "c2" "u3").2.2.1,
    ((presence_snapshot sampleChat "c3" "u3").2.2.2.2.1 _
      ((presence_snapshot sampleChat "c3" "u3").2.2.2.2.2 (by decide)).1).1⟩

/-! ## Properties of the reachable registries -/

theorem values_replaceOwn_nodup (r : UserSocketMap) (u : UserId) (c : SocketId)
    (hv : (r.map Prod.snd).Nodup) (hc : c ∉ r.map Prod.snd) :
    ((replaceOwn r u c).map Prod.snd).Nodup := by
  induction r with
  | nil => simp [replaceOwn]
  | cons x rest ih =>
    obtain ⟨key, value⟩ := x
    simp only [List.map_cons, List.nodup_cons, List.mem_cons, not_or] at hv hc
    by_cases h : key = u
    · simp only [replaceOwn, h, if_true, List.map_cons, List.nodup_cons]
      exact ⟨hc.2, hv.2⟩
    · simp only [replaceOwn, h, if_false, List.map_cons, List.nodup_cons]
      refine ⟨?_, ih hv.2 hc.2⟩
      intro hmem
      obtain ⟨e, he, hev⟩ := List.mem_map.mp hmem
      rcases mem_replaceOwn rest u c e he with h1 | h1
      · exact hv.1 (List.mem_map.mpr ⟨e, h1, hev⟩)
      · rw [h1] at hev
        exact hc.1 hev

theorem values_assign_nodup (r : UserSocketMap) (u : UserId) (c : SocketId)
    (hv : (r.map Prod.snd).Nodup) (hc : c ∉ r.map Prod.snd) :
    ((assign r u c).map Prod.snd).Nodup := by
  unfold assign
  by_cases hp : u = "__proto__"
  · rw [if_pos hp]; exact hv
  · rw [if_neg hp]
    by_cases h : (ownSocketId r u).isSome = true
    · rw [if_pos h]; exact values_replaceOwn_nodup r u c hv hc
    · rw [if_neg h]
      refine ((perm_insertOwn r u c).map Prod.snd).nodup_iff.mpr ?_
      simp only [List.map_cons, List.nodup_cons]
      exact ⟨hc, hv⟩

theorem disconnectLoop_spec (c : SocketId) (m : UserSocketMap)
    (entries : List (UserId × SocketId)) :
    (disconnectLoop c m entries = m ∧ ∀ e ∈ entries, e.2 ≠ c) ∨
      ∃ k, (k, c) ∈ entries ∧ disconnectLoop c m entries = deleteKey m k := by
  induction entries with
  | nil => exact Or.inl ⟨rfl, fun e he => by simp at he⟩
  | cons x rest ih =>
    obtain ⟨key, value⟩ := x
    by_cases h : value = c
    · subst h
      exact Or.inr ⟨key, by simp, by simp [disconnectLoop]⟩
    · rcases ih with ⟨h1, h2⟩ | ⟨k, hk, h1⟩
      · refine Or.inl ⟨by simp [disconnectLoop, h, h1], ?_⟩
        intro e he
        rcases List.mem_cons.mp he with he | he
        · rw [he]; exact h
        · exact h2 e he
      · exact Or.inr ⟨k, List.mem_cons_of_mem _ hk, by simp [disconnectLoop, h, h1]⟩

theorem mem_deleteKey (m : UserSocketMap) (k : UserId) (e : UserId × SocketId)
    (he : e ∈ deleteKey m k) : e ∈ m ∧ e.1 ≠ k := by
  unfold deleteKey at he
  have := List.mem_filter.mp he
  exact ⟨this.1, by simpa using this.2⟩

/-- After the disconnect of `c` no user is mapped to `c`, when no two entries shared a
value. -/
theorem lookup_unregister_ne (r : UserSocketMap) (c : SocketId)
    (hv : (r.map Prod.snd).Nodup) (u : UserId) :
    getReceiverSocketId (unregister r c) u ≠ some (Room.socket c) := by
  intro h
  have hmem := mem_of_lookup _ _ _ ((getReceiverSocketId_socket _ _ _).mp h)
  rcases disconnectLoop_spec c r r with ⟨h1, h2⟩ | ⟨k, hk, h1⟩
  · unfold unregister at hmem
    rw [h1] at hmem
    exact h2 _ hmem rfl
  · unfold unregister at hmem
    rw [h1] at hmem
    have hm := mem_deleteKey r k _ hmem
    have := List.inj_on_of_nodup_map hv hm.1 hk rfl
    exact hm.2 (congrArg Prod.fst this)

/-- The disconnect of a socket id that no user is mapped to leaves the registry as it
was. -/
theorem unregister_of_unmapped (r : UserSocketMap) (c : SocketId) (hd : DistinctKeys r)
    (h : ∀ u, getReceiverSocketId r u ≠ some (Room.socket c)) : unregister r c = r := by
  rcases disconnectLoop_spec c r r with ⟨h1, _⟩ | ⟨k, hk, _⟩
  · exact h1
  · exact absurd ((getReceiverSocketId_socket _ _ _).mpr (lookup_of_mem r k c hd hk)) (h k)

/-- The registry invariants along a run whose connections are on fresh socket ids:
`used` holds the socket ids seen so far. -/
theorem registry_invariants_handleAll (events : List SocketEvent) (s : ServerState)
    (used : List SocketId) (hd : DistinctKeys s.userSocketMap)
    (hv : (s.userSocketMap.map Prod.snd).Nodup)
    (hused : ∀ e ∈ s.userSocketMap, e.2 ∈ used)
    (hfresh : (connectionIds events).Nodup)
    (hnew : ∀ c ∈ connectionIds events, c ∉ used) :
    DistinctKeys (handleAll s events).userSocketMap ∧
      ((handleAll s events).userSocketMap.map Prod.snd).Nodup := by
  induction events generalizing s used with
  | nil => exact ⟨hd, hv⟩
  | cons e rest ih =>
    have hd1 := distinctKeys_handle s e hd
    have hreg := handle_userSocketMap s e
    cases e with
    | connection socketId userId =>
      simp only [connectionIds, List.nodup_cons] at hfresh
      simp only at hreg
      have hc : socketId ∉ s.userSocketMap.map Prod.snd := by
        intro hmem
        obtain ⟨x, hx, hxv⟩ := List.mem_map.mp hmem
        exact hnew socketId (by simp [connectionIds]) (hxv ▸ hused x hx)
      refine ih (handle s (SocketEvent.connection socketId userId)) (socketId :: used) hd1
        ?_ ?_ hfresh.2 ?_
      · rw [hreg]
        unfold register
        split
        · exact values_assign_nodup _ _ _ hv hc
        · exact hv
      · rw [hreg]
        intro x hx
        unfold register at hx
        split at hx
        · rcases mem_assign _ _ _ _ hx with h1 | h1
          · exact List.mem_cons_of_mem _ (hused x h1)
          · rw [h1]; exact List.mem_cons_self _ _
        · exact List.mem_cons_of_mem _ (hused x hx)
      · intro c hc1 hc2
        rcases List.mem_cons.mp hc2 with h1 | h1
        · exact hfresh.1 (h1 ▸ hc1)
        · exact hnew c (by simp [connectionIds, hc1]) h1
    | disconnect socketId =>
      simp only at hreg
      have hsub : ∀ x ∈ unregister s.userSocketMap socketId, x ∈ s.userSocketMap := by
        intro x hx
        rcases unregister_cases s.userSocketMap socketId with h1 | ⟨k, _, h1⟩
        · rw [h1] at hx; exact hx
        · rw [h1] at hx; exact (mem_deleteKey _ _ _ hx).1
      refine ih (handle s (SocketEvent.disconnect socketId)) used hd1 ?_ ?_ hfresh hnew
      · rw [hreg]
        rcases unregister_cases s.userSocketMap socketId with h1 | ⟨k, _, h1⟩
        · rw [h1]; exact hv
        · rw [h1]
          exact List.Nodup.sublist (List.Sublist.map _ (List.filter_sublist _)) hv
      · rw [hreg]
        intro x hx
        exact hused x (hsub x hx)
    | messageDelivered id now =>
      exact ih _ used hd1 (by rw [hreg]; exact hv) (by rw [hreg]; exact hused) hfresh hnew
    | messageRead id now =>
      exact ih _ used hd1 (by rw [hreg]; exact hv) (by rw [hreg]; exact hused) hfresh hnew
    | typingStart r t =>
      exact ih _ used hd1 (by rw [hreg]; exact hv) (by rw [hreg]; exact hused) hfresh hnew
    | typingStop r t =>
      exact ih _ used hd1 (by rw [hreg]; exact hv) (by rw [hreg]; exact hused) hfresh hnew
    | groupMessageRead id u now =>
      exact ih _ used hd1 (by rw [hreg]; exact hv) (by rw [hreg]; exact hused) hfresh hnew
    | groupMessageDelivered id u now =>
      exact ih _ used hd1 (by rw [hreg]; exact hv) (by rw [hreg]; exact hused) hfresh hnew

/-- A reachable registry has distinct keys and distinct values. -/
theorem registry_invariants_of_reachable (r : UserSocketMap) (hr : RegistryReachable r) :
    DistinctKeys r ∧ (r.map Prod.snd).Nodup := by
  obtain ⟨s0, events, h0, hfresh, hrun⟩ := hr
  rw [← hrun]
  refine registry_invariants_handleAll events s0 [] ?_ ?_ ?_ hfresh (fun c _ h => by simp at h)
  · rw [h0]; simp [DistinctKeys]
  · rw [h0]; simp
  · intro e he; rw [h0] at he; simp at he

theorem sampleRegistry_reachable : RegistryReachable sampleChat.userSocketMap :=
  ⟨⟨[], [], [], [], [], []⟩,
    [SocketEvent.connection "c0" "u2", SocketEvent.connection "c2" "u2",
      SocketEvent.connection "c1" "u1", SocketEvent.disconnect "c0"],
    rfl, by decide, by decide⟩

/-- C25.  In every registry reachable from the empty one by socket events whose
connections are each on a fresh socket id, no socket id is the value of two entries: the
values are pairwise distinct, so two users mapped to the same socket id are the same
user.  Consequently after the disconnect of `c`, which deletes only the first entry whose
value is `c`, no user is mapped to `c`. -/
theorem one_user_per_connection (r : UserSocketMap) (hr : RegistryReachable r) :
    (r.map Prod.snd).Nodup ∧
      (∀ (u1 u2 : UserId) (c : SocketId),
        getReceiverSocketId r u1 = some (Room.socket c) →
        getReceiverSocketId r u2 = some (Room.socket c) → u1 = u2) ∧
      ∀ (c : SocketId) (u : UserId),
        getReceiverSocketId (unregister r c) u ≠ some (Room.socket c) := by
  have hinv := registry_invariants_of_reachable r hr
  refine ⟨hinv.2, ?_, fun c u => lookup_unregister_ne r c hinv.2 u⟩
  intro u1 u2 c h1 h2
  have := List.inj_on_of_nodup_map hinv.2
    (mem_of_lookup _ _ _ ((getReceiverSocketId_socket _ _ _).mp h1))
    (mem_of_lookup _ _ _ ((getReceiverSocketId_socket _ _ _).mp h2)) rfl
  exact congrArg Prod.fst this

/-- C25 at the registry of the sample chat, reached by four events. -/
theorem one_user_per_connection_witness :
    (sampleChat.userSocketMap.map Prod.snd).Nodup ∧
      getReceiverSocketId (unregister sampleChat.userSocketMap "c2") "u2" ≠
        some (Room.socket "c2") :=
  let h := one_user_per_connection sampleChat.userSocketMap sampleRegistry_reachable
  ⟨h.1, h.2.2 "c2" "u2"⟩

/-- C26.  In every reachable registry and for every socket id `c`: handling the
disconnect of `c` twice gives the registry that handling it once gives, and the
disconnect of a socket id that no user is mapped to leaves the registry unchanged. -/
theorem disconnect_idempotent (r : UserSocketMap) (c : SocketId)
    (hr : RegistryReachable r) :
    unregister (unregister r c) c = unregister r c ∧
      ((∀ u, getReceiverSocketId r u ≠ some (Room.socket c)) → unregister r c = r) := by
  have hinv := registry_invariants_of_reachable r hr
  exact ⟨unregister_of_unmapped _ c (distinctKeys_unregister r c hinv.1)
      (lookup_unregister_ne r c hinv.2),
    unregister_of_unmapped r c hinv.1⟩

/-- C26 at the registry of the sample chat: `c2` disconnects twice, and `c9` is not
connected. -/
theorem disconnect_idempotent_witness :
    unregister (unregister sampleChat.userSocketMap "c2") "c2" =
        unregister sampleChat.userSocketMap "c2" ∧
      unregister sampleChat.userSocketMap "c9" = sampleChat.userSocketMap :=
  ⟨(disconnect_idempotent sampleChat.userSocketMap "c2" sampleRegistry_reachable).1,
    (disconnect_idempotent sampleChat.userSocketMap "c9" sampleRegistry_reachable).2
      (fun u h => by
        have hm := mem_of_lookup _ _ _ ((getReceiverSocketId_socket _ _ _).mp h)
        simp [sampleChat] at hm)⟩

/-! ## Properties of direct messaging -/

/-- What an accepted `sendMessage` did: receiver and sender exist and differ, neither
blocked the other, the receiver allows messaging, the new `_id` was free, and the new
state is the old one with the message stored last and the event for the receiver, if
registered, appended to the log. -/
theorem sendMessage_accepted (s : ServerState) (senderId receiverId : UserId)
    (text image : Option String) (file : Option FileData) (uploaded : Option String)
    (newId : MessageId)
    (h : (sendMessage s senderId receiverId text image file uploaded newId).1.status = 201) :
    ∃ receiver sender, findUser s.users receiverId = some receiver ∧
      findUser s.users senderId = some sender ∧ senderId ≠ receiverId ∧
      receiverId ∉ sender.blockedUsers ∧ senderId ∉ receiver.blockedUsers ∧
      receiver.allowMessaging = true ∧ findMessage s.messages newId = none ∧
      sendMessage s senderId receiverId text image file uploaded newId =
        (⟨201, Body.directMessage
            (buildMessage newId senderId receiverId text image file uploaded)⟩,
          { s with
            messages := s.messages ++
              [buildMessage newId senderId receiverId text image file uploaded],
            emitted := s.emitted ++ emitToUser s.userSocketMap receiverId
              (Payload.newMessage
                (buildMessage newId senderId receiverId text image file uploaded)) }) := by
  unfold sendMessage at h ⊢
  cases hr : findUser s.users receiverId with
  | none => simp [hr] at h
  | some receiver =>
    simp only [hr] at h ⊢
    by_cases hself : senderId = receiverId
    · simp [hself] at h
    · simp only [hself, if_false] at h ⊢
      cases hs : findUser s.users senderId with
      | none => simp [hs] at h
      | some sender =>
        simp only [hs] at h ⊢
        by_cases hb : receiverId ∈ sender.blockedUsers ∨ senderId ∈ receiver.blockedUsers
        · simp [hb] at h
        · simp only [hb, if_false] at h ⊢
          by_cases ha : receiver.allowMessaging = false
          · simp [ha] at h
          · simp only [ha, if_false] at h ⊢
            by_cases hup : hasImage image = true ∧ uploaded = none
            · simp [hup] at h
            · simp only [hup, if_false] at h ⊢
              cases hf : findMessage s.messages newId with
              | some x => simp [hf] at h
              | none =>
                simp only [not_or] at hb
                have ha1 : receiver.allowMessaging = true := by
                  cases hx : receiver.allowMessaging with
                  | true => rfl
                  | false => exact absurd hx ha
                refine ⟨receiver, sender, rfl, rfl, hself, hb.1, hb.2, ha1, rfl, ?_⟩
                simp only [Option.isSome_none, Bool.false_eq_true, if_false, emitToUser]
                cases getReceiverSocketId s.userSocketMap receiverId with
                | none => simp
                | some c => rfl

/-- A rejected `sendMessage` leaves the state as it was. -/
theorem sendMessage_rejected (s : ServerState) (senderId receiverId : UserId)
    (text image : Option String) (file : Option FileData) (uploaded : Option String)
    (newId : MessageId)
    (h : (sendMessage s senderId receiverId text image file uploaded newId).1.status ≠ 201) :
    (sendMessage s senderId receiverId text image file uploaded newId).2 = s := by
  unfold sendMessage at h ⊢
  cases hr : findUser s.users receiverId with
  | none => rfl
  | some receiver =>
    simp only [hr] at h ⊢
    by_cases hself : senderId = receiverId
    · simp [hself]
    · simp only [hself, if_false] at h ⊢
      cases hs : findUser s.users senderId with
      | none => rfl
      | some sender =>
        simp only [hs] at h ⊢
        by_cases hb : receiverId ∈ sender.blockedUsers ∨ senderId ∈ receiver.blockedUsers
        · simp [hb]
        · simp only [hb, if_false] at h ⊢
          by_cases ha : receiver.allowMessaging = false
          · simp [ha]
          · simp only [ha, if_false] at h ⊢
            by_cases hup : hasImage image = true ∧ uploaded = none
            · simp [hup]
            · simp only [hup, if_false] at h ⊢
              cases hf : findMessage s.messages newId with
              | some x => simp
              | none =>
                exfalso
                simp only [hf, Option.isSome_none, Bool.false_eq_true, if_false] at h
                cases hc : getReceiverSocketId s.userSocketMap receiverId with
                | none => simp [hc] at h
                | some c => simp [hc] at h

/-- The answer of `sendMessage` does not read the registry. -/
theorem sendMessage_response_registry (s : ServerState) (r : UserSocketMap)
    (senderId receiverId : UserId) (text image : Option String) (file : Option FileData)
    (uploaded : Option String) (newId : MessageId) :
    (sendMessage { s with userSocketMap := r } senderId receiverId text image file uploaded
        newId).1 =
      (sendMessage s senderId receiverId text image file uploaded newId).1 := by
  unfold sendMessage
  simp only
  cases findUser s.users receiverId with
  | none => rfl
  | some receiver =>
    simp only
    split
    · rfl
    · cases findUser s.users senderId with
      | none => rfl
      | some sender =>
        simp only
        split
        · rfl
        · split
          · rfl
          · split
            · rfl
            · split
              · rfl
              · cases getReceiverSocketId r receiverId <;>
                  cases getReceiverSocketId s.userSocketMap receiverId <;> rfl

/-- C22.  For every accepted `sendMessage` from `senderId` to `receiverId` (status 201):
the new message, with status `sent`, is the body of the answer and is stored last in the
collection; the log gains exactly `emitToUser(receiverId, newMessage)`: one event to the
connection registered for the receiver when there is one, and nothing when the receiver
is not registered; and the answer is the same whatever the registry holds. -/
theorem sendMessage_delivery (s : ServerState) (senderId receiverId : UserId)
    (text image : Option String) (file : Option FileData) (uploaded : Option String)
    (newId : MessageId)
    (h : (sendMessage s senderId receiverId text image file uploaded newId).1.status = 201) :
    ∃ m : Message,
      (sendMessage s senderId receiverId text image file uploaded newId).1 =
        ⟨201, Body.directMessage m⟩ ∧
      m._id = newId ∧ m.senderId = senderId ∧ m.receiverId = receiverId ∧
      m.status = Status.sent ∧
      (sendMessage s senderId receiverId text image file uploaded newId).2.messages =
        s.messages ++ [m] ∧
      findMessage (sendMessage s senderId receiverId text image file uploaded
        newId).2.messages newId = some m ∧
      (sendMessage s senderId receiverId text image file uploaded newId).2.emitted =
        s.emitted ++ emitToUser s.userSocketMap receiverId (Payload.newMessage m) ∧
      (∀ c, getReceiverSocketId s.userSocketMap receiverId = some c →
        (sendMessage s senderId receiverId text image file uploaded newId).2.emitted =
          s.emitted ++ [⟨Target.room c, Payload.newMessage m⟩]) ∧
      (getReceiverSocketId s.userSocketMap receiverId = none →
        (sendMessage s senderId receiverId text image file uploaded newId).2.emitted =
          s.emitted) ∧
      (∀ r : UserSocketMap,
        (sendMessage { s with userSocketMap := r } senderId receiverId text image file
          uploaded newId).1 = ⟨201, Body.directMessage m⟩) := by
  obtain ⟨receiver, sender, _, _, _, _, _, _, hfree, hrun⟩ :=
    sendMessage_accepted s senderId receiverId text image file uploaded newId h
  refine ⟨buildMessage newId senderId receiverId text image file uploaded, by rw [hrun],
    rfl, rfl, rfl, rfl, by rw [hrun], ?_, by rw [hrun], ?_, ?_, ?_⟩
  · rw [hrun]
    exact find_append_of_none _ _ _ hfree (by simp [buildMessage])
  · intro c hc
    rw [hrun]; simp [emitToUser, hc]
  · intro hc
    rw [hrun]; simp [emitToUser, hc]
  · intro r
    rw [sendMessage_response_registry, hrun]

/-- C22 at the sample chat: `u1` sends to `u2`, connected on `c2`, and to `u3`, who is
not connected. -/
theorem sendMessage_delivery_witness :
    (∃ m : Message,
        (sendMessage sampleChat "u1" "u2" (some "hello") none none none "m2").1 =
          ⟨201, Body.directMessage m⟩ ∧
        (sendMessage sampleChat "u1" "u2" (some "hello") none none none "m2").2.emitted =
          sampleChat.emitted ++ [⟨Target.room (Room.socket "c2"), Payload.newMessage m⟩]) ∧
      ∃ m : Message,
        (sendMessage sampleChat "u1" "u3" (some "hello") none none none "m2").1 =
          ⟨201, Body.directMessage m⟩ ∧
        (sendMessage sampleChat "u1" "u3" (some "hello") none none none "m2").2.emitted =
          sampleChat.emitted := by
  constructor
  · obtain ⟨m, h1, _, _, _, _, _, _, _, h9, _⟩ :=
      sendMessage_delivery sampleChat "u1" "u2" (some "hello") none none none "m2" (by decide)
    exact ⟨m, h1, h9 (Room.socket "c2") (by decide)⟩
  · obtain ⟨m, h1, _, _, _, _, _, _, _, _, h10, _⟩ :=
      sendMessage_delivery sampleChat "u1" "u3" (some "hello") none none none "m2" (by decide)
    exact ⟨m, h1, h10 (by decide)⟩

/-- C23.  The controller `sendMessage` answers 201 only if the receiver exists, the
sender is not the receiver, neither user has the other in `blockedUsers` and the
receiver's `allowMessaging` is true; whenever the answer is not 201 the state is as
before: nothing persisted, nothing emitted.  In the order of its checks: no receiver,
404; sender and receiver the same, 400; one of the two has blocked the other, 403; the
receiver does not allow messaging, 403 (the last two for a sender who has a user
document, as an authenticated requester has). -/
theorem sendMessage_guards (s : ServerState) (senderId receiverId : UserId)
    (text image : Option String) (file : Option FileData) (uploaded : Option String)
    (newId : MessageId) :
    ((sendMessage s senderId receiverId text image file uploaded newId).1.status = 201 →
        ∃ receiver sender, findUser s.users receiverId = some receiver ∧
          findUser s.users senderId = some sender ∧ senderId ≠ receiverId ∧
          receiverId ∉ sender.blockedUsers ∧ senderId ∉ receiver.blockedUsers ∧
          receiver.allowMessaging = true) ∧
      ((sendMessage s senderId receiverId text image file uploaded newId).1.status ≠ 201 →
        (sendMessage s senderId receiverId text image file uploaded newId).2 = s) ∧
      (findUser s.users receiverId = none →
        sendMessage s senderId receiverId text image file uploaded newId =
          (⟨404, Body.error "Receiver not found"⟩, s)) ∧
      (∀ receiver, findUser s.users receiverId = some receiver → senderId = receiverId →
        sendMessage s senderId receiverId text image file uploaded newId =
          (⟨400, Body.error "You cannot send a message to yourself"⟩, s)) ∧
      (∀ receiver sender, findUser s.users receiverId = some receiver →
        senderId ≠ receiverId → findUser s.users senderId = some sender →
        (receiverId ∈ sender.blockedUsers ∨ senderId ∈ receiver.blockedUsers) →
        sendMessage s senderId receiverId text image file uploaded newId =
          (⟨403, Body.error "Messaging is not allowed between these users"⟩, s)) ∧
      (∀ receiver sender, findUser s.users receiverId = some receiver →
        senderId ≠ receiverId → findUser s.users senderId = some sender →
        ¬ (receiverId ∈ sender.blockedUsers ∨ senderId ∈ receiver.blockedUsers) →
        receiver.allowMessaging = false →
        sendMessage s senderId receiverId text image file uploaded newId =
          (⟨403, Body.error "This user does not allow messages"⟩, s)) := by
  refine ⟨?_, sendMessage_rejected s senderId receiverId text image file uploaded newId,
    ?_, ?_, ?_, ?_⟩
  · intro h
    obtain ⟨receiver, sender, h1, h2, h3, h4, h5, h6, _, _⟩ :=
      sendMessage_accepted s senderId receiverId text image file uploaded newId h
    exact ⟨receiver, sender, h1, h2, h3, h4, h5, h6⟩
  · intro hr
    unfold sendMessage
    simp only [hr]
  · intro receiver hr hself
    unfold sendMessage
    simp only [hr, hself, if_true]
  · intro receiver sender hr hself hs hb
    unfold sendMessage
    simp only [hr, hself, if_false, hs, hb, if_true]
  · intro receiver sender hr hself hs hb ha
    unfold sendMessage
    simp only [hr, hself, if_false, hs, hb, ha, if_true]

/-- C23 at the sample states: there is no user `u9`; `u1` may not write to themself;
`u2` has blocked `u1`. -/
theorem sendMessage_guards_witness :
    sendMessage sampleChat "u1" "u9" (some "hello") none none none "m2" =
        (⟨404, Body.error "Receiver not found"⟩, sampleChat) ∧
      sendMessage sampleChat "u1" "u1" (some "hello") none none none "m2" =
        (⟨400, Body.error "You cannot send a message to yourself"⟩, sampleChat) ∧
      sendMessage sampleBlocked "u1" "u2" (some "hello") none none none "m2" =
        (⟨403, Body.error "Messaging is not allowed between these users"⟩, sampleBlocked) :=
  ⟨(sendMessage_guards sampleChat "u1" "u9" (some "hello") none none none "m2").2.2.1
      (by decide),
    (sendMessage_guards sampleChat "u1" "u1" (some "hello") none none none "m2").2.2.2.1
      ⟨"u1", [], true⟩ (by decide) rfl,
    (sendMessage_guards sampleBlocked "u1" "u2" (some "hello") none none none "m2").2.2.2.2.1
      ⟨"u2", ["u1"], true⟩ ⟨"u1", [], true⟩ (by decide) (by decide) (by decide)
      (Or.inr (by decide))⟩

/-! ## Independence of the store from presence -/

theorem onMessageDelivered_messages (s : ServerState) (id : MessageId) (now : Timestamp) :
    (onMessageDelivered s id now).messages =
      updateFirst (fun m => m._id = id)
        (fun m => { m with status := Status.delivered, deliveredAt := some now })
        s.messages := by
  unfold onMessageDelivered
  simp only
  split
  · rfl
  · split <;> rfl

theorem onMessageDelivered_groups_users (s : ServerState) (id : MessageId) (now : Timestamp) :
    (onMessageDelivered s id now).groups = s.groups ∧
      (onMessageDelivered s id now).users = s.users := by
  unfold onMessageDelivered
  simp only
  split
  · exact ⟨rfl, rfl⟩
  · split <;> exact ⟨rfl, rfl⟩

theorem onMessageRead_groups_users (s : ServerState) (id : MessageId) (now : Timestamp) :
    (onMessageRead s id now).groups = s.groups ∧
      (onMessageRead s id now).users = s.users := by
  unfold onMessageRead
  simp only
  split
  · exact ⟨rfl, rfl⟩
  · split <;> exact ⟨rfl, rfl⟩

theorem onGroupMessageRead_rest (s : ServerState) (id : MessageId) (u : UserId)
    (now : Timestamp) :
    (onGroupMessageRead s id u now).messages = s.messages ∧
      (onGroupMessageRead s id u now).groups = s.groups ∧
      (onGroupMessageRead s id u now).users = s.users := by
  unfold onGroupMessageRead
  simp only
  split
  · exact ⟨rfl, rfl, rfl⟩
  · split <;> exact ⟨rfl, rfl, rfl⟩

/-- C27.  For every acknowledgement event (`messageDelivered`, `messageRead`,
`groupMessageRead`, `groupMessageDelivered`) and any two registries: the handler, a total
function of the state, leaves the same messages, group messages, groups and users
whichever of the two registries the state holds, and it returns the registry it was
given.  The registry is read only to address the notifications. -/
theorem store_independent_of_presence (s : ServerState) (r1 r2 : UserSocketMap)
    (e : SocketEvent) (he : isAcknowledgement e = true) :
    (handle { s with userSocketMap := r1 } e).messages =
        (handle { s with userSocketMap := r2 } e).messages ∧
      (handle { s with userSocketMap := r1 } e).groupMessages =
        (handle { s with userSocketMap := r2 } e).groupMessages ∧
      (handle { s with userSocketMap := r1 } e).groups =
        (handle { s with userSocketMap := r2 } e).groups ∧
      (handle { s with userSocketMap := r1 } e).users =
        (handle { s with userSocketMap := r2 } e).users ∧
      (handle { s with userSocketMap := r1 } e).userSocketMap = r1 ∧
      (handle s e).userSocketMap = s.userSocketMap := by
  cases e with
  | connection socketId userId => simp [isAcknowledgement] at he
  | disconnect socketId => simp [isAcknowledgement] at he
  | typingStart r t => simp [isAcknowledgement] at he
  | typingStop r t => simp [isAcknowledgement] at he
  | messageDelivered id now =>
    simp only [handle]
    refine ⟨?_, ?_, ?_, ?_, onMessageDelivered_userSocketMap _ id now,
      onMessageDelivered_userSocketMap s id now⟩
    · rw [onMessageDelivered_messages, onMessageDelivered_messages]
    · rw [onMessageDelivered_groupMessages, onMessageDelivered_groupMessages]
    · rw [(onMessageDelivered_groups_users _ id now).1,
        (onMessageDelivered_groups_users _ id now).1]
    · rw [(onMessageDelivered_groups_users _ id now).2,
        (onMessageDelivered_groups_users _ id now).2]
  | messageRead id now =>
    simp only [handle]
    refine ⟨?_, ?_, ?_, ?_, onMessageRead_userSocketMap _ id now,
      onMessageRead_userSocketMap s id now⟩
    · rw [onMessageRead_messages, onMessageRead_messages]
    · rw [onMessageRead_groupMessages, onMessageRead_groupMessages]
    · rw [(onMessageRead_groups_users _ id now).1, (onMessageRead_groups_users _ id now).1]
    · rw [(onMessageRead_groups_users _ id now).2, (onMessageRead_groups_users _ id now).2]
  | groupMessageRead id u now =>
    simp only [handle]
    refine ⟨?_, ?_, ?_, ?_, onGroupMessageRead_userSocketMap _ id u now,
      onGroupMessageRead_userSocketMap s id u now⟩
    · rw [(onGroupMessageRead_rest _ id u now).1, (onGroupMessageRead_rest _ id u now).1]
    · rw [onGroupMessageRead_groupMessages, onGroupMessageRead_groupMessages]
    · rw [(onGroupMessageRead_rest _ id u now).2.1, (onGroupMessageRead_rest _ id u now).2.1]
    · rw [(onGroupMessageRead_rest _ id u now).2.2, (onGroupMessageRead_rest _ id u now).2.2]
  | groupMessageDelivered id u now => exact ⟨rfl, rfl, rfl, rfl, rfl, rfl⟩

/-- C27 at the sample chat: `messageRead` of `m1` with the registry of the sample and with
the empty registry. -/
theorem store_independent_of_presence_witness :
    (handle { sampleChat with userSocketMap := [("u2", "c2"), ("u1", "c1")] }
        (SocketEvent.messageRead "m1" 9)).messages =
      (handle { sampleChat with userSocketMap := [] }
        (SocketEvent.messageRead "m1" 9)).messages :=
  (store_independent_of_presence sampleChat [("u2", "c2"), ("u1", "c1")] []
    (SocketEvent.messageRead "m1" 9) rfl).1

/-! ## Properties of the offline queue of the client -/

theorem sendPendingLoop_posted (post : PendingMessage → Option Nat)
    (rest : List PendingMessage) (b : Browser) :
    (sendPendingLoop post rest b).posted = b.posted ++ rest := by
  induction rest generalizing b with
  | nil => simp [sendPendingLoop]
  | cons message rest ih =>
    unfold sendPendingLoop
    simp only
    split
    · split
      · rw [ih]; simp [removePendingMessage]
      · rw [ih]; simp
    · rw [ih]; simp

/-- The stored array after the loop: the entries whose `id` is not the `id` of a posted
message that was answered 201. -/
theorem sendPendingLoop_queue (post : PendingMessage → Option Nat)
    (rest : List PendingMessage) (b : Browser) :
    getPendingMessages (sendPendingLoop post rest b) =
      (getPendingMessages b).filter (fun m =>
        m.id ∉ (rest.filter (fun x => post x = some 201)).map PendingMessage.id) := by
  induction rest generalizing b with
  | nil => simp [sendPendingLoop]
  | cons message rest ih =>
    unfold sendPendingLoop
    simp only
    cases hp : post message with
    | none =>
      simp only [hp]
      rw [ih]
      simp [List.filter_cons, hp, getPendingMessages]
    | some status =>
      by_cases h201 : status = 201
      · subst h201
        simp only [if_true]
        rw [ih]
        have hq : getPendingMessages
            (removePendingMessage { b with posted := b.posted ++ [message] } message.id) =
            (getPendingMessages b).filter (fun msg => msg.id ≠ message.id) := rfl
        rw [hq, List.filter_filter]
        apply List.filter_congr
        intro x _
        have hf : List.filter (fun y => decide (post y = some 201)) (message :: rest) =
            message :: List.filter (fun y => decide (post y = some 201)) rest := by
          simp [List.filter_cons, hp]
        rw [hf]
        by_cases h1 : x.id = message.id <;>
          by_cases h2 : x.id ∈ List.map PendingMessage.id
            (List.filter (fun y => decide (post y = some 201)) rest) <;>
          simp [h1, h2]
      · simp only [h201, if_false]
        rw [ih]
        simp [List.filter_cons, hp, h201, getPendingMessages]

/-- C29.  For every stored queue with distinct message ids and every outcome of the
individual requests: after `attemptToSendPendingMessages` the stored queue is the former
one, in its order, without the messages whose request was answered 201, so a message
stays exactly when its request failed, threw or was answered otherwise; every queued
message was posted once, in queue order.  And `removePendingMessage(id)` stores the
queue without the entries of that `id`, keeping all others. -/
theorem pending_queue_after_attempt (post : PendingMessage → Option Nat) (b : Browser)
    (hnd : ((getPendingMessages b).map PendingMessage.id).Nodup) :
    getPendingMessages (attemptToSendPendingMessages post b) =
        (getPendingMessages b).filter (fun m => post m ≠ some 201) ∧
      (∀ m ∈ getPendingMessages b,
        (m ∈ getPendingMessages (attemptToSendPendingMessages post b) ↔
          post m ≠ some 201)) ∧
      (attemptToSendPendingMessages post b).posted = b.posted ++ getPendingMessages b ∧
      (∀ id : String, getPendingMessages (removePendingMessage b id) =
        (getPendingMessages b).filter (fun m => m.id ≠ id)) := by
  have hq : getPendingMessages (attemptToSendPendingMessages post b) =
      (getPendingMessages b).filter (fun m => post m ≠ some 201) := by
    unfold attemptToSendPendingMessages
    simp only
    split
    · next h0 =>
      have : getPendingMessages b = [] := List.length_eq_zero.mp h0
      rw [this]; rfl
    · rw [sendPendingLoop_queue]
      apply List.filter_congr
      intro x hx
      have hiff : x.id ∈ ((getPendingMessages b).filter
          (fun y => post y = some 201)).map PendingMessage.id ↔ post x = some 201 := by
        constructor
        · intro hmem
          obtain ⟨y, hy, hyx⟩ := List.mem_map.mp hmem
          have hy1 := List.mem_filter.mp hy
          have hxy : y = x := List.inj_on_of_nodup_map hnd hy1.1 hx hyx
          rw [← hxy]
          simpa using hy1.2
        · intro hpx
          exact List.mem_map.mpr ⟨x, List.mem_filter.mpr ⟨hx, by simpa using hpx⟩, rfl⟩
      by_cases hpx : post x = some 201
      · simp [hiff.mpr hpx, hpx]
      · have : x.id ∉ ((getPendingMessages b).filter
            (fun y => post y = some 201)).map PendingMessage.id := fun h => hpx (hiff.mp h)
        simp [this, hpx]
  refine ⟨hq, ?_, ?_, fun _ => rfl⟩
  · intro m hm
    rw [hq, List.mem_filter]
    simp [hm]
  · unfold attemptToSendPendingMessages
    simp only
    split
    · next h0 =>
      have : getPendingMessages b = [] := List.length_eq_zero.mp h0
      rw [this]; simp
    · exact sendPendingLoop_posted post _ b

/-- C29 at the sample queue: the first request is answered 201, the second throws, the
third is answered 200; the second and third message stay. -/
theorem pending_queue_after_attempt_witness :
    getPendingMessages (attemptToSendPendingMessages samplePost ⟨some sampleQueue, []⟩) =
        [⟨"offline-2", "u2", "b", 2⟩, ⟨"offline-3", "u2", "c", 3⟩] ∧
      (attemptToSendPendingMessages samplePost ⟨some sampleQueue, []⟩).posted = sampleQueue :=
  let h := pending_queue_after_attempt samplePost ⟨some sampleQueue, []⟩ (by decide)
  ⟨by rw [h.1]; decide, by rw [h.2.2.1]; rfl⟩

/-! ## Properties of the message encryption of the client -/

/-- The round trip of `decryptMessage` after `encryptMessage` for one message whose
ciphertext the engine can spread, given the inverse laws of the platform primitives at
that message. -/
theorem decryptMessage_encryptMessage {Key Meta : Type} (w : WebCrypto Key Meta)
    (message : String) (key : Key) (iv : List Nat) (hiv : iv.length = 12)
    (hfits : (iv ++ w.encrypt key iv (w.encode message)).length ≤ w.maxArguments)
    (hbase64 : w.atob (w.btoa (iv ++ w.encrypt key iv (w.encode message))) =
      some (iv ++ w.encrypt key iv (w.encode message)))
    (haes : w.decrypt key iv (w.encrypt key iv (w.encode message)) =
      some (w.encode message))
    (hutf8 : w.decode (w.encode message) = message) :
    (encryptMessage w message key iv).bind (fun encrypted => decryptMessage w encrypted key) =
      Except.ok message := by
  unfold encryptMessage
  simp only [hfits, if_true, Except.bind]
  unfold decryptMessage
  simp only [hbase64, List.take_left' hiv, List.drop_left' hiv, haes, hutf8]

/-- The framing of `encryptMessage` and `decryptMessage`.  For every key, every 12-byte IV
and every message whose IV and ciphertext the engine can spread: the output of
`encryptMessage` is the base64 text of the IV followed by the ciphertext, the first 12
bytes of that byte string are the IV and the rest is the ciphertext; so when base64
decoding inverts the encoding, AES-GCM decryption inverts the encryption under the same
key and IV, and UTF-8 decoding inverts the encoding, at this message, then
`decryptMessage(encryptMessage(m, k), k) = m`.  Likewise for the file metadata when
moreover `JSON.parse` inverts `JSON.stringify`. -/
theorem round_trip_within_limit {Key Meta : Type} (w : WebCrypto Key Meta) (key : Key)
    (iv : List Nat) (hiv : iv.length = 12) :
    (∀ message : String,
        (iv ++ w.encrypt key iv (w.encode message)).length ≤ w.maxArguments →
        encryptMessage w message key iv =
          Except.ok (w.btoa (iv ++ w.encrypt key iv (w.encode message))) ∧
        (iv ++ w.encrypt key iv (w.encode message)).take 12 = iv ∧
        (iv ++ w.encrypt key iv (w.encode message)).drop 12 =
          w.encrypt key iv (w.encode message)) ∧
      (∀ message : String,
        (iv ++ w.encrypt key iv (w.encode message)).length ≤ w.maxArguments →
        w.atob (w.btoa (iv ++ w.encrypt key iv (w.encode message))) =
          some (iv ++ w.encrypt key iv (w.encode message)) →
        w.decrypt key iv (w.encrypt key iv (w.encode message)) = some (w.encode message) →
        w.decode (w.encode message) = message →
        (encryptMessage w message key iv).bind
            (fun encrypted => decryptMessage w encrypted key) = Except.ok message) ∧
      (∀ fileMetadata : Meta,
        (iv ++ w.encrypt key iv (w.encode (w.stringify fileMetadata))).length ≤
          w.maxArguments →
        w.atob (w.btoa (iv ++ w.encrypt key iv (w.encode (w.stringify fileMetadata)))) =
          some (iv ++ w.encrypt key iv (w.encode (w.stringify fileMetadata))) →
        w.decrypt key iv (w.encrypt key iv (w.encode (w.stringify fileMetadata))) =
          some (w.encode (w.stringify fileMetadata)) →
        w.decode (w.encode (w.stringify fileMetadata)) = w.stringify fileMetadata →
        w.parse (w.stringify fileMetadata) = some fileMetadata →
        (encryptFileMetadata w fileMetadata key iv).bind
            (fun encrypted => decryptFileMetadata w encrypted key) =
          Except.ok fileMetadata) := by
  refine ⟨fun message hfits => ⟨?_, List.take_left' hiv, List.drop_left' hiv⟩, ?_, ?_⟩
  · unfold encryptMessage
    simp only [hfits, if_true]
  · intro message hfits hbase64 haes hutf8
    exact decryptMessage_encryptMessage w message key iv hiv hfits hbase64 haes hutf8
  · intro fileMetadata hfits hbase64 haes hutf8 hjson
    have h := decryptMessage_encryptMessage w _ key iv hiv hfits hbase64 haes hutf8
    unfold encryptFileMetadata
    unfold encryptMessage at h ⊢
    simp only [hfits, if_true, Except.bind] at h ⊢
    unfold decryptFileMetadata
    rw [h]
    simp only [hjson]

/-- The round trip at the stand-in primitives: the message `hi` and the metadata
`doc.pdf`. -/
theorem round_trip_within_limit_witness :
    (encryptMessage sampleCrypto "hi" () sampleIv).bind
        (fun encrypted => decryptMessage sampleCrypto encrypted ()) = Except.ok "hi" ∧
      (encryptFileMetadata sampleCrypto "doc.pdf" () sampleIv).bind
        (fun encrypted => decryptFileMetadata sampleCrypto encrypted ()) =
        Except.ok "doc.pdf" :=
  ⟨(round_trip_within_limit sampleCrypto () sampleIv (by decide)).2.1 "hi"
      (by decide) (by decide) (by decide) (by decide),
    (round_trip_within_limit sampleCrypto () sampleIv (by decide)).2.2 "doc.pdf"
      (by decide) (by decide) (by decide) (by decide) (by decide)⟩

/-- C30.  For every engine, key, IV and message: when the IV followed by the ciphertext
has more bytes than the engine accepts as the arguments of one call, the expression
`String.fromCharCode(...result)` of `encryptMessage` throws a `RangeError`, so
`encryptMessage` returns no ciphertext and `decryptMessage(encryptMessage(m, k), k)` is
not `m`; `encryptFileMetadata` fails in the same way on metadata whose JSON text is
`m`. -/
theorem encryptMessage_long_message_throws {Key Meta : Type} (w : WebCrypto Key Meta)
    (message : String) (key : Key) (iv : List Nat)
    (hlong : w.maxArguments < (iv ++ w.encrypt key iv (w.encode message)).length) :
    encryptMessage w message key iv = Except.error "RangeError" ∧
      (encryptMessage w message key iv).bind
          (fun encrypted => decryptMessage w encrypted key) = Except.error "RangeError" ∧
      (encryptMessage w message key iv).bind
          (fun encrypted => decryptMessage w encrypted key) ≠ Except.ok message ∧
      ∀ fileMetadata : Meta, w.stringify fileMetadata = message →
        encryptFileMetadata w fileMetadata key iv = Except.error "RangeError" := by
  have hnot : ¬ (iv ++ w.encrypt key iv (w.encode message)).length ≤ w.maxArguments :=
    Nat.not_le.mpr hlong
  have henc : encryptMessage w message key iv = Except.error "RangeError" := by
    unfold encryptMessage
    simp only [hnot, if_false]
  refine ⟨henc, ?_, ?_, ?_⟩
  · rw [henc]; rfl
  · rw [henc]; intro h; cases h
  · intro fileMetadata hjson
    unfold encryptFileMetadata
    rw [hjson]; exact henc

/-- C30 at the stand-in primitives, whose calls take at most 65536 arguments: a message
of one million characters `a`. -/
theorem encryptMessage_long_message_throws_witness :
    encryptMessage sampleCrypto (String.mk (List.replicate 1000000 'a')) () sampleIv =
        Except.error "RangeError" ∧
      (encryptMessage sampleCrypto (String.mk (List.replicate 1000000 'a')) () sampleIv).bind
          (fun encrypted => decryptMessage sampleCrypto encrypted ()) ≠
        Except.ok (String.mk (List.replicate 1000000 'a')) :=
  let h := encryptMessage_long_message_throws sampleCrypto
    (String.mk (List.replicate 1000000 'a')) () sampleIv
    (by
      show 65536 < (sampleIv ++ List.map (fun b => b + sampleIv.headD 0)
        (List.map Char.toNat (List.replicate 1000000 'a'))).length
      rw [List.length_append, List.length_map, List.length_map, List.length_replicate]
      decide)
  ⟨h.1, h.2.2.1⟩

end ChatApp
